import Mathlib

/-!
Baofeng clone utilities: memory codec and block transfer.

A shallow embedding of the clone utilities for the Baofeng UV-5R
(`hamradio/baoclone/baoclone.c`), UV-B5 (`hamradio/baoclone/uv-b5.c`) and
BF-888S (`trunk/hamradio/baoclone/bf-888s.c`), and of the register interface
of the KGD disk controller (`bk/simh-pdp11/pdp11_kgd.c`).

Conventions of the embedding.

* Device memory (`mem`, `radio_mem`) is a function from addresses to cells;
  a cell is read as an `unsigned char`, that is modulo 256.
* The packed records are overlaid on the memory the way the host compilers
  of these tools lay them out: multi-byte fields little-endian, bit-fields
  allocated from the least significant bit of their byte.
* `uint32_t` arithmetic wraps modulo `2^32`; the conversion of the result to
  `int` is `toInt32`.
* An `int *` output parameter is a field of a record that is passed in (the
  caller's variable before the call) and returned (after the call).
-/

set_option autoImplicit false

/-! ## Machine integers and memory -/

/-- Conversion of an unsigned 32-bit value to `int` (two's complement). -/
def toInt32 (n : Nat) : Int :=
  if n % 2 ^ 32 < 2 ^ 31 then ((n % 2 ^ 32 : Nat) : Int)
  else ((n % 2 ^ 32 : Nat) : Int) - 2 ^ 32

/-- Result of an `int` operation, wrapped to 32 bits. -/
def wrapInt32 (x : Int) : Int :=
  toInt32 (x % 2 ^ 32).toNat

/-- Device memory: one cell per address. -/
abbrev Mem := Nat → Nat

/-- The `unsigned char` at address `a`. -/
def byte (m : Mem) (a : Nat) : Nat := m a % 256

/-- The `uint16_t` field at address `a` (little-endian host). -/
def rd16 (m : Mem) (a : Nat) : Nat :=
  byte m a + 256 * byte m (a + 1)

/-- The `uint32_t` field at address `a` (little-endian host). -/
def rd32 (m : Mem) (a : Nat) : Nat :=
  byte m a + 256 * byte m (a + 1) + 65536 * byte m (a + 2) + 16777216 * byte m (a + 3)

/-- A bit-field of `width` bits starting at bit `lo` of the byte `b`. -/
def bits (b lo width : Nat) : Nat := (b >>> lo) % 2 ^ width

/-- The C string held in a `char` buffer: the bytes before the first NUL. -/
def cstr (buf : List Nat) : List Nat := buf.takeWhile (fun c => c != 0)

/-- C truth value of `!x`. -/
def lnot (x : Nat) : Int := if x = 0 then 1 else 0

/-! ## BCD conversion -/

/-- The function `bcd_to_int` of `bf-888s.c`: eight BCD digits to a number.
The sum is formed in `uint32_t` and returned as `int`. -/
def bcd_to_int (bcd : Nat) : Int :=
  toInt32 (((bcd >>> 28) &&& 15) * 10000000 +
           ((bcd >>> 24) &&& 15) * 1000000 +
           ((bcd >>> 20) &&& 15) * 100000 +
           ((bcd >>> 16) &&& 15) * 10000 +
           ((bcd >>> 12) &&& 15) * 1000 +
           ((bcd >>> 8)  &&& 15) * 100 +
           ((bcd >>> 4)  &&& 15) * 10 +
           (bcd          &&& 15))

/-- The function `bcd_to_hz` of `baoclone.c`: eight BCD digits, in units of
ten hertz, to hertz. The sum is formed in `uint32_t` and returned as `int`. -/
def bcd_to_hz (bcd : Nat) : Int :=
  toInt32 (((bcd >>> 28) &&& 15) * 100000000 +
           ((bcd >>> 24) &&& 15) * 10000000 +
           ((bcd >>> 20) &&& 15) * 1000000 +
           ((bcd >>> 16) &&& 15) * 100000 +
           ((bcd >>> 12) &&& 15) * 10000 +
           ((bcd >>> 8)  &&& 15) * 1000 +
           ((bcd >>> 4)  &&& 15) * 100 +
           (bcd          &&& 15) * 10)

/-! ## UV-5R codec (`baoclone.c`) -/

namespace UV5R

/-- The table `DCS_CODES` of `baoclone.c` (104 entries). -/
def DCS_CODES : List Int := [
   23,  25,  26,  31,  32,  36,  43,  47,  51,  53,  54,
   65,  71,  72,  73,  74, 114, 115, 116, 122, 125, 131,
  132, 134, 143, 145, 152, 155, 156, 162, 165, 172, 174,
  205, 212, 223, 225, 226, 243, 244, 245, 246, 251, 252,
  255, 261, 263, 265, 266, 271, 274, 306, 311, 315, 325,
  331, 332, 343, 346, 351, 356, 364, 365, 371, 411, 412,
  413, 423, 431, 432, 445, 446, 452, 454, 455, 462, 464,
  465, 466, 503, 506, 516, 523, 526, 532, 546, 565, 606,
  612, 624, 627, 631, 632, 654, 662, 664, 703, 712, 723,
  731, 732, 734, 743, 754]

/-- The expression `DCS_CODES[k]`. For `k` past the end of the table C reads
whatever lies behind the array; that value is `beyond k`, a parameter of the
model. -/
def dcs_at (beyond : Nat → Int) (k : Nat) : Int :=
  if k < DCS_CODES.length then DCS_CODES.getD k 0 else beyond k

/-- The function `decode_squelch` of `baoclone.c`. `ctcs` and `dcs` are the
values of `*ctcs` and `*dcs` before the call, the result is the pair after. -/
def decode_squelch (beyond : Nat → Int) (index : Nat) (ctcs dcs : Int) : Int × Int :=
  if index = 0 ∨ index = 0xffff then
    -- Squelch disabled.
    (ctcs, dcs)
  else
    -- CTCSS value is Hz multiplied by 10.
    let ctcs1 : Int := if index ≥ 0x0258 then (index : Int) else ctcs
    -- DCS mode.
    if index < 0x6A then
      (ctcs1, dcs_at beyond (index - 1))
    else
      (ctcs1, - dcs_at beyond (index - 0x6A))

/-- The caller's variables that `decode_channel` of `baoclone.c` writes. -/
structure Channel where
  name : List Nat
  rx_hz : Int
  tx_hz : Int
  rx_ctcs : Int
  tx_ctcs : Int
  rx_dcs : Int
  tx_dcs : Int
  lowpower : Int
  wide : Int
  bcl : Int
  scan : Int
  pttid : Int
  scode : Int
deriving DecidableEq, Repr

/-- The call `strncpy (dst, src, n)` on the `n` bytes `src`: the bytes before
the first NUL, padded with NULs to `n` bytes. -/
def strncpy (src : List Nat) (n : Nat) : List Nat :=
  let s := cstr (src.take n)
  s ++ List.replicate (n - s.length) 0

/-- The loop `for (p=name+6; p>=name && *p=='\xff'; p--) *p = 0;`, with
`k = p - name + 1`. -/
def strip_ff (name : List Nat) : Nat → List Nat
  | 0 => name
  | k + 1 => if name.getD k 0 = 0xff then strip_ff (name.set k 0) k else name

/-- The function `decode_channel` of `baoclone.c`; `o` holds the caller's
variables before the call. -/
def decode_channel (beyond : Nat → Int) (mem : Mem) (i : Nat) (o : Channel) : Channel :=
  let ch := 16 * i
  let o1 : Channel := { o with
    rx_hz := 0, tx_hz := 0, rx_ctcs := 0, tx_ctcs := 0, rx_dcs := 0, tx_dcs := 0,
    name := 0 :: o.name.drop 1 }
  if rd32 mem ch = 0 ∨ rd32 mem ch = 0xffffffff then
    o1
  else
    -- Extract channel name; strip trailing FF's.
    let src := (List.range 7).map (fun n => byte mem (0x1000 + i * 16 + n))
    let name := strip_ff (strncpy src 7 ++ 0 :: o1.name.drop 8) 7
    -- Decode squelch modes.
    let rx := decode_squelch beyond (rd16 mem (ch + 8)) o1.rx_ctcs o1.rx_dcs
    let tx := decode_squelch beyond (rd16 mem (ch + 10)) o1.tx_ctcs o1.tx_dcs
    { name := name,
      rx_hz := bcd_to_hz (rd32 mem ch),
      tx_hz := bcd_to_hz (rd32 mem (ch + 4)),
      rx_ctcs := rx.1, rx_dcs := rx.2,
      tx_ctcs := tx.1, tx_dcs := tx.2,
      lowpower := bits (byte mem (ch + 14)) 0 1,
      wide := bits (byte mem (ch + 15)) 6 1,
      bcl := bits (byte mem (ch + 15)) 3 1,
      scan := bits (byte mem (ch + 15)) 2 1,
      scode := bits (byte mem (ch + 12)) 0 4,
      pttid := ((bits (byte mem (ch + 15)) 0 1 ||| (bits (byte mem (ch + 15)) 1 1 <<< 1) : Nat) : Int) }

end UV5R

/-! ## UV-B5 codec (`uv-b5.c`) -/

namespace UVB5

/-- The constant `NCHAN`. -/
def NCHAN : Nat := 99

/-- The table `CTCSS_TONES` of `uv-b5.c` (50 entries). -/
def CTCSS_TONES : List Int := [
   670,  693,  719,  744,  770,  797,  825,  854,  885,  915,
   948,  974, 1000, 1035, 1072, 1109, 1148, 1188, 1230, 1273,
  1318, 1365, 1413, 1462, 1514, 1567, 1598, 1622, 1655, 1679,
  1713, 1738, 1773, 1799, 1835, 1862, 1899, 1928, 1966, 1995,
  2035, 2065, 2107, 2181, 2257, 2291, 2336, 2418, 2503, 2541]

/-- The table `DCS_CODES` of `uv-b5.c` (104 entries). -/
def DCS_CODES : List Int := [
   23,  25,  26,  31,  32,  36,  43,  47,  51,  53,
   54,  65,  71,  72,  73,  74, 114, 115, 116, 122,
  125, 131, 132, 134, 143, 145, 152, 155, 156, 162,
  165, 172, 174, 205, 212, 223, 225, 226, 243, 244,
  245, 246, 251, 252, 255, 261, 263, 265, 266, 271,
  274, 306, 311, 315, 325, 331, 332, 343, 346, 351,
  356, 364, 365, 371, 411, 412, 413, 423, 431, 432,
  445, 446, 452, 454, 455, 462, 464, 465, 466, 503,
  506, 516, 523, 526, 532, 546, 565, 606, 612, 624,
  627, 631, 632, 654, 662, 664, 703, 712, 723, 731,
  732, 734, 743, 754]

/-- The string `CHARSET` of `uv-b5.c`: 42 glyphs and the terminating NUL. -/
def CHARSET : List Nat :=
  "0123456789- ABCDEFGHIJKLMNOPQRSTUVWXYZ/_+*".toList.map Char.toNat ++ [0]

/-- The expression `CTCSS_TONES[k]`; past the end of the table the value is
`beyond k`, a parameter of the model. -/
def ctcss_at (beyond : Nat → Int) (k : Nat) : Int :=
  if k < CTCSS_TONES.length then CTCSS_TONES.getD k 0 else beyond k

/-- The expression `DCS_CODES[k]`; past the end of the table the value is
`beyond k`, a parameter of the model. -/
def dcs_at (beyond : Nat → Int) (k : Nat) : Int :=
  if k < DCS_CODES.length then DCS_CODES.getD k 0 else beyond k

/-- The function `decode_squelch` of `uv-b5.c`. `index` is the tone byte,
`pol` the polarity bit; `ctcs` and `dcs` are the values of `*ctcs` and
`*dcs` before the call, the result is the pair after. -/
def decode_squelch (beyond : Nat → Int) (index pol : Nat) (ctcs dcs : Int) : Int × Int :=
  if index = 0 then
    -- Squelch disabled.
    (ctcs, dcs)
  else if index ≤ 50 then
    -- CTCSS value is Hz multiplied by 10.
    (ctcss_at beyond (index - 1), 0)
  else
    -- DCS mode.
    let d := dcs_at beyond (index - 51)
    (0, if pol ≠ 0 then - d else d)

/-- The caller's variables that `decode_channel` of `uv-b5.c` writes; `name`
is `none` for a null pointer. -/
structure Channel where
  name : Option (List Nat)
  rx_hz : Int
  txoff_hz : Int
  rx_ctcs : Int
  tx_ctcs : Int
  rx_dcs : Int
  tx_dcs : Int
  lowpower : Int
  wide : Int
  scan : Int
  pttid : Int
  bcl : Int
  compander : Int
  duplex : Int
  revfreq : Int
deriving DecidableEq, Repr

/-- The loop `for (n=0; n<5; n++) name[n] = (*p < 42) ? CHARSET[*p++] : 0;`
with `k` rounds to go: the pointer `p` advances only past a byte below 42. -/
def name_loop (mem : Mem) : Nat → Nat → List Nat
  | 0, _ => []
  | k + 1, p =>
    if byte mem p < 42 then CHARSET.getD (byte mem p) 0 :: name_loop mem k (p + 1)
    else 0 :: name_loop mem k p

/-- The function `decode_channel` of `uv-b5.c`; `o` holds the caller's
variables before the call. `bcd_to_int` is declared in `util.h`; its
definition is not part of `uv-b5.c` and is a parameter here. -/
def decode_channel (bcd_to_int : Nat → Int) (beyond : Nat → Int) (radio_mem : Mem)
    (i : Nat) (o : Channel) : Channel :=
  let ch := 16 * i
  let o1 : Channel := { o with
    rx_hz := 0, txoff_hz := 0, rx_ctcs := 0, tx_ctcs := 0, rx_dcs := 0, tx_dcs := 0,
    lowpower := 0, wide := 0, scan := 0, pttid := 0, bcl := 0, compander := 0,
    duplex := 0, revfreq := 0,
    name := o.name.map (fun buf => 0 :: buf.drop 1) }
  if rd32 radio_mem ch = 0 ∨ rd32 radio_mem ch = 0xffffffff then
    o1
  else
    -- Extract channel name.
    let name := o1.name.map (fun buf =>
      if 1 ≤ i ∧ i ≤ NCHAN then
        name_loop radio_mem 5 (0x0A00 + (i - 1) * 5) ++ 0 :: buf.drop 6
      else buf)
    -- Decode squelch modes.
    let rx := decode_squelch beyond (byte radio_mem (ch + 9))
                (bits (byte radio_mem (ch + 8)) 4 1) o1.rx_ctcs o1.rx_dcs
    let tx := decode_squelch beyond (byte radio_mem (ch + 10))
                (bits (byte radio_mem (ch + 8)) 5 1) o1.tx_ctcs o1.tx_dcs
    { name := name,
      rx_hz := wrapInt32 (bcd_to_int (rd32 radio_mem ch) * 10),
      txoff_hz := wrapInt32 (bcd_to_int (rd32 radio_mem (ch + 4)) * 10),
      rx_ctcs := rx.1, rx_dcs := rx.2,
      tx_ctcs := tx.1, tx_dcs := tx.2,
      lowpower := lnot (bits (byte radio_mem (ch + 11)) 3 1),
      wide := lnot (bits (byte radio_mem (ch + 11)) 5 1),
      scan := bits (byte radio_mem (ch + 11)) 6 1,
      pttid := bits (byte radio_mem (ch + 11)) 7 1,
      bcl := bits (byte radio_mem (ch + 11)) 4 1,
      compander := bits (byte radio_mem (ch + 8)) 3 1,
      duplex := bits (byte radio_mem (ch + 11)) 0 2,
      revfreq := bits (byte radio_mem (ch + 11)) 2 1 }

end UVB5

/-! ## BF-888S codec (`bf-888s.c`) -/

namespace BF888S

/-- The function `decode_squelch` of `bf-888s.c`. `ctcs` and `dcs` are the
values of `*ctcs` and `*dcs` before the call, the result is the pair after. -/
def decode_squelch (bcd : Nat) (ctcs dcs : Int) : Int × Int :=
  if bcd = 0 ∨ bcd = 0xffff then
    -- Squelch disabled.
    (ctcs, dcs)
  else
    let index : Int := (((bcd >>> 12) &&& 15) * 1000 +
                        ((bcd >>> 8)  &&& 15) * 100 +
                        ((bcd >>> 4)  &&& 15) * 10 +
                        (bcd          &&& 15) : Nat)
    -- CTCSS value is Hz multiplied by 10.
    let ctcs1 : Int := if index < 8000 then index else ctcs
    -- DCS mode.
    if index < 12000 then
      (ctcs1, index - 8000)
    else
      (ctcs1, - (index - 12000))

/-- The caller's variables that `decode_channel` of `bf-888s.c` writes. -/
structure Channel where
  rx_hz : Int
  tx_hz : Int
  rx_ctcs : Int
  tx_ctcs : Int
  rx_dcs : Int
  tx_dcs : Int
  lowpower : Int
  wide : Int
  scan : Int
  bcl : Int
  scramble : Int
deriving DecidableEq, Repr

/-- The function `decode_channel` of `bf-888s.c`; `o` holds the caller's
variables before the call. -/
def decode_channel (radio_mem : Mem) (i : Nat) (o : Channel) : Channel :=
  let ch := 0x10 + 16 * i
  let o1 : Channel := { o with
    rx_hz := 0, tx_hz := 0, rx_ctcs := 0, tx_ctcs := 0, rx_dcs := 0, tx_dcs := 0 }
  if rd32 radio_mem ch = 0 ∨ rd32 radio_mem ch = 0xffffffff then
    o1
  else
    -- Decode squelch modes.
    let rx := decode_squelch (rd16 radio_mem (ch + 8)) o1.rx_ctcs o1.rx_dcs
    let tx := decode_squelch (rd16 radio_mem (ch + 10)) o1.tx_ctcs o1.tx_dcs
    { rx_hz := wrapInt32 (bcd_to_int (rd32 radio_mem ch) * 10),
      tx_hz := wrapInt32 (bcd_to_int (rd32 radio_mem (ch + 4)) * 10),
      rx_ctcs := rx.1, rx_dcs := rx.2,
      tx_ctcs := tx.1, tx_dcs := tx.2,
      lowpower := lnot (bits (byte radio_mem (ch + 12)) 3 1),
      wide := lnot (bits (byte radio_mem (ch + 12)) 2 1),
      scan := lnot (bits (byte radio_mem (ch + 12)) 4 1),
      bcl := lnot (bits (byte radio_mem (ch + 12)) 0 1),
      scramble := lnot (bits (byte radio_mem (ch + 12)) 1 1) }

end BF888S

/-! ## Serial link

The port is an explicit state. `sent` collects the bytes written so far.
`inp` is what the device delivers: the head chunk is what a `select` finds
readable, an empty chunk is a `select` that times out, and an exhausted list
is a device that stays silent. `up = false` is a port on which `write` fails.
The progress marks and the verbose trace that the block functions print are
not part of the model. -/

/-- State of the serial port. -/
structure Link where
  up : Bool
  sent : List Nat
  inp : List (List Nat)
deriving DecidableEq, Repr

/-- The reasons for which the block functions, `identify` and the image
readers call `exit (-1)`. -/
inductive Fatal where
  | serial_port
  | refused
  | bad_reply
  | short_data
  | no_acknowledge
  | bad_acknowledge
  | not_detected
  | file_open
  | image_header
  | header
  | image_data
  | image_footer
deriving DecidableEq, Repr

/-- Outcome of a block function: `status = none` when it returns to its
caller, `some e` when it halts the program; the port and the memory as it
leaves them. -/
structure Run where
  status : Option Fatal
  link : Link
  mem : Mem

/-- The call `write (fd, bs, n)` with `n` the length of `bs`: the return
value and the port after it. -/
def write (l : Link) (bs : List Nat) : Int × Link :=
  if l.up then ((bs.length : Int), { l with sent := l.sent ++ bs }) else (-1, l)

/-- Bytes `bs` stored at address `p` and following. -/
def store (m : Mem) (p : Nat) (bs : List Nat) : Mem :=
  fun a => if p ≤ a ∧ a < p + bs.length then bs.getD (a - p) 0 else m a

/-- Element `k` of a local `unsigned char` array filled from the port. -/
def uchar (buf : List Nat) (k : Nat) : Nat := buf.getD k 0 % 256

/-- The loop of `read_with_timeout` of `baoclone.c`. `len0` is the requested
length, `len` what is still missing, `got` the bytes stored so far; the
result is the return value, the bytes stored, and the remaining input. -/
def read_loop (len0 : Nat) : List (List Nat) → Nat → List Nat → Nat × List Nat × List (List Nat)
  | [], _, got => (0, got, [])
  | c :: rest, len, got =>
    if c = [] then
      -- select does not return 1
      (0, got, rest)
    else
      let nbytes := min len c.length
      if nbytes = 0 then
        (0, got, c :: rest)
      else if len - nbytes = 0 then
        (len0, got ++ c.take nbytes,
          if c.drop nbytes = [] then rest else c.drop nbytes :: rest)
      else
        read_loop len0 rest (len - nbytes) (got ++ c.take nbytes)

/-- The function `read_with_timeout` of `baoclone.c`: the return value, the
bytes stored at `data` in order, and the port after the call. -/
def read_with_timeout (l : Link) (len : Nat) : Nat × List Nat × Link :=
  let r := read_loop len l.inp len []
  (r.1, r.2.1, { l with inp := r.2.2 })

/-- Signature of `read_with_timeout` as `uv-b5.c` and `bf-888s.c` use it. They
take it from `util.h`; its definition is not part of these files. -/
abbrev Reader := Link → Nat → Nat × List Nat × Link

namespace UV5R

/-- The command that `read_block` of `baoclone.c` sends. -/
def read_cmd (start nbytes : Nat) : List Nat :=
  [0x53, (start >>> 8) % 256, start % 256, nbytes % 256]

/-- The function `read_block` of `baoclone.c`; `data` is the address in `mem`
that the pointer `data` designates. -/
def read_block (l : Link) (start : Nat) (mem : Mem) (data : Nat) (nbytes : Nat) : Run :=
  -- Send command.
  let w := write l (read_cmd start nbytes)
  if w.1 ≠ 4 then ⟨some .serial_port, w.2, mem⟩ else
  -- Read reply.
  let r := read_with_timeout w.2 4
  if r.1 ≠ 4 then ⟨some .refused, r.2.2, mem⟩ else
  let reply := r.2.1
  let addr := uchar reply 1 <<< 8 ||| uchar reply 2
  if uchar reply 0 ≠ 0x58 ∨ addr ≠ start ∨ uchar reply 3 ≠ nbytes then
    ⟨some .bad_reply, r.2.2, mem⟩
  else
  -- Read data.
  let d := read_with_timeout r.2.2 0x40
  let mem1 := store mem data d.2.1
  if d.1 ≠ nbytes then ⟨some .short_data, d.2.2, mem1⟩ else
  -- Get acknowledge.
  let w2 := write d.2.2 [0x06]
  if w2.1 ≠ 1 then ⟨some .serial_port, w2.2, mem1⟩ else
  let a := read_with_timeout w2.2 1
  if a.1 ≠ 1 then ⟨some .no_acknowledge, a.2.2, mem1⟩ else
  if uchar a.2.1 0 ≠ 0x06 then ⟨some .bad_acknowledge, a.2.2, mem1⟩ else
  ⟨none, a.2.2, mem1⟩

end UV5R

namespace UVB5

/-- The command that `read_block` of `uv-b5.c` sends. -/
def read_cmd (start nbytes : Nat) : List Nat :=
  [0x52, (start >>> 8) % 256, start % 256, nbytes % 256]

/-- The function `read_block` of `uv-b5.c`; `data` is the address in `mem`
that the pointer `data` designates. -/
def read_block (read_with_timeout : Reader) (l : Link) (start : Nat) (mem : Mem)
    (data : Nat) (nbytes : Nat) : Run :=
  -- Send command.
  let w := write l (read_cmd start nbytes)
  if w.1 ≠ 4 then ⟨some .serial_port, w.2, mem⟩ else
  -- Read reply.
  let r := read_with_timeout w.2 4
  if r.1 ≠ 4 then ⟨some .refused, r.2.2, mem⟩ else
  let reply := r.2.1
  let addr := uchar reply 1 <<< 8 ||| uchar reply 2
  if uchar reply 0 ≠ 0x57 ∨ addr ≠ start ∨ uchar reply 3 ≠ nbytes then
    ⟨some .bad_reply, r.2.2, mem⟩
  else
  -- Read data.
  let d := read_with_timeout r.2.2 0x10
  let mem1 := store mem data d.2.1
  if d.1 ≠ nbytes then ⟨some .short_data, d.2.2, mem1⟩ else
  -- Get acknowledge.
  let w2 := write d.2.2 [0x06]
  if w2.1 ≠ 1 then ⟨some .serial_port, w2.2, mem1⟩ else
  let a := read_with_timeout w2.2 1
  if a.1 ≠ 1 then ⟨some .no_acknowledge, a.2.2, mem1⟩ else
  if uchar a.2.1 0 ≠ 0x74 ∧ uchar a.2.1 0 ≠ 0x78 ∧ uchar a.2.1 0 ≠ 0x1f then
    ⟨some .bad_acknowledge, a.2.2, mem1⟩
  else
  ⟨none, a.2.2, mem1⟩

end UVB5

namespace BF888S

/-- The command that `read_block` of `bf-888s.c` sends. -/
def read_cmd (start nbytes : Nat) : List Nat :=
  [0x52, (start >>> 8) % 256, start % 256, nbytes % 256]

/-- The function `read_block` of `bf-888s.c`; `data` is the address in `mem`
that the pointer `data` designates. -/
def read_block (read_with_timeout : Reader) (l : Link) (start : Nat) (mem : Mem)
    (data : Nat) (nbytes : Nat) : Run :=
  -- Send command.
  let w := write l (read_cmd start nbytes)
  if w.1 ≠ 4 then ⟨some .serial_port, w.2, mem⟩ else
  -- Read reply.
  let r := read_with_timeout w.2 4
  if r.1 ≠ 4 then ⟨some .refused, r.2.2, mem⟩ else
  let reply := r.2.1
  let addr := uchar reply 1 <<< 8 ||| uchar reply 2
  if uchar reply 0 ≠ 0x57 ∨ addr ≠ start ∨ uchar reply 3 ≠ nbytes then
    ⟨some .bad_reply, r.2.2, mem⟩
  else
  -- Read data.
  let d := read_with_timeout r.2.2 8
  let mem1 := store mem data d.2.1
  if d.1 ≠ nbytes then ⟨some .short_data, d.2.2, mem1⟩ else
  -- Get acknowledge.
  let w2 := write d.2.2 [0x06]
  if w2.1 ≠ 1 then ⟨some .serial_port, w2.2, mem1⟩ else
  let a := read_with_timeout w2.2 1
  if a.1 ≠ 1 then ⟨some .no_acknowledge, a.2.2, mem1⟩ else
  if uchar a.2.1 0 ≠ 0x06 then ⟨some .bad_acknowledge, a.2.2, mem1⟩ else
  ⟨none, a.2.2, mem1⟩

end BF888S

/-! ## Block write, download and upload -/

/-- The `n` bytes of memory at address `p` and following. -/
def bytes (m : Mem) (p n : Nat) : List Nat :=
  (List.range n).map (fun j => byte m (p + j))

/-- The addresses that the loop `for (addr=start; addr<stop; addr+=step)`
visits, in order. -/
def for_addrs (start stop step : Nat) : List Nat :=
  (List.range ((stop - start + step - 1) / step)).map (fun k => start + k * step)

/-- Sequence: `f` runs on the port and memory that `r` leaves, unless `r`
halted the program. -/
def Run.andThen (r : Run) (f : Link → Mem → Run) : Run :=
  match r.status with
  | some _ => r
  | none => f r.link r.mem

/-- A loop that calls `body` once for every address of the list, in order;
a call that halts the program ends it. -/
def run_blocks (body : Link → Nat → Mem → Run) : List Nat → Link → Mem → Run
  | [], l, m => ⟨none, l, m⟩
  | a :: rest, l, m => (body l a m).andThen (run_blocks body rest)

namespace UVB5

/-- The command that `write_block` of `uv-b5.c` sends. -/
def write_cmd (start nbytes : Nat) : List Nat :=
  [0x57, (start >>> 8) % 256, start % 256, nbytes % 256]

/-- The function `write_block` of `uv-b5.c`; `data` is the address in `mem`
that the pointer `data` designates. -/
def write_block (read_with_timeout : Reader) (l : Link) (start : Nat) (mem : Mem)
    (data : Nat) (nbytes : Nat) : Run :=
  -- Send command.
  let w := write l (write_cmd start nbytes)
  if w.1 ≠ 4 then ⟨some .serial_port, w.2, mem⟩ else
  let w2 := write w.2 (bytes mem data nbytes)
  if w2.1 ≠ nbytes then ⟨some .serial_port, w2.2, mem⟩ else
  -- Get acknowledge.
  let a := read_with_timeout w2.2 1
  if a.1 ≠ 1 then ⟨some .no_acknowledge, a.2.2, mem⟩ else
  if uchar a.2.1 0 ≠ 0x06 then ⟨some .bad_acknowledge, a.2.2, mem⟩ else
  ⟨none, a.2.2, mem⟩

end UVB5

namespace BF888S

/-- The command that `write_block` of `bf-888s.c` sends. -/
def write_cmd (start nbytes : Nat) : List Nat :=
  [0x57, (start >>> 8) % 256, start % 256, nbytes % 256]

/-- The function `write_block` of `bf-888s.c`; `data` is the address in `mem`
that the pointer `data` designates. -/
def write_block (read_with_timeout : Reader) (l : Link) (start : Nat) (mem : Mem)
    (data : Nat) (nbytes : Nat) : Run :=
  -- Send command.
  let w := write l (write_cmd start nbytes)
  if w.1 ≠ 4 then ⟨some .serial_port, w.2, mem⟩ else
  let w2 := write w.2 (bytes mem data nbytes)
  if w2.1 ≠ nbytes then ⟨some .serial_port, w2.2, mem⟩ else
  -- Get acknowledge.
  let a := read_with_timeout w2.2 1
  if a.1 ≠ 1 then ⟨some .no_acknowledge, a.2.2, mem⟩ else
  if uchar a.2.1 0 ≠ 0x06 then ⟨some .bad_acknowledge, a.2.2, mem⟩ else
  ⟨none, a.2.2, mem⟩

/-- The function `bf888s_download`; `radio_port` and `radio_mem` are the
globals of that name. -/
def bf888s_download (read_with_timeout : Reader) (radio_port : Link) (radio_mem : Mem) : Run :=
  let mem0 := store radio_mem 0 (List.replicate 0x400 0xff)
  (run_blocks (fun l addr m => read_block read_with_timeout l addr m addr 8)
      (for_addrs 0x10 0x110 8) radio_port mem0).andThen fun l1 m1 =>
  (run_blocks (fun l addr m => read_block read_with_timeout l addr m addr 8)
      (for_addrs 0x2b0 0x2c0 8) l1 m1).andThen fun l2 m2 =>
  run_blocks (fun l addr m => read_block read_with_timeout l addr m addr 8)
      (for_addrs 0x3c0 0x3e0 8) l2 m2

/-- The function `bf888s_upload`; `radio_port` and `radio_mem` are the
globals of that name. -/
def bf888s_upload (read_with_timeout : Reader) (radio_port : Link) (radio_mem : Mem) : Run :=
  (run_blocks (fun l addr m => write_block read_with_timeout l addr m addr 8)
      (for_addrs 0x10 0x110 8) radio_port radio_mem).andThen fun l1 m1 =>
  (run_blocks (fun l addr m => write_block read_with_timeout l addr m addr 8)
      (for_addrs 0x2b0 0x2c0 8) l1 m1).andThen fun l2 m2 =>
  run_blocks (fun l addr m => write_block read_with_timeout l addr m addr 8)
      (for_addrs 0x3c0 0x3e0 8) l2 m2

end BF888S

namespace UV5R

/-- The function `read_device` of `baoclone.c`. -/
def read_device (l : Link) (mem : Mem) : Run :=
  -- Main block.
  (run_blocks (fun l addr m => read_block l addr m addr 0x40)
      (for_addrs 0 0x1800 0x40) l mem).andThen fun l1 m1 =>
  -- Auxiliary block starts at 0x1EC0.
  run_blocks (fun l addr m => read_block l addr m addr 0x40)
      (for_addrs 0x1EC0 0x2000 0x40) l1 m1

end UV5R

/-! ## Identification (`baoclone.c`)

A chunk of `inp` arrives while a `select` waits for it. At a call of
`tcflush (fd, TCIFLUSH)` the input that has been received and not read is
therefore the unread rest of the chunk in which the last read stopped, if it
left one; that rest is the head chunk of `inp`, and the flag `rest` of the
port tells whether it is there. The pauses (`usleep`) and the messages have no
counterpart in the model. -/

/-- Whether the loop of `read_with_timeout` stops inside a chunk and leaves
the rest of that chunk unread in the input queue; `len` is what is still
missing. The cases are those of `read_loop`. -/
def read_loop_rest : List (List Nat) → Nat → Bool
  | [], _ => false
  | c :: rest, len =>
    if c = [] then
      -- select does not return 1
      false
    else
      let nbytes := min len c.length
      if nbytes = 0 then
        true
      else if len - nbytes = 0 then
        !(c.drop nbytes).isEmpty
      else
        read_loop_rest rest (len - nbytes)

/-- The call `tcflush (fd, TCIFLUSH)`: it discards the input received and not
read. `rest` tells whether the head chunk of `inp` is the unread rest of a
chunk. -/
def tcflush (l : Link) (rest : Bool) : Link :=
  if rest then { l with inp := l.inp.drop 1 } else l

namespace UV5R

/-- The string `UV5R_MODEL_ORIG`, with its terminating NUL. -/
def UV5R_MODEL_ORIG : List Nat := [0x50, 0xBB, 0xFF, 0x01, 0x25, 0x98, 0x4D, 0]

/-- The string `UV5R_MODEL_291`, with its terminating NUL. -/
def UV5R_MODEL_291 : List Nat := [0x50, 0xBB, 0xFF, 0x20, 0x12, 0x07, 0x25, 0]

/-- Outcome of `try_magic`: `status = some e` when it halts the program,
else `ret` is its return value; the port and the global `ident` as it
leaves them, and whether its last read has left the rest of a chunk unread
in the input queue. -/
structure Probe where
  status : Option Fatal
  ret : Int
  link : Link
  ident : Mem
  rest : Bool

/-- The function `try_magic` of `baoclone.c`; `ident` is the global of that
name before the call, `rest` tells whether the input queue of the port holds
the unread rest of a chunk at the call. -/
def try_magic (l : Link) (rest : Bool) (ident : Mem) (magic : List Nat) : Probe :=
  let magic_len := (cstr magic).length
  -- Send magic.
  let l0 := tcflush l rest
  let w := write l0 (magic.take magic_len)
  if w.1 ≠ magic_len then ⟨some .serial_port, 0, w.2, ident, false⟩ else
  -- Check response.
  let r := read_with_timeout w.2 1
  let rest1 := read_loop_rest w.2.inp 1
  if r.1 ≠ 1 then ⟨none, 0, r.2.2, ident, rest1⟩ else
  if uchar r.2.1 0 ≠ 0x06 then ⟨none, 0, r.2.2, ident, rest1⟩ else
  -- Query for identifier..
  let w2 := write r.2.2 [0x02]
  if w2.1 ≠ 1 then ⟨some .serial_port, 0, w2.2, ident, rest1⟩ else
  let q := read_with_timeout w2.2 8
  let rest2 := read_loop_rest w2.2.inp 8
  let ident1 := store ident 0 q.2.1
  if q.1 ≠ 8 then ⟨none, 0, q.2.2, ident1, rest2⟩ else
  -- Enter clone mode.
  let w3 := write q.2.2 [0x06]
  if w3.1 ≠ 1 then ⟨some .serial_port, 0, w3.2, ident1, rest2⟩ else
  let c := read_with_timeout w3.2 1
  let rest3 := read_loop_rest w3.2.inp 1
  if c.1 ≠ 1 then ⟨none, 0, c.2.2, ident1, rest3⟩ else
  if uchar c.2.1 0 ≠ 0x06 then ⟨none, 0, c.2.2, ident1, rest3⟩ else
  ⟨none, 1, c.2.2, ident1, rest3⟩

/-- Outcome of `identify`: `status = none` when it returns, `some e` when it
halts the program; the port and the globals `ident` and `is_original` as it
leaves them. -/
structure Session where
  status : Option Fatal
  link : Link
  ident : Mem
  is_original : Int

/-- The loop of `identify` of `baoclone.c` with `rounds` rounds to go
(`rounds = 10 - retry`); `rest` tells whether the input queue holds the
unread rest of a chunk. -/
def identify_loop : Nat → Link → Bool → Mem → Int → Session
  | 0, l, _, ident, is_original => ⟨some .not_detected, l, ident, is_original⟩
  | rounds + 1, l, rest, ident, is_original =>
    let p := try_magic l rest ident UV5R_MODEL_291
    if p.status ≠ none then ⟨p.status, p.link, p.ident, is_original⟩ else
    if p.ret ≠ 0 then ⟨none, p.link, p.ident, 0⟩ else
    let q := try_magic p.link p.rest p.ident UV5R_MODEL_ORIG
    if q.status ≠ none then ⟨q.status, q.link, q.ident, is_original⟩ else
    if q.ret ≠ 0 then ⟨none, q.link, q.ident, 1⟩ else
    identify_loop rounds q.link q.rest q.ident is_original

/-- The function `identify` of `baoclone.c`; `ident` and `is_original` are
the globals of these names before the call. Nothing has been read from the
port before the call (in `main` it follows `open_port`), so the input queue
holds no unread rest. -/
def identify (l : Link) (ident : Mem) (is_original : Int) : Session :=
  identify_loop 10 l false ident is_original

/-- The magic that attempt number `j` (counted from 0) of `identify` sends. -/
def candidate (j : Nat) : List Nat :=
  if j % 2 = 0 then UV5R_MODEL_291 else UV5R_MODEL_ORIG

/-- Attempt number `j` (counted from 0) of a sequence of probes that starts on
port `l`: the call of `try_magic` with the magic of attempt `j`, on the port
and with the `ident` that the attempts before it leave. -/
def attempt : Nat → Link → Bool → Mem → Probe
  | 0, l, rest, ident => try_magic l rest ident (candidate 0)
  | j + 1, l, rest, ident =>
    try_magic (attempt j l rest ident).link (attempt j l rest ident).rest
      (attempt j l rest ident).ident (candidate (j + 1))

/-- The port on which attempt number `j` sends its magic: the port that the
attempts before it leave, after the `tcflush` of attempt `j`. -/
def attempt_port : Nat → Link → Bool → Mem → Link
  | 0, l, rest, _ => tcflush l rest
  | j + 1, l, rest, ident =>
    tcflush (attempt j l rest ident).link (attempt j l rest ident).rest

end UV5R

/-! ## Image files

A file open for reading is the list of the bytes not yet read; a file open
for writing is represented by the bytes written to it, in order. `fwrite`
writes all its bytes (the code does not look at its result). -/

/-- The call `fread (ptr, 1, n, img)`: the return value, the bytes stored at
`ptr`, and the file after the call. -/
def fread (img : List Nat) (n : Nat) : Nat × List Nat × List Nat :=
  ((img.take n).length, img.take n, img.drop n)

/-- Outcome of an image reader: `status = none` when it returns, `some e`
when it halts the program; the identifier, the memory and the file as it
leaves them. -/
structure Loaded where
  status : Option Fatal
  ident : Mem
  mem : Mem
  img : List Nat

namespace BF888S

/-- The function `bf888s_read_image`; `ident` is the array that the pointer
`ident` designates, `radio_mem` the global of that name. -/
def bf888s_read_image (img : List Nat) (ident : Mem) (radio_mem : Mem) : Loaded :=
  let r1 := fread img 8
  let ident1 := store ident 0 r1.2.1
  if r1.1 ≠ 8 then ⟨some .image_header, ident1, radio_mem, r1.2.2⟩ else
  -- Ignore next 8 bytes.
  let r2 := fread r1.2.2 8
  if r2.1 ≠ 8 then ⟨some .header, ident1, radio_mem, r2.2.2⟩ else
  let r3 := fread r2.2.2 0x3d0
  let mem1 := store radio_mem 0x10 r3.2.1
  if r3.1 ≠ 0x3d0 then ⟨some .image_data, ident1, mem1, r3.2.2⟩ else
  -- Move 16 bytes from 0x370 to 0x2b0.
  let mem2 := store mem1 0x2b0 (bytes mem1 0x370 0x10)
  let mem3 := store mem2 0x370 (List.replicate 0x10 0xff)
  ⟨none, ident1, mem3, r3.2.2⟩

/-- The function `bf888s_save_image`: the bytes it writes to `img`;
`radio_ident` and `radio_mem` are the globals of these names. -/
def bf888s_save_image (radio_ident : Mem) (radio_mem : Mem) : List Nat :=
  bytes radio_ident 0 8 ++
  [0xff, 0xff, 0xff, 0xff, 0xff, 0xff, 0xff, 0xff] ++
  bytes radio_mem 0x10 (0x2b0 - 0x10) ++
  [0xff, 0xff, 0xff, 0xff, 0xff, 0xff, 0xff, 0xff] ++
  [0xff, 0xff, 0xff, 0xff, 0xff, 0xff, 0xff, 0xff] ++
  bytes radio_mem 0x2c0 (0x370 - 0x2c0) ++
  bytes radio_mem 0x2b0 0x10 ++
  bytes radio_mem 0x380 (0x3e0 - 0x380)

end BF888S

namespace UV5R

/-- The function `load_image` of `baoclone.c`; `file` is the content of the
file named `filename`, `none` when `fopen` fails; `image_ident` and `mem`
are the globals of these names. -/
def load_image (file : Option (List Nat)) (image_ident : Mem) (mem : Mem) : Loaded :=
  match file with
  | none => ⟨some .file_open, image_ident, mem, []⟩
  | some img =>
    let r1 := fread img 8
    let ident1 := store image_ident 0 r1.2.1
    if r1.1 ≠ 8 then ⟨some .image_header, ident1, mem, r1.2.2⟩ else
    let r2 := fread r1.2.2 0x1800
    let mem1 := store mem 0 r2.2.1
    if r2.1 ≠ 0x1800 then ⟨some .image_data, ident1, mem1, r2.2.2⟩ else
    let r3 := fread r2.2.2 (0x2000 - 0x1EC0)
    let mem2 := store mem1 0x1EC0 r3.2.1
    if r3.1 ≠ 0x2000 - 0x1EC0 then ⟨some .image_footer, ident1, mem2, r3.2.2⟩ else
    ⟨none, ident1, mem2, r3.2.2⟩

/-- The function `save_image` of `baoclone.c`: whether it halts the program,
and the content of the file it writes; `writable = false` when `fopen`
fails; `ident` and `mem` are the globals of these names. -/
def save_image (writable : Bool) (ident : Mem) (mem : Mem) : Option Fatal × List Nat :=
  if ¬ writable then (some .file_open, []) else
  (none, bytes ident 0 8 ++ bytes mem 0 0x1800 ++ bytes mem 0x1EC0 (0x2000 - 0x1EC0))

/-- The caller's variables that `decode_limits` of `baoclone.c` writes. -/
structure Limits where
  enable : Int
  lower : Int
  upper : Int
deriving DecidableEq, Repr

/-- The offset of the limits record that `decode_limits` computes. -/
def limits_offset (is_original : Int) (band : Char) : Nat :=
  -- Offset for limits has changed since firmware version 291.
  if is_original ≠ 0 then
    (if band = 'V' then 0x1EC0 + 0x10a else 0x1EC0 + 0x11a)
  else
    (if band = 'V' then 0x1EC0 + 0x100 else 0x1EC0 + 0x105)

/-- The function `decode_limits` of `baoclone.c`; `mem` and `is_original`
are the globals of these names. -/
def decode_limits (mem : Mem) (is_original : Int) (band : Char) : Limits :=
  let offset := limits_offset is_original band
  let lower_msb := byte mem (offset + 1)
  let lower_lsb := byte mem (offset + 2)
  let upper_msb := byte mem (offset + 3)
  let upper_lsb := byte mem (offset + 4)
  { enable := byte mem offset,
    lower := (((lower_msb >>> 4) &&& 15) * 1000 + (lower_msb &&& 15) * 100 +
              ((lower_lsb >>> 4) &&& 15) * 10 + (lower_lsb &&& 15) : Nat),
    upper := (((upper_msb >>> 4) &&& 15) * 1000 + (upper_msb &&& 15) * 100 +
              ((upper_lsb >>> 4) &&& 15) * 10 + (upper_lsb &&& 15) : Nat) }

end UV5R

/-! ## Settings of the BF-888S (`bf-888s.c`) -/

namespace BF888S

/-- The table `SIDEKEY_NAME` of `bf-888s.c`. -/
def SIDEKEY_NAME : List String := ["Off", "Monitor", "TX Power", "Alarm"]

/-- The table `VOX_NAME` of `bf-888s.c`. -/
def VOX_NAME : List String := ["1", "2", "3", "4", "5", "?6?", "?7?", "?8?"]

/-- The function `bf888s_print_config` from `// Print other settings.` on: the
lines it prints after the channel table, in order, without their line ends.
`mode` is the `settings_t` at `0x2b0` (voice, chinese, scan, vox, voxgain,
voxinhrx, lowinhtx, highinhtx, alarm, fm: one byte each), `extra` the
`extra_settings_t` at `0x3c0` (beep and saver in bits 0 and 1 of byte 0, then
squelch, sidekey, timeout). The conversion `%u` prints the decimal digits of
its argument. The channel table, which is printed with floating-point
conversions, is not part of the model. -/
def bf888s_print_config (radio_mem : Mem) : List String :=
  let mode := 0x2b0
  let extra := 0x3c0
  [ "",
    "Squelch Level: " ++ Nat.repr (byte radio_mem (extra + 1)),
    "Side Key: " ++ SIDEKEY_NAME.getD (byte radio_mem (extra + 2) &&& 3) "",
    "TX Timer: " ++
      (if byte radio_mem (extra + 3) = 0 then "Off"
       else Nat.repr (byte radio_mem (extra + 3) * 30)),
    "Scan Function: " ++ (if byte radio_mem (mode + 2) ≠ 0 then "On" else "Off"),
    "Voice Prompt: " ++ (if byte radio_mem mode ≠ 0 then "On" else "Off"),
    "Voice Language: " ++ (if byte radio_mem (mode + 1) ≠ 0 then "Chinese" else "English"),
    "Alarm: " ++ (if byte radio_mem (mode + 8) ≠ 0 then "On" else "Off"),
    "FM: " ++ (if byte radio_mem (mode + 9) ≠ 0 then "On" else "Off"),
    "VOX Function: " ++ (if byte radio_mem (mode + 3) ≠ 0 then "On" else "Off"),
    "VOX Sensitivity: " ++ VOX_NAME.getD (byte radio_mem (mode + 3) &&& 7) "",
    "VOX Inhibit On Receive: " ++ (if byte radio_mem (mode + 5) ≠ 0 then "On" else "Off"),
    "Battery Saver: " ++ (if bits (byte radio_mem extra) 1 1 ≠ 0 then "On" else "Off"),
    "Beep: " ++ (if bits (byte radio_mem extra) 0 1 ≠ 0 then "On" else "Off"),
    "High Vol Inhibit TX: " ++ (if byte radio_mem (mode + 7) ≠ 0 then "On" else "Off"),
    "Low Vol Inhibit TX: " ++ (if byte radio_mem (mode + 6) ≠ 0 then "On" else "Off") ]

end BF888S

/-! ## Upload of the UV-5R (`baoclone.c`) -/

namespace UV5R

/-- The table `PTTID_NAME` of `baoclone.c`. -/
def PTTID_NAME : List String := ["-", "Beg", "End", "Both"]

/-- The function `write_device` of `baoclone.c`: it prints
`Write to device: NOT IMPLEMENTED YET.` and returns; the rest of its body is
compiled out (`#if 0`). -/
def write_device (l : Link) (mem : Mem) : Run :=
  ⟨none, l, mem⟩

/-- The branch `restore_flag` of `main` of `baoclone.c` from `identify` on, the
port being open: the exit status of the program and the port when it ends.
`print_firmware_version` only prints, `close_port` sends nothing; a function
that halts the program does so with `exit (-1)`. -/
def main_restore (l : Link) (ident : Mem) (is_original : Int) (file : Option (List Nat))
    (image_ident : Mem) (mem : Mem) : Int × Link :=
  let s := identify l ident is_original
  if s.status ≠ none then (-1, s.link) else
  let f := load_image file image_ident mem
  if f.status ≠ none then (-1, s.link) else
  let w := write_device s.link f.mem
  if w.status ≠ none then (-1, w.link) else
  (0, w.link)

end UV5R

/-! ## KGD disk controller (`pdp11_kgd.c`)

An `int` is represented by its 32-bit two's-complement pattern, so that `&`,
`|` and `~` are the bitwise operations on patterns. The interrupt request that
`SET_INT (KGD)` and `CLR_INT (KGD)` set and clear is one flag of the state.
The debug trace, the unit file and the event queue are not part of the
model. -/

namespace KGD

/-- The constant `CS_CMD_MASK`. -/
def CS_CMD_MASK : Nat := 0x00ff

/-- The constant `CS_CMD_RD`. -/
def CS_CMD_RD : Nat := 0o40

/-- The constant `CS_CMD_WR`. -/
def CS_CMD_WR : Nat := 0o60

/-- The constant `CS_INIT`. -/
def CS_INIT : Nat := 0x1000

/-- The constant `CS_READY`. -/
def CS_READY : Nat := 0x4000

/-- The constant `SI_DONE`. -/
def SI_DONE : Nat := 0x0001

/-- The constant `SI_RESET`. -/
def SI_RESET : Nat := 0x0008

/-- The constant `SI_DINT`. -/
def SI_DINT : Nat := 0x0040

/-- The constant `SI_DR1`. -/
def SI_DR1 : Nat := 0x0080

/-- The constant `SI_SLOW`. -/
def SI_SLOW : Nat := 0x0100

/-- The constant `SI_BUSY`. -/
def SI_BUSY : Nat := 0x8000

/-- The operator `~` on a 32-bit pattern. -/
def not32 (x : Nat) : Nat := 0xFFFFFFFF - x % 2 ^ 32

/-- The hardware registers of the controller and its interrupt request. -/
structure Regs where
  kgd_id : Nat
  kgd_err : Nat
  kgd_sector : Nat
  kgd_cyl : Nat
  kgd_head : Nat
  kgd_cs : Nat
  kgd_si : Nat
  int_req : Bool
deriving DecidableEq, Repr

/-- The function `kgd_reset`. -/
def kgd_reset (s : Regs) : Regs :=
  { s with
    kgd_id := 0o401,
    kgd_err := 0,
    kgd_sector := 0,
    kgd_cyl := 0,
    kgd_head := 0,
    kgd_cs := CS_INIT ||| CS_READY,
    kgd_si := SI_DONE ||| SI_DINT }

/-- The function `kgd_io`: it traces the operation and tests the unit file for
an error; no register changes. -/
def kgd_io (s : Regs) (_write_op : Nat) : Regs :=
  s

/-- The function `kgd_rd`: `data` is the value of `*data` before the call; the
result is `*data` after the call and the registers. -/
def kgd_rd (s : Regs) (data : Nat) (PA : Nat) : Nat × Regs :=
  let sel := PA &&& 0o26
  if sel = 0o00 then                    -- ID
    (s.kgd_id, { s with kgd_si := s.kgd_si &&& not32 SI_DR1 })
  else if sel = 0o04 then               -- ERR
    (s.kgd_err, s)
  else if sel = 0o06 then               -- SECTOR
    (s.kgd_sector, { s with kgd_si := s.kgd_si &&& not32 SI_DONE })
  else if sel = 0o10 then               -- Data register
    (data, s)
  else if sel = 0o12 then               -- CYL
    (s.kgd_cyl, s)
  else if sel = 0o14 then               -- HEAD
    (s.kgd_head, s)
  else if sel = 0o16 then               -- CS
    (s.kgd_cs, { s with kgd_si := s.kgd_si &&& not32 SI_DONE })
  else if sel = 0o20 then               -- SI
    (s.kgd_si, s)
  else
    (data, s)

/-- The `switch` statement of `kgd_wr`. -/
def kgd_wr_switch (s : Regs) (data : Nat) (PA : Nat) : Regs :=
  let sel := PA &&& 0o26
  if sel = 0o00 then                    -- ID
    { s with kgd_si := s.kgd_si &&& not32 SI_DR1 }
  else if sel = 0o04 then               -- ERR
    -- Ignore precompensation.
    s
  else if sel = 0o06 then               -- SECTOR
    { s with kgd_sector := data &&& 31, kgd_si := s.kgd_si &&& not32 SI_DONE }
  else if sel = 0o10 then               -- Data register
    s
  else if sel = 0o12 then               -- CYL
    { s with kgd_cyl := data &&& 1023 }
  else if sel = 0o14 then               -- HEAD
    { s with kgd_cyl := data &&& 7 }
  else if sel = 0o16 then               -- CS
    let s2 : Regs := { s with
      kgd_cs := (s.kgd_cs &&& not32 CS_CMD_MASK) ||| (data &&& CS_CMD_MASK),
      kgd_si := s.kgd_si &&& not32 SI_DONE }
    if s2.kgd_cs &&& CS_CMD_MASK = CS_CMD_RD then kgd_io s2 0
    else if s2.kgd_cs &&& CS_CMD_MASK = CS_CMD_WR then kgd_io s2 1
    else s2
  else if sel = 0o20 then               -- SI
    let s2 : Regs := { s with
      kgd_si := (s.kgd_si &&& (SI_DONE ||| SI_DR1 ||| SI_BUSY)) |||
                (data &&& (SI_DINT ||| SI_SLOW)) }
    if data &&& SI_RESET ≠ 0 then
      -- Reset controller.
      kgd_reset s2
    else s2
  else s

/-- The function `kgd_wr`: the registers after the call. -/
def kgd_wr (s : Regs) (data : Nat) (PA : Nat) : Regs :=
  let s1 := kgd_wr_switch s data PA
  if s1.kgd_si &&& SI_DINT = 0 ∧ s1.kgd_si &&& (SI_DONE ||| SI_DR1) ≠ 0 then
    { s1 with int_req := true }
  else
    { s1 with int_req := false }

end KGD

/-! ## Theorems -/

/-- Masking with 15 selects the low nibble. -/
theorem low_nibble_eq (x : Nat) : x &&& 15 = x % 16 :=
  Nat.and_pow_two_sub_one_eq_mod x 4

/-- The `uint32_t` sum of `bcd_to_int` never wraps, and is a non-negative `int`. -/
theorem bcd_to_int_eq (bcd : Nat) :
    bcd_to_int bcd =
      ((bcd / 268435456 % 16 * 10000000 + bcd / 16777216 % 16 * 1000000 +
        bcd / 1048576 % 16 * 100000 + bcd / 65536 % 16 * 10000 +
        bcd / 4096 % 16 * 1000 + bcd / 256 % 16 * 100 +
        bcd / 16 % 16 * 10 + bcd % 16 : Nat) : Int) := by
  unfold bcd_to_int toInt32
  simp only [low_nibble_eq, Nat.shiftRight_eq_div_pow, Nat.reducePow]
  split <;> omega

/-- The eight hexadecimal digits of a word given by its digits. -/
theorem horner_digits (d7 d6 d5 d4 d3 d2 d1 d0 w : Nat)
    (h6 : d6 < 16) (h5 : d5 < 16) (h4 : d4 < 16)
    (h3 : d3 < 16) (h2 : d2 < 16) (h1 : d1 < 16) (h0 : d0 < 16)
    (hw : w = d7 * 16 ^ 7 + d6 * 16 ^ 6 + d5 * 16 ^ 5 + d4 * 16 ^ 4 +
              d3 * 16 ^ 3 + d2 * 16 ^ 2 + d1 * 16 + d0) :
    w % 16 = d0 ∧ w / 16 % 16 = d1 ∧ w / 256 % 16 = d2 ∧ w / 4096 % 16 = d3 ∧
    w / 65536 % 16 = d4 ∧ w / 1048576 % 16 = d5 ∧ w / 16777216 % 16 = d6 ∧
    w / 268435456 = d7 := by
  simp only [Nat.reducePow] at hw
  have a1 : w / 16 = d7 * 16777216 + d6 * 1048576 + d5 * 65536 + d4 * 4096 +
      d3 * 256 + d2 * 16 + d1 := by omega
  have a2 : w / 256 = d7 * 1048576 + d6 * 65536 + d5 * 4096 + d4 * 256 + d3 * 16 + d2 := by
    rw [show w / 256 = w / 16 / 16 by omega, a1]; omega
  have a3 : w / 4096 = d7 * 65536 + d6 * 4096 + d5 * 256 + d4 * 16 + d3 := by
    rw [show w / 4096 = w / 256 / 16 by omega, a2]; omega
  have a4 : w / 65536 = d7 * 4096 + d6 * 256 + d5 * 16 + d4 := by
    rw [show w / 65536 = w / 4096 / 16 by omega, a3]; omega
  have a5 : w / 1048576 = d7 * 256 + d6 * 16 + d5 := by
    rw [show w / 1048576 = w / 65536 / 16 by omega, a4]; omega
  have a6 : w / 16777216 = d7 * 16 + d6 := by
    rw [show w / 16777216 = w / 1048576 / 16 by omega, a5]; omega
  have a7 : w / 268435456 = d7 := by
    rw [show w / 268435456 = w / 16777216 / 16 by omega, a6]; omega
  exact ⟨by omega, by omega, by omega, by omega, by omega, by omega, by omega, a7⟩

/-- C1: for every 32-bit word whose eight nibbles `d7 .. d0` (most significant
first) are decimal digits, `bcd_to_int` returns the decimal number
`d7*10^7 + d6*10^6 + ... + d1*10 + d0`. -/
theorem C1_bcd_to_int_valid (d7 d6 d5 d4 d3 d2 d1 d0 : Nat)
    (h7 : d7 ≤ 9) (h6 : d6 ≤ 9) (h5 : d5 ≤ 9) (h4 : d4 ≤ 9)
    (h3 : d3 ≤ 9) (h2 : d2 ≤ 9) (h1 : d1 ≤ 9) (h0 : d0 ≤ 9) :
    bcd_to_int (d7 * 16 ^ 7 + d6 * 16 ^ 6 + d5 * 16 ^ 5 + d4 * 16 ^ 4 +
                d3 * 16 ^ 3 + d2 * 16 ^ 2 + d1 * 16 + d0) =
      ((d7 * 10 ^ 7 + d6 * 10 ^ 6 + d5 * 10 ^ 5 + d4 * 10 ^ 4 +
        d3 * 10 ^ 3 + d2 * 10 ^ 2 + d1 * 10 + d0 : Nat) : Int) := by
  obtain ⟨e0, e1, e2, e3, e4, e5, e6, e7⟩ :=
    horner_digits d7 d6 d5 d4 d3 d2 d1 d0 _ (by omega) (by omega) (by omega)
      (by omega) (by omega) (by omega) (by omega) rfl
  rw [bcd_to_int_eq, e0, e1, e2, e3, e4, e5, e6, e7, Nat.mod_eq_of_lt (by omega : d7 < 16)]
  simp only [Nat.reducePow]

/-- C1 at the word `0x14625000`. -/
theorem C1_bcd_to_int_valid_witness :
    bcd_to_int (1 * 16 ^ 7 + 4 * 16 ^ 6 + 6 * 16 ^ 5 + 2 * 16 ^ 4 +
                5 * 16 ^ 3 + 0 * 16 ^ 2 + 0 * 16 + 0) =
      ((1 * 10 ^ 7 + 4 * 10 ^ 6 + 6 * 10 ^ 5 + 2 * 10 ^ 4 +
        5 * 10 ^ 3 + 0 * 10 ^ 2 + 0 * 10 + 0 : Nat) : Int) :=
  C1_bcd_to_int_valid 1 4 6 2 5 0 0 0 (by decide) (by decide) (by decide) (by decide)
    (by decide) (by decide) (by decide) (by decide)

/-! ### Disabled channels -/

/-- The C string of a buffer whose first byte is NUL is empty. -/
theorem cstr_zero_cons (buf : List Nat) : cstr (0 :: buf) = [] := by
  simp [cstr]

/-- C2: disabled-channel invariant. In each of the three `decode_channel`
functions (UV-5R, UV-B5, BF-888S), a slot whose 32-bit receive-frequency
field is exactly 0 or 0xFFFFFFFF decodes to zero receive frequency, zero
transmit frequency (offset), zero receive and transmit CTCSS and DCS, and an
empty name where a name is decoded, whatever the other bytes of the memory
and the caller's variables hold. -/
theorem C2_disabled_channel (bcd beyond : Nat → Int) (m5 mb m8 : Mem) (i : Nat)
    (o5 : UV5R.Channel) (ob : UVB5.Channel) (o8 : BF888S.Channel)
    (h5 : rd32 m5 (16 * i) = 0 ∨ rd32 m5 (16 * i) = 0xffffffff)
    (hb : rd32 mb (16 * i) = 0 ∨ rd32 mb (16 * i) = 0xffffffff)
    (h8 : rd32 m8 (0x10 + 16 * i) = 0 ∨ rd32 m8 (0x10 + 16 * i) = 0xffffffff) :
    ((UV5R.decode_channel beyond m5 i o5).rx_hz = 0 ∧
     (UV5R.decode_channel beyond m5 i o5).tx_hz = 0 ∧
     (UV5R.decode_channel beyond m5 i o5).rx_ctcs = 0 ∧
     (UV5R.decode_channel beyond m5 i o5).tx_ctcs = 0 ∧
     (UV5R.decode_channel beyond m5 i o5).rx_dcs = 0 ∧
     (UV5R.decode_channel beyond m5 i o5).tx_dcs = 0 ∧
     cstr (UV5R.decode_channel beyond m5 i o5).name = []) ∧
    ((UVB5.decode_channel bcd beyond mb i ob).rx_hz = 0 ∧
     (UVB5.decode_channel bcd beyond mb i ob).txoff_hz = 0 ∧
     (UVB5.decode_channel bcd beyond mb i ob).rx_ctcs = 0 ∧
     (UVB5.decode_channel bcd beyond mb i ob).tx_ctcs = 0 ∧
     (UVB5.decode_channel bcd beyond mb i ob).rx_dcs = 0 ∧
     (UVB5.decode_channel bcd beyond mb i ob).tx_dcs = 0 ∧
     ∀ buf ∈ (UVB5.decode_channel bcd beyond mb i ob).name, cstr buf = []) ∧
    ((BF888S.decode_channel m8 i o8).rx_hz = 0 ∧
     (BF888S.decode_channel m8 i o8).tx_hz = 0 ∧
     (BF888S.decode_channel m8 i o8).rx_ctcs = 0 ∧
     (BF888S.decode_channel m8 i o8).tx_ctcs = 0 ∧
     (BF888S.decode_channel m8 i o8).rx_dcs = 0 ∧
     (BF888S.decode_channel m8 i o8).tx_dcs = 0) := by
  refine ⟨?_, ?_, ?_⟩
  · simp only [UV5R.decode_channel, if_pos h5, cstr_zero_cons, and_self]
  · simp only [UVB5.decode_channel, if_pos hb, true_and]
    intro buf hbuf
    rcases hn : ob.name with _ | b0
    · simp [hn] at hbuf
    · simp only [hn, Option.map_some', Option.mem_def, Option.some.injEq] at hbuf
      rw [← hbuf]
      exact cstr_zero_cons _
  · simp only [BF888S.decode_channel, if_pos h8, and_self]

/-- C2 at slot 1 of three memories filled with `0x41` outside the
receive-frequency field, which holds all-ones (UV-5R, BF-888S) or zero
(UV-B5). -/
theorem C2_disabled_channel_witness :
    (UV5R.decode_channel (fun _ => 7) (fun a => if 16 ≤ a ∧ a < 20 then 255 else 0x41) 1
        ⟨[1, 2, 3], 1, 2, 3, 4, 5, 6, 7, 8, 9, 10, 11, 12⟩).rx_hz = 0 ∧
    (UVB5.decode_channel bcd_to_int (fun _ => 7) (fun a => if 16 ≤ a ∧ a < 20 then 0 else 0x41) 1
        ⟨some [1, 2, 3], 1, 2, 3, 4, 5, 6, 7, 8, 9, 10, 11, 12, 13, 14⟩).rx_dcs = 0 ∧
    (BF888S.decode_channel (fun a => if 32 ≤ a ∧ a < 36 then 255 else 0x41) 1
        ⟨1, 2, 3, 4, 5, 6, 7, 8, 9, 10, 11⟩).tx_hz = 0 :=
  have h := C2_disabled_channel bcd_to_int (fun _ => 7)
    (fun a => if 16 ≤ a ∧ a < 20 then 255 else 0x41)
    (fun a => if 16 ≤ a ∧ a < 20 then 0 else 0x41)
    (fun a => if 32 ≤ a ∧ a < 36 then 255 else 0x41) 1
    ⟨[1, 2, 3], 1, 2, 3, 4, 5, 6, 7, 8, 9, 10, 11, 12⟩
    ⟨some [1, 2, 3], 1, 2, 3, 4, 5, 6, 7, 8, 9, 10, 11, 12, 13, 14⟩
    ⟨1, 2, 3, 4, 5, 6, 7, 8, 9, 10, 11⟩
    (Or.inr (by decide)) (Or.inl (by decide)) (Or.inr (by decide))
  ⟨h.1.1, h.2.1.2.2.2.2.1, h.2.2.2.1⟩

/-! ### The serial link -/

/-- When the pending input, cut into non-empty chunks in any way, starts with
the `len` bytes `xs`, the loop of `read_with_timeout` returns the requested
length, stores exactly `xs`, and leaves what follows `xs`. -/
theorem read_loop_deliver (len0 : Nat) :
    ∀ (inp : List (List Nat)) (len : Nat) (got xs ys : List Nat),
      (∀ c ∈ inp, c ≠ []) → inp.flatten = xs ++ ys → xs.length = len → 0 < len →
      ∃ inp1, read_loop len0 inp len got = (len0, got ++ xs, inp1) ∧
        (∀ c ∈ inp1, c ≠ []) ∧ inp1.flatten = ys := by
  intro inp
  induction inp with
  | nil =>
    intro len got xs ys _ hflat hlen hpos
    have hx : xs = [] := by
      have h := congrArg List.length hflat
      simp only [List.flatten_nil, List.length_nil, List.length_append] at h
      exact List.eq_nil_of_length_eq_zero (by omega)
    subst hx
    simp only [List.length_nil] at hlen
    omega
  | cons c rest ih =>
    intro len got xs ys hne hflat hlen hpos
    have hc : c ≠ [] := hne c (List.mem_cons_self _ _)
    have hcl : 0 < c.length := List.length_pos.mpr hc
    have hrest : ∀ d ∈ rest, d ≠ [] := fun d hd => hne d (List.mem_cons_of_mem _ hd)
    rw [List.flatten_cons] at hflat
    unfold read_loop
    rw [if_neg hc]
    by_cases hle : len ≤ c.length
    · have hmin : min len c.length = len := Nat.min_eq_left hle
      have htake : c.take len = xs := by
        have h := congrArg (List.take len) hflat
        rwa [List.take_append_of_le_length hle, List.take_left' hlen] at h
      have hdrop : c.drop len ++ rest.flatten = ys := by
        have h := congrArg (List.drop len) hflat
        rwa [List.drop_append_of_le_length hle, List.drop_left' hlen] at h
      simp only [hmin, Nat.sub_self, if_neg (Nat.pos_iff_ne_zero.mp hpos), if_true, htake]
      refine ⟨_, rfl, ?_, ?_⟩
      · intro d hd
        by_cases hnil : c.drop len = []
        · rw [if_pos hnil] at hd
          exact hrest d hd
        · rw [if_neg hnil] at hd
          rcases List.mem_cons.mp hd with h | h
          · rw [h]; exact hnil
          · exact hrest d h
      · by_cases hnil : c.drop len = []
        · rw [if_pos hnil]
          rw [hnil] at hdrop
          simpa using hdrop
        · rw [if_neg hnil, List.flatten_cons]
          exact hdrop
    · have hlt : c.length < len := Nat.lt_of_not_le hle
      have hmin : min len c.length = c.length := Nat.min_eq_right (Nat.le_of_lt hlt)
      have hxs : xs = c ++ xs.drop c.length := by
        have h := congrArg (List.take c.length) hflat
        rw [List.take_left' rfl, List.take_append_of_le_length (by omega)] at h
        conv_lhs => rw [← List.take_append_drop c.length xs]
        rw [← h]
      have hflat2 : rest.flatten = xs.drop c.length ++ ys := by
        rw [hxs, List.append_assoc] at hflat
        exact List.append_cancel_left hflat
      have hlen2 : (xs.drop c.length).length = len - c.length := by
        rw [List.length_drop, hlen]
      obtain ⟨inp1, h1, h2, h3⟩ :=
        ih (len - c.length) (got ++ c) (xs.drop c.length) ys hrest hflat2 hlen2 (by omega)
      simp only [hmin, if_neg (Nat.pos_iff_ne_zero.mp hcl), List.take_length,
        if_neg (Nat.sub_ne_zero_of_lt hlt)]
      refine ⟨inp1, ?_, h2, h3⟩
      rw [h1, List.append_assoc, ← hxs]

/-- On a working port `write` transmits all the bytes and returns their number. -/
theorem write_up (l : Link) (bs : List Nat) (hup : l.up = true) :
    write l bs = ((bs.length : Int), { l with sent := l.sent ++ bs }) := by
  simp [write, hup]

/-- The expression `reply[1] << 8 | reply[2]` is the big-endian 16-bit value. -/
theorem shl8_or (h lo : Nat) (hlo : lo < 256) : h <<< 8 ||| lo = 256 * h + lo := by
  rw [Nat.shiftLeft_eq, Nat.mul_comm]
  exact (Nat.mul_add_lt_is_or (i := 8) (by simpa using hlo) h).symm

/-- The function `read_with_timeout` on an input that starts with the bytes
`xs`, cut into non-empty chunks in any way. -/
theorem read_with_timeout_deliver (l : Link) (xs ys : List Nat)
    (hne : ∀ c ∈ l.inp, c ≠ []) (hflat : l.inp.flatten = xs ++ ys) (hpos : 0 < xs.length) :
    ∃ inp1, read_with_timeout l xs.length = (xs.length, xs, { l with inp := inp1 }) ∧
      (∀ c ∈ inp1, c ≠ []) ∧ inp1.flatten = ys := by
  obtain ⟨inp1, h1, h2, h3⟩ :=
    read_loop_deliver xs.length l.inp xs.length [] xs ys hne hflat rfl hpos
  refine ⟨inp1, ?_, h2, h3⟩
  simp only [read_with_timeout, h1, List.nil_append]

/-- A mismatching reply halts `read_block` of `baoclone.c` with the port as
the reply left it and the memory untouched. -/
theorem uv5r_read_block_bad_reply (l : Link) (start nbytes : Nat) (mem : Mem) (data : Nat)
    (t h lo n : Nat) (rest : List Nat) (hup : l.up = true)
    (ht : t < 256) (hh : h < 256) (hlo : lo < 256) (hn : n < 256)
    (hne : ∀ c ∈ l.inp, c ≠ []) (hflat : l.inp.flatten = [t, h, lo, n] ++ rest)
    (hbad : t ≠ 0x58 ∨ 256 * h + lo ≠ start ∨ n ≠ nbytes) :
    (UV5R.read_block l start mem data nbytes).status = some Fatal.bad_reply ∧
    (UV5R.read_block l start mem data nbytes).link.sent =
      l.sent ++ [0x53, (start >>> 8) % 256, start % 256, nbytes % 256] ∧
    (UV5R.read_block l start mem data nbytes).link.inp.flatten = rest ∧
    (UV5R.read_block l start mem data nbytes).mem = mem := by
  obtain ⟨inp1, h1, _, h3⟩ := read_with_timeout_deliver
    { l with sent := l.sent ++ UV5R.read_cmd start nbytes } [t, h, lo, n] rest hne hflat
    (by simp)
  simp only [List.length_cons, List.length_nil] at h1
  have hcond : uchar [t, h, lo, n] 0 ≠ 0x58 ∨
      uchar [t, h, lo, n] 1 <<< 8 ||| uchar [t, h, lo, n] 2 ≠ start ∨
      uchar [t, h, lo, n] 3 ≠ nbytes := by
    simp only [uchar, List.getD_cons_zero, List.getD_cons_succ, Nat.mod_eq_of_lt ht,
      Nat.mod_eq_of_lt hh, Nat.mod_eq_of_lt hlo, Nat.mod_eq_of_lt hn, shl8_or h lo hlo]
    exact hbad
  unfold UV5R.read_block
  rw [write_up l _ hup]
  simp only [UV5R.read_cmd, List.length_cons, List.length_nil] at h1 ⊢
  simp only [h1]
  simp [hcond, h3]

/-- A mismatching reply halts `read_block` of `uv-b5.c`, whatever
`read_with_timeout` is, with the port as the reply left it and the memory
untouched. -/
theorem uvb5_read_block_bad_reply (rwt : Reader) (l : Link) (start nbytes : Nat) (mem : Mem)
    (data : Nat) (t h lo n : Nat) (l2 : Link) (hup : l.up = true)
    (ht : t < 256) (hh : h < 256) (hlo : lo < 256) (hn : n < 256)
    (hr : rwt { l with sent := l.sent ++ UVB5.read_cmd start nbytes } 4 = (4, [t, h, lo, n], l2))
    (hbad : t ≠ 0x57 ∨ 256 * h + lo ≠ start ∨ n ≠ nbytes) :
    (UVB5.read_block rwt l start mem data nbytes).status = some Fatal.bad_reply ∧
    (UVB5.read_block rwt l start mem data nbytes).link = l2 ∧
    (UVB5.read_block rwt l start mem data nbytes).mem = mem := by
  have hcond : uchar [t, h, lo, n] 0 ≠ 0x57 ∨
      uchar [t, h, lo, n] 1 <<< 8 ||| uchar [t, h, lo, n] 2 ≠ start ∨
      uchar [t, h, lo, n] 3 ≠ nbytes := by
    simp only [uchar, List.getD_cons_zero, List.getD_cons_succ, Nat.mod_eq_of_lt ht,
      Nat.mod_eq_of_lt hh, Nat.mod_eq_of_lt hlo, Nat.mod_eq_of_lt hn, shl8_or h lo hlo]
    exact hbad
  unfold UVB5.read_block
  rw [write_up l _ hup]
  simp only [hr]
  simp [UVB5.read_cmd, hcond]

/-- A mismatching reply halts `read_block` of `bf-888s.c`, whatever
`read_with_timeout` is, with the port as the reply left it and the memory
untouched. -/
theorem bf888s_read_block_bad_reply (rwt : Reader) (l : Link) (start nbytes : Nat) (mem : Mem)
    (data : Nat) (t h lo n : Nat) (l2 : Link) (hup : l.up = true)
    (ht : t < 256) (hh : h < 256) (hlo : lo < 256) (hn : n < 256)
    (hr : rwt { l with sent := l.sent ++ BF888S.read_cmd start nbytes } 4 = (4, [t, h, lo, n], l2))
    (hbad : t ≠ 0x57 ∨ 256 * h + lo ≠ start ∨ n ≠ nbytes) :
    (BF888S.read_block rwt l start mem data nbytes).status = some Fatal.bad_reply ∧
    (BF888S.read_block rwt l start mem data nbytes).link = l2 ∧
    (BF888S.read_block rwt l start mem data nbytes).mem = mem := by
  have hcond : uchar [t, h, lo, n] 0 ≠ 0x57 ∨
      uchar [t, h, lo, n] 1 <<< 8 ||| uchar [t, h, lo, n] 2 ≠ start ∨
      uchar [t, h, lo, n] 3 ≠ nbytes := by
    simp only [uchar, List.getD_cons_zero, List.getD_cons_succ, Nat.mod_eq_of_lt ht,
      Nat.mod_eq_of_lt hh, Nat.mod_eq_of_lt hlo, Nat.mod_eq_of_lt hn, shl8_or h lo hlo]
    exact hbad
  unfold BF888S.read_block
  rw [write_up l _ hup]
  simp only [hr]
  simp [BF888S.read_cmd, hcond]

/-- C3: in all three `read_block` implementations, for every requested address
and length, a 4-byte reply `[t, h, lo, n]` whose tag is not the reply tag of
the model (`X` for UV-5R, `W` for UV-B5 and BF-888S), or whose echoed address
`256*h + lo` differs from the requested one, or whose echoed length differs
from the requested one, halts the program with the bad-reply error: nothing
is sent after the command (no `0x06`), nothing is read after the reply (the
port is as the reply left it), and the caller's buffer is untouched. For
UV-5R the reply may arrive cut into chunks in any way; for UV-B5 and BF-888S
the statement holds for every `read_with_timeout` that hands over the reply. -/
theorem C3_bad_reply_is_fatal :
    (∀ (l : Link) (start nbytes : Nat) (mem : Mem) (data t h lo n : Nat) (rest : List Nat),
      l.up = true → t < 256 → h < 256 → lo < 256 → n < 256 →
      (∀ c ∈ l.inp, c ≠ []) → l.inp.flatten = [t, h, lo, n] ++ rest →
      (t ≠ 0x58 ∨ 256 * h + lo ≠ start ∨ n ≠ nbytes) →
      (UV5R.read_block l start mem data nbytes).status = some Fatal.bad_reply ∧
      (UV5R.read_block l start mem data nbytes).link.sent =
        l.sent ++ [0x53, (start >>> 8) % 256, start % 256, nbytes % 256] ∧
      (UV5R.read_block l start mem data nbytes).link.inp.flatten = rest ∧
      (UV5R.read_block l start mem data nbytes).mem = mem) ∧
    (∀ (rwt : Reader) (l : Link) (start nbytes : Nat) (mem : Mem) (data t h lo n : Nat)
        (l2 : Link),
      l.up = true → t < 256 → h < 256 → lo < 256 → n < 256 →
      rwt { l with sent := l.sent ++ [0x52, (start >>> 8) % 256, start % 256, nbytes % 256] } 4
        = (4, [t, h, lo, n], l2) →
      (t ≠ 0x57 ∨ 256 * h + lo ≠ start ∨ n ≠ nbytes) →
      (UVB5.read_block rwt l start mem data nbytes).status = some Fatal.bad_reply ∧
      (UVB5.read_block rwt l start mem data nbytes).link = l2 ∧
      (UVB5.read_block rwt l start mem data nbytes).mem = mem) ∧
    (∀ (rwt : Reader) (l : Link) (start nbytes : Nat) (mem : Mem) (data t h lo n : Nat)
        (l2 : Link),
      l.up = true → t < 256 → h < 256 → lo < 256 → n < 256 →
      rwt { l with sent := l.sent ++ [0x52, (start >>> 8) % 256, start % 256, nbytes % 256] } 4
        = (4, [t, h, lo, n], l2) →
      (t ≠ 0x57 ∨ 256 * h + lo ≠ start ∨ n ≠ nbytes) →
      (BF888S.read_block rwt l start mem data nbytes).status = some Fatal.bad_reply ∧
      (BF888S.read_block rwt l start mem data nbytes).link = l2 ∧
      (BF888S.read_block rwt l start mem data nbytes).mem = mem) :=
  ⟨fun l start nbytes mem data t h lo n rest hup ht hh hlo hn hne hflat hbad =>
      uv5r_read_block_bad_reply l start nbytes mem data t h lo n rest hup ht hh hlo hn
        hne hflat hbad,
   fun rwt l start nbytes mem data t h lo n l2 hup ht hh hlo hn hr hbad =>
      uvb5_read_block_bad_reply rwt l start nbytes mem data t h lo n l2 hup ht hh hlo hn
        hr hbad,
   fun rwt l start nbytes mem data t h lo n l2 hup ht hh hlo hn hr hbad =>
      bf888s_read_block_bad_reply rwt l start nbytes mem data t h lo n l2 hup ht hh hlo hn
        hr hbad⟩

/-- C3 at the request for 8 bytes at `0x0010` answered with the correct tag
and address and the length 7: only the length differs. The data and the
acknowledgment that follow the reply stay unread. -/
theorem C3_bad_reply_is_fatal_witness :
    (UV5R.read_block ⟨true, [], [[0x58, 0x00, 0x10, 7], [1, 2, 3, 4, 5, 6, 7], [6]]⟩
        0x10 (fun _ => 0) 0x10 8).status = some Fatal.bad_reply ∧
    (UV5R.read_block ⟨true, [], [[0x58, 0x00, 0x10, 7], [1, 2, 3, 4, 5, 6, 7], [6]]⟩
        0x10 (fun _ => 0) 0x10 8).link.inp.flatten = [1, 2, 3, 4, 5, 6, 7, 6] ∧
    (UVB5.read_block read_with_timeout
        ⟨true, [], [[0x57, 0x00, 0x10, 7], [1, 2, 3, 4, 5, 6, 7], [0x74]]⟩
        0x10 (fun _ => 0) 0x10 8).link =
      ⟨true, [0x52, 0x00, 0x10, 8], [[1, 2, 3, 4, 5, 6, 7], [0x74]]⟩ ∧
    (BF888S.read_block read_with_timeout
        ⟨true, [], [[0x57, 0x00, 0x10, 7], [1, 2, 3, 4, 5, 6, 7], [6]]⟩
        0x10 (fun _ => 0) 0x10 8).link =
      ⟨true, [0x52, 0x00, 0x10, 8], [[1, 2, 3, 4, 5, 6, 7], [6]]⟩ :=
  have h5 := C3_bad_reply_is_fatal.1
    ⟨true, [], [[0x58, 0x00, 0x10, 7], [1, 2, 3, 4, 5, 6, 7], [6]]⟩ 0x10 8 (fun _ => 0) 0x10
    0x58 0x00 0x10 7 [1, 2, 3, 4, 5, 6, 7, 6] rfl (by decide) (by decide) (by decide)
    (by decide) (by decide) (by decide) (Or.inr (Or.inr (by decide)))
  have hb := C3_bad_reply_is_fatal.2.1 read_with_timeout
    ⟨true, [], [[0x57, 0x00, 0x10, 7], [1, 2, 3, 4, 5, 6, 7], [0x74]]⟩ 0x10 8 (fun _ => 0) 0x10
    0x57 0x00 0x10 7 ⟨true, [0x52, 0x00, 0x10, 8], [[1, 2, 3, 4, 5, 6, 7], [0x74]]⟩
    rfl (by decide) (by decide) (by decide) (by decide) (by decide)
    (Or.inr (Or.inr (by decide)))
  have h8 := C3_bad_reply_is_fatal.2.2 read_with_timeout
    ⟨true, [], [[0x57, 0x00, 0x10, 7], [1, 2, 3, 4, 5, 6, 7], [6]]⟩ 0x10 8 (fun _ => 0) 0x10
    0x57 0x00 0x10 7 ⟨true, [0x52, 0x00, 0x10, 8], [[1, 2, 3, 4, 5, 6, 7], [6]]⟩
    rfl (by decide) (by decide) (by decide) (by decide) (by decide)
    (Or.inr (Or.inr (by decide)))
  ⟨h5.1, h5.2.2.1, hb.2.1, h8.2.1⟩

/-- The bytes of the command for an address that fits 16 bits. -/
theorem cmd_bytes (a : Nat) (ha : a ≤ 0xFFFF) :
    (a >>> 8) % 256 = a / 256 ∧ a / 256 < 256 ∧ 256 * (a / 256) + a % 256 = a := by
  rw [Nat.shiftRight_eq_div_pow]
  omega

/-- The memory after `store`: the stored bytes in their order, and the rest
unchanged. -/
theorem store_spec (m : Mem) (p : Nat) (bs : List Nat) :
    (∀ k, k < bs.length → store m p bs (p + k) = bs.getD k 0) ∧
    (∀ x, x < p ∨ p + bs.length ≤ x → store m p bs x = m x) := by
  constructor
  · intro k hk
    simp [store, hk]
  · intro x hx
    have : ¬ (p ≤ x ∧ x < p + bs.length) := by omega
    simp [store, this]

/-- A full block answered by the radio: `read_block` of `baoclone.c` returns,
has sent the command and `0x06`, and has stored the block. -/
theorem uv5r_read_block_ok (l : Link) (a : Nat) (mem : Mem) (data : Nat)
    (dat rest : List Nat) (hup : l.up = true) (ha : a ≤ 0xFFFF) (hdat : dat.length = 0x40)
    (hne : ∀ c ∈ l.inp, c ≠ [])
    (hflat : l.inp.flatten = [0x58, a / 256, a % 256, 0x40] ++ dat ++ [0x06] ++ rest) :
    (UV5R.read_block l a mem data 0x40).status = none ∧
    (UV5R.read_block l a mem data 0x40).link.sent =
      l.sent ++ [0x53, a / 256, a % 256, 0x40] ++ [0x06] ∧
    (UV5R.read_block l a mem data 0x40).link.inp.flatten = rest ∧
    (UV5R.read_block l a mem data 0x40).mem = store mem data dat := by
  obtain ⟨hc1, hc2, hc3⟩ := cmd_bytes a ha
  rw [List.append_assoc, List.append_assoc] at hflat
  obtain ⟨inp1, h1, hne1, hflat1⟩ := read_with_timeout_deliver
    { l with sent := l.sent ++ UV5R.read_cmd a 0x40 } [0x58, a / 256, a % 256, 0x40] _ hne hflat
    (by simp)
  obtain ⟨inp2, h2, hne2, hflat2⟩ := read_with_timeout_deliver
    { l with sent := l.sent ++ UV5R.read_cmd a 0x40, inp := inp1 } dat _ hne1 hflat1
    (by omega)
  obtain ⟨inp3, h3, _, hflat3⟩ := read_with_timeout_deliver
    { l with sent := l.sent ++ UV5R.read_cmd a 0x40 ++ [0x06], inp := inp2 } [0x06] rest
    hne2 hflat2 (by simp)
  simp only [List.length_cons, List.length_nil, hdat] at h1 h2 h3
  have hcond : ¬ (uchar [0x58, a / 256, a % 256, 0x40] 0 ≠ 0x58 ∨
      uchar [0x58, a / 256, a % 256, 0x40] 1 <<< 8 |||
        uchar [0x58, a / 256, a % 256, 0x40] 2 ≠ a ∨
      uchar [0x58, a / 256, a % 256, 0x40] 3 ≠ 0x40) := by
    simp only [uchar, List.getD_cons_zero, List.getD_cons_succ, Nat.mod_eq_of_lt hc2,
      Nat.mod_mod, shl8_or (a / 256) (a % 256) (Nat.mod_lt _ (by norm_num)), hc3]
    simp
  unfold UV5R.read_block
  rw [write_up l _ hup]
  simp only [UV5R.read_cmd, List.length_cons, List.length_nil] at h1 h2 h3 ⊢
  simp only [h1]
  rw [if_neg (by simp), if_neg (by simp), if_neg hcond]
  simp only [h2]
  rw [if_neg (by simp), write_up ⟨l.up, _, inp2⟩ _ hup]
  simp only [List.length_cons, List.length_nil, h3]
  simp [uchar, hflat3, hc1]

/-- A full block answered by the radio: `read_block` of `uv-b5.c`, with
`read_with_timeout` of `baoclone.c`, returns, has sent the command and `0x06`,
and has stored the block. -/
theorem uvb5_read_block_ok (l : Link) (a : Nat) (mem : Mem) (data : Nat)
    (dat rest : List Nat) (ack : Nat)
    (hack : ack = 0x74 ∨ ack = 0x78 ∨ ack = 0x1f) (hup : l.up = true) (ha : a ≤ 0xFFFF)
    (hdat : dat.length = 0x10)
    (hne : ∀ c ∈ l.inp, c ≠ [])
    (hflat : l.inp.flatten = [0x57, a / 256, a % 256, 0x10] ++ dat ++ [ack] ++ rest) :
    (UVB5.read_block read_with_timeout l a mem data 0x10).status = none ∧
    (UVB5.read_block read_with_timeout l a mem data 0x10).link.sent =
      l.sent ++ [0x52, a / 256, a % 256, 0x10] ++ [0x06] ∧
    (UVB5.read_block read_with_timeout l a mem data 0x10).link.inp.flatten = rest ∧
    (UVB5.read_block read_with_timeout l a mem data 0x10).mem = store mem data dat := by
  obtain ⟨hc1, hc2, hc3⟩ := cmd_bytes a ha
  rw [List.append_assoc, List.append_assoc] at hflat
  obtain ⟨inp1, h1, hne1, hflat1⟩ := read_with_timeout_deliver
    { l with sent := l.sent ++ UVB5.read_cmd a 0x10 } [0x57, a / 256, a % 256, 0x10] _ hne hflat
    (by simp)
  obtain ⟨inp2, h2, hne2, hflat2⟩ := read_with_timeout_deliver
    { l with sent := l.sent ++ UVB5.read_cmd a 0x10, inp := inp1 } dat _ hne1 hflat1
    (by omega)
  obtain ⟨inp3, h3, _, hflat3⟩ := read_with_timeout_deliver
    { l with sent := l.sent ++ UVB5.read_cmd a 0x10 ++ [0x06], inp := inp2 } [ack] rest
    hne2 hflat2 (by simp)
  simp only [List.length_cons, List.length_nil, hdat] at h1 h2 h3
  have hcond : ¬ (uchar [0x57, a / 256, a % 256, 0x10] 0 ≠ 0x57 ∨
      uchar [0x57, a / 256, a % 256, 0x10] 1 <<< 8 |||
        uchar [0x57, a / 256, a % 256, 0x10] 2 ≠ a ∨
      uchar [0x57, a / 256, a % 256, 0x10] 3 ≠ 0x10) := by
    simp only [uchar, List.getD_cons_zero, List.getD_cons_succ, Nat.mod_eq_of_lt hc2,
      Nat.mod_mod, shl8_or (a / 256) (a % 256) (Nat.mod_lt _ (by norm_num)), hc3]
    simp
  unfold UVB5.read_block
  rw [write_up l _ hup]
  simp only [UVB5.read_cmd, List.length_cons, List.length_nil] at h1 h2 h3 ⊢
  simp only [h1]
  rw [if_neg (by simp), if_neg (by simp), if_neg hcond]
  simp only [h2]
  rw [if_neg (by simp), write_up ⟨l.up, _, inp2⟩ _ hup]
  simp only [List.length_cons, List.length_nil, h3]
  rcases hack with h | h | h <;> subst h <;> simp [uchar, hflat3, hc1]

/-- A full block answered by the radio: `read_block` of `bf-888s.c`, with
`read_with_timeout` of `baoclone.c`, returns, has sent the command and `0x06`,
and has stored the block. -/
theorem bf888s_read_block_ok (l : Link) (a : Nat) (mem : Mem) (data : Nat)
    (dat rest : List Nat) (hup : l.up = true) (ha : a ≤ 0xFFFF) (hdat : dat.length = 8)
    (hne : ∀ c ∈ l.inp, c ≠ [])
    (hflat : l.inp.flatten = [0x57, a / 256, a % 256, 8] ++ dat ++ [0x06] ++ rest) :
    (BF888S.read_block read_with_timeout l a mem data 8).status = none ∧
    (BF888S.read_block read_with_timeout l a mem data 8).link.sent =
      l.sent ++ [0x52, a / 256, a % 256, 8] ++ [0x06] ∧
    (BF888S.read_block read_with_timeout l a mem data 8).link.inp.flatten = rest ∧
    (BF888S.read_block read_with_timeout l a mem data 8).mem = store mem data dat := by
  obtain ⟨hc1, hc2, hc3⟩ := cmd_bytes a ha
  rw [List.append_assoc, List.append_assoc] at hflat
  obtain ⟨inp1, h1, hne1, hflat1⟩ := read_with_timeout_deliver
    { l with sent := l.sent ++ BF888S.read_cmd a 8 } [0x57, a / 256, a % 256, 8] _ hne hflat
    (by simp)
  obtain ⟨inp2, h2, hne2, hflat2⟩ := read_with_timeout_deliver
    { l with sent := l.sent ++ BF888S.read_cmd a 8, inp := inp1 } dat _ hne1 hflat1
    (by omega)
  obtain ⟨inp3, h3, _, hflat3⟩ := read_with_timeout_deliver
    { l with sent := l.sent ++ BF888S.read_cmd a 8 ++ [0x06], inp := inp2 } [0x06] rest
    hne2 hflat2 (by simp)
  simp only [List.length_cons, List.length_nil, hdat] at h1 h2 h3
  have hcond : ¬ (uchar [0x57, a / 256, a % 256, 8] 0 ≠ 0x57 ∨
      uchar [0x57, a / 256, a % 256, 8] 1 <<< 8 ||| uchar [0x57, a / 256, a % 256, 8] 2 ≠ a ∨
      uchar [0x57, a / 256, a % 256, 8] 3 ≠ 8) := by
    simp only [uchar, List.getD_cons_zero, List.getD_cons_succ, Nat.mod_eq_of_lt hc2,
      Nat.mod_mod, shl8_or (a / 256) (a % 256) (Nat.mod_lt _ (by norm_num)), hc3]
    simp
  unfold BF888S.read_block
  rw [write_up l _ hup]
  simp only [BF888S.read_cmd, List.length_cons, List.length_nil] at h1 h2 h3 ⊢
  simp only [h1]
  rw [if_neg (by simp), if_neg (by simp), if_neg hcond]
  simp only [h2]
  rw [if_neg (by simp), write_up ⟨l.up, _, inp2⟩ _ hup]
  simp only [List.length_cons, List.length_nil, h3]
  simp [uchar, hflat3, hc1]

/-- C4: for every address `a` in `0..0xFFFF` and the block size `n` of the
model (`0x40` UV-5R, `0x10` UV-B5, `8` BF-888S), when the device answers
`[replyTag, a>>8, a&0xFF, n]`, then `n` data bytes, then an accepted
acknowledgment byte (cut into chunks in any way), `read_block` returns to its
caller, the bytes it wrote are exactly `[tag, a>>8, a&0xFF, n]` followed by
the single byte `0x06`, the caller's buffer holds the `n` data bytes in the
order received, and the memory outside the buffer is unchanged. For UV-B5 and
BF-888S `read_with_timeout` is the one of `baoclone.c`. -/
theorem C4_read_block_success :
    (∀ (l : Link) (a : Nat) (mem : Mem) (data : Nat) (dat rest : List Nat),
      l.up = true → a ≤ 0xFFFF → dat.length = 0x40 → (∀ c ∈ l.inp, c ≠ []) →
      l.inp.flatten = [0x58, a / 256, a % 256, 0x40] ++ dat ++ [0x06] ++ rest →
      (UV5R.read_block l a mem data 0x40).status = none ∧
      (UV5R.read_block l a mem data 0x40).link.sent =
        l.sent ++ [0x53, a / 256, a % 256, 0x40] ++ [0x06] ∧
      (UV5R.read_block l a mem data 0x40).link.inp.flatten = rest ∧
      (∀ k, k < 0x40 → (UV5R.read_block l a mem data 0x40).mem (data + k) = dat.getD k 0) ∧
      (∀ x, x < data ∨ data + 0x40 ≤ x → (UV5R.read_block l a mem data 0x40).mem x = mem x)) ∧
    (∀ (l : Link) (a : Nat) (mem : Mem) (data : Nat) (dat rest : List Nat) (ack : Nat),
      (ack = 0x74 ∨ ack = 0x78 ∨ ack = 0x1f) →
      l.up = true → a ≤ 0xFFFF → dat.length = 0x10 → (∀ c ∈ l.inp, c ≠ []) →
      l.inp.flatten = [0x57, a / 256, a % 256, 0x10] ++ dat ++ [ack] ++ rest →
      (UVB5.read_block read_with_timeout l a mem data 0x10).status = none ∧
      (UVB5.read_block read_with_timeout l a mem data 0x10).link.sent =
        l.sent ++ [0x52, a / 256, a % 256, 0x10] ++ [0x06] ∧
      (UVB5.read_block read_with_timeout l a mem data 0x10).link.inp.flatten = rest ∧
      (∀ k, k < 0x10 →
        (UVB5.read_block read_with_timeout l a mem data 0x10).mem (data + k) = dat.getD k 0) ∧
      (∀ x, x < data ∨ data + 0x10 ≤ x →
        (UVB5.read_block read_with_timeout l a mem data 0x10).mem x = mem x)) ∧
    (∀ (l : Link) (a : Nat) (mem : Mem) (data : Nat) (dat rest : List Nat),
      l.up = true → a ≤ 0xFFFF → dat.length = 8 → (∀ c ∈ l.inp, c ≠ []) →
      l.inp.flatten = [0x57, a / 256, a % 256, 8] ++ dat ++ [0x06] ++ rest →
      (BF888S.read_block read_with_timeout l a mem data 8).status = none ∧
      (BF888S.read_block read_with_timeout l a mem data 8).link.sent =
        l.sent ++ [0x52, a / 256, a % 256, 8] ++ [0x06] ∧
      (BF888S.read_block read_with_timeout l a mem data 8).link.inp.flatten = rest ∧
      (∀ k, k < 8 →
        (BF888S.read_block read_with_timeout l a mem data 8).mem (data + k) = dat.getD k 0) ∧
      (∀ x, x < data ∨ data + 8 ≤ x →
        (BF888S.read_block read_with_timeout l a mem data 8).mem x = mem x)) := by
  refine ⟨?_, ?_, ?_⟩
  · intro l a mem data dat rest hup ha hdat hne hflat
    obtain ⟨h1, h2, h3, h4⟩ := uv5r_read_block_ok l a mem data dat rest hup ha hdat hne hflat
    refine ⟨h1, h2, h3, ?_, ?_⟩
    · intro k hk
      rw [h4]
      exact (store_spec mem data dat).1 k (by omega)
    · intro x hx
      rw [h4]
      exact (store_spec mem data dat).2 x (by omega)
  · intro l a mem data dat rest ack hack hup ha hdat hne hflat
    obtain ⟨h1, h2, h3, h4⟩ :=
      uvb5_read_block_ok l a mem data dat rest ack hack hup ha hdat hne hflat
    refine ⟨h1, h2, h3, ?_, ?_⟩
    · intro k hk
      rw [h4]
      exact (store_spec mem data dat).1 k (by omega)
    · intro x hx
      rw [h4]
      exact (store_spec mem data dat).2 x (by omega)
  · intro l a mem data dat rest hup ha hdat hne hflat
    obtain ⟨h1, h2, h3, h4⟩ := bf888s_read_block_ok l a mem data dat rest hup ha hdat hne hflat
    refine ⟨h1, h2, h3, ?_, ?_⟩
    · intro k hk
      rw [h4]
      exact (store_spec mem data dat).1 k (by omega)
    · intro x hx
      rw [h4]
      exact (store_spec mem data dat).2 x (by omega)

/-- C4 at three transfers: UV-5R block `0x1240` arriving in chunks that do not
follow the frame boundaries, UV-B5 block `0x0120` acknowledged with `0x78`,
BF-888S block `0x02b8`. -/
theorem C4_read_block_success_witness :
    (UV5R.read_block ⟨true, [], [[0x58, 0x12], 0x40 :: 0x40 :: List.range 60, [60, 61, 62, 63, 6]]⟩
        0x1240 (fun _ => 0xff) 0x1240 0x40).status = none ∧
    (UV5R.read_block ⟨true, [], [[0x58, 0x12], 0x40 :: 0x40 :: List.range 60, [60, 61, 62, 63, 6]]⟩
        0x1240 (fun _ => 0xff) 0x1240 0x40).link.sent = [0x53, 0x12, 0x40, 0x40, 0x06] ∧
    (UVB5.read_block read_with_timeout ⟨true, [], [[0x57, 0x01, 0x20, 0x10], List.range 16, [0x78]]⟩
        0x120 (fun _ => 0xff) 0x120 0x10).link.sent = [0x52, 0x01, 0x20, 0x10, 0x06] ∧
    (BF888S.read_block read_with_timeout
        ⟨true, [], [[0x57, 0x02, 0xb8, 8], [1, 2, 3, 4, 5, 6, 7, 8], [6]]⟩
        0x2b8 (fun _ => 0xff) 0x2b8 8).mem (0x2b8 + 7) = 8 :=
  have h5 := C4_read_block_success.1
    ⟨true, [], [[0x58, 0x12], 0x40 :: 0x40 :: List.range 60, [60, 61, 62, 63, 6]]⟩
    0x1240 (fun _ => 0xff) 0x1240 (List.range 64) [] rfl (by decide) (by decide) (by decide)
    (by decide)
  have hb := C4_read_block_success.2.1
    ⟨true, [], [[0x57, 0x01, 0x20, 0x10], List.range 16, [0x78]]⟩
    0x120 (fun _ => 0xff) 0x120 (List.range 16) [] 0x78 (Or.inr (Or.inl rfl)) rfl (by decide)
    (by decide) (by decide) (by decide)
  have h8 := C4_read_block_success.2.2
    ⟨true, [], [[0x57, 0x02, 0xb8, 8], [1, 2, 3, 4, 5, 6, 7, 8], [6]]⟩
    0x2b8 (fun _ => 0xff) 0x2b8 [1, 2, 3, 4, 5, 6, 7, 8] [] rfl (by decide) (by decide)
    (by decide) (by decide)
  ⟨h5.1, h5.2.1, hb.2.1, h8.2.2.2.1 7 (by decide)⟩

/-! ### Frequencies -/

/-- The `uint32_t` sum of `bcd_to_hz` never wraps, and is a non-negative `int`. -/
theorem bcd_to_hz_eq (bcd : Nat) :
    bcd_to_hz bcd =
      ((bcd / 268435456 % 16 * 100000000 + bcd / 16777216 % 16 * 10000000 +
        bcd / 1048576 % 16 * 1000000 + bcd / 65536 % 16 * 100000 +
        bcd / 4096 % 16 * 10000 + bcd / 256 % 16 * 1000 +
        bcd / 16 % 16 * 100 + bcd % 16 * 10 : Nat) : Int) := by
  unfold bcd_to_hz toInt32
  simp only [low_nibble_eq, Nat.shiftRight_eq_div_pow, Nat.reducePow]
  split <;> omega

/-- C5: the UV-5R frequency decoder applies the x10 scale exactly. For every
input `b`, valid BCD or not, `bcd_to_hz b = 10 * bcd_to_int b`; the value is
the exact sum of the weighted nibbles, which stays below `2^31`, so nothing
wraps in 32 bits. Consequently a UV-5R slot whose receive-frequency field is
`0x14625000` decodes to `rx_hz = 146250000`. -/
theorem C5_bcd_to_hz_scale :
    (∀ b : Nat,
      bcd_to_hz b = 10 * bcd_to_int b ∧
      bcd_to_hz b =
        ((((b >>> 28) &&& 15) * 100000000 + ((b >>> 24) &&& 15) * 10000000 +
          ((b >>> 20) &&& 15) * 1000000 + ((b >>> 16) &&& 15) * 100000 +
          ((b >>> 12) &&& 15) * 10000 + ((b >>> 8) &&& 15) * 1000 +
          ((b >>> 4) &&& 15) * 100 + (b &&& 15) * 10 : Nat) : Int) ∧
      0 ≤ bcd_to_hz b ∧ bcd_to_hz b < 2 ^ 31) ∧
    (∀ (beyond : Nat → Int) (mem : Mem) (i : Nat) (o : UV5R.Channel),
      rd32 mem (16 * i) = 0x14625000 →
      (UV5R.decode_channel beyond mem i o).rx_hz = 146250000) := by
  constructor
  · intro b
    refine ⟨?_, ?_, ?_, ?_⟩
    · rw [bcd_to_hz_eq, bcd_to_int_eq]; omega
    · rw [bcd_to_hz_eq]
      simp only [low_nibble_eq, Nat.shiftRight_eq_div_pow, Nat.reducePow]
    · rw [bcd_to_hz_eq]; omega
    · rw [bcd_to_hz_eq]; omega
  · intro beyond mem i o h
    have hv : bcd_to_hz 0x14625000 = 146250000 := by
      rw [bcd_to_hz_eq]; norm_num
    simp only [UV5R.decode_channel, h]
    rw [if_neg (by decide)]
    exact hv

/-- C5 at slot 3 of a memory that holds the bytes `00 50 62 14` in the
receive-frequency field. -/
theorem C5_bcd_to_hz_scale_witness :
    (UV5R.decode_channel (fun _ => 0)
      (store (fun _ => 0xff) 48 [0x00, 0x50, 0x62, 0x14]) 3
      ⟨[], 0, 0, 0, 0, 0, 0, 0, 0, 0, 0, 0, 0⟩).rx_hz = 146250000 :=
  C5_bcd_to_hz_scale.2 (fun _ => 0) (store (fun _ => 0xff) 48 [0x00, 0x50, 0x62, 0x14]) 3
    ⟨[], 0, 0, 0, 0, 0, 0, 0, 0, 0, 0, 0, 0⟩ (by decide)

/-! ### Squelch -/

/-- C6: evaluation of the UV-5R `decode_squelch` at the CTCSS tone value 1462
(146.2 Hz). The CTCSS output is 1462, but the function goes on into its DCS
branch and stores the negated content of `DCS_CODES[1356]`, a cell far behind
the 104-entry table, in the DCS output; the DCS output is 0 only if that
cell happens to hold 0. -/
theorem C6_uv5r_ctcss_falls_into_dcs :
    (∀ beyond : Nat → Int, UV5R.decode_squelch beyond 1462 0 0 = (1462, - beyond 1356)) ∧
    UV5R.DCS_CODES.length = 104 ∧
    UV5R.decode_squelch (fun _ => 7) 1462 0 0 = (1462, -7) := by
  refine ⟨fun beyond => ?_, by decide, by decide⟩
  simp [UV5R.decode_squelch, UV5R.dcs_at, UV5R.DCS_CODES]

/-- C7: evaluation of `decode_squelch` at inputs whose table index is outside
`DCS_CODES`. In the UV-5R decoder the tone value 105 reads `DCS_CODES[104]`;
in the UV-B5 decoder the tone byte 155 reads `DCS_CODES[104]`; both tables
have 104 entries, indexed `0..103`. -/
theorem C7_squelch_lookup_outside_table :
    (∀ (beyond : Nat → Int) (c d : Int),
      UV5R.decode_squelch beyond 105 c d = (c, beyond 104)) ∧
    (∀ (beyond : Nat → Int) (p : Nat) (c d : Int),
      UVB5.decode_squelch beyond 155 p c d = (0, if p ≠ 0 then - beyond 104 else beyond 104)) ∧
    UV5R.DCS_CODES.length = 104 ∧ UVB5.DCS_CODES.length = 104 := by
  refine ⟨fun beyond c d => ?_, fun beyond p c d => ?_, by decide, by decide⟩
  · simp [UV5R.decode_squelch, UV5R.dcs_at, UV5R.DCS_CODES]
  · simp [UVB5.decode_squelch, UVB5.dcs_at, UVB5.DCS_CODES]

/-- C9: evaluation of the BF-888S `decode_squelch` at the raw tone field
`0x1462` (CTCSS 146.2 Hz) with both outputs initialised to 0. The CTCSS
output is 1462, and the DCS output is `1462 - 8000 = -6538`, not 0. -/
theorem C9_bf888s_ctcss_sets_dcs :
    BF888S.decode_squelch 0x1462 0 0 = (1462, -6538) := by
  decide

/-- Inside the table, `DCS_CODES[k]` of `baoclone.c` is a positive entry. -/
theorem uv5r_dcs_at_inside (beyond : Nat → Int) (k : Nat) (h : k < 104) :
    ∃ d, UV5R.DCS_CODES[k]? = some d ∧ 0 < d ∧ UV5R.dcs_at beyond k = d := by
  have hlen : UV5R.DCS_CODES.length = 104 := by decide
  have hk : k < UV5R.DCS_CODES.length := by omega
  have hpos : ∀ d ∈ UV5R.DCS_CODES, 0 < d := by decide
  refine ⟨UV5R.DCS_CODES[k], List.getElem?_eq_getElem hk, hpos _ (List.getElem_mem hk), ?_⟩
  simp only [UV5R.dcs_at, if_pos hk, List.getD_eq_getElem _ _ hk]

/-- Inside the table, `DCS_CODES[k]` of `uv-b5.c` is a positive entry. -/
theorem uvb5_dcs_at_inside (beyond : Nat → Int) (k : Nat) (h : k < 104) :
    ∃ d, UVB5.DCS_CODES[k]? = some d ∧ 0 < d ∧ UVB5.dcs_at beyond k = d := by
  have hlen : UVB5.DCS_CODES.length = 104 := by decide
  have hk : k < UVB5.DCS_CODES.length := by omega
  have hpos : ∀ d ∈ UVB5.DCS_CODES, 0 < d := by decide
  refine ⟨UVB5.DCS_CODES[k], List.getElem?_eq_getElem hk, hpos _ (List.getElem_mem hk), ?_⟩
  simp only [UVB5.dcs_at, if_pos hk, List.getD_eq_getElem _ _ hk]

/-- Inside the table, `CTCSS_TONES[k]` of `uv-b5.c` is a positive entry. -/
theorem uvb5_ctcss_at_inside (beyond : Nat → Int) (k : Nat) (h : k < 50) :
    ∃ t, UVB5.CTCSS_TONES[k]? = some t ∧ 0 < t ∧ UVB5.ctcss_at beyond k = t := by
  have hlen : UVB5.CTCSS_TONES.length = 50 := by decide
  have hk : k < UVB5.CTCSS_TONES.length := by omega
  have hpos : ∀ t ∈ UVB5.CTCSS_TONES, 0 < t := by decide
  refine ⟨UVB5.CTCSS_TONES[k], List.getElem?_eq_getElem hk, hpos _ (List.getElem_mem hk), ?_⟩
  simp only [UVB5.ctcss_at, if_pos hk, List.getD_eq_getElem _ _ hk]

/-- C8: UV-B5 squelch. With both outputs initialised to 0, as `decode_channel`
does, for every tone byte `b` and polarity bit `p`: `b = 0` gives no squelch;
`1 <= b <= 50` gives `ctcs = CTCSS_TONES[b-1]` and `dcs = 0`;
`51 <= b <= 154` gives `ctcs = 0` and `dcs = DCS_CODES[b-51]`, negated exactly
when `p` is set. The code is positive, so the sign of `dcs` is the polarity
bit and does not depend on the tone byte. -/
theorem C8_uvb5_squelch (beyond : Nat → Int) (b p : Nat) :
    (b = 0 → UVB5.decode_squelch beyond b p 0 0 = (0, 0)) ∧
    (1 ≤ b ∧ b ≤ 50 →
      ∃ t, UVB5.CTCSS_TONES[b - 1]? = some t ∧
        UVB5.decode_squelch beyond b p 0 0 = (t, 0)) ∧
    (51 ≤ b ∧ b ≤ 154 →
      ∃ d, UVB5.DCS_CODES[b - 51]? = some d ∧ 0 < d ∧
        UVB5.decode_squelch beyond b p 0 0 = (0, if p = 0 then d else - d)) := by
  refine ⟨?_, ?_, ?_⟩
  · intro h
    simp [UVB5.decode_squelch, h]
  · rintro ⟨h1, h2⟩
    obtain ⟨t, ht, _, hat⟩ := uvb5_ctcss_at_inside beyond (b - 1) (by omega)
    refine ⟨t, ht, ?_⟩
    simp only [UVB5.decode_squelch, if_neg (by omega : ¬ b = 0), if_pos h2, hat]
  · rintro ⟨h1, h2⟩
    obtain ⟨d, hd, hpos, hat⟩ := uvb5_dcs_at_inside beyond (b - 51) (by omega)
    refine ⟨d, hd, hpos, ?_⟩
    simp only [UVB5.decode_squelch, if_neg (by omega : ¬ b = 0), if_neg (by omega : ¬ b ≤ 50),
      hat]
    by_cases hp : p = 0 <;> simp [hp]

/-- C8 at the tone bytes 0, 24 (CTCSS 146.2 Hz) and 51 (DCS 023) with the
polarity bit set. -/
theorem C8_uvb5_squelch_witness :
    UVB5.decode_squelch (fun _ => 0) 0 1 0 0 = (0, 0) ∧
    (∃ t, UVB5.CTCSS_TONES[24 - 1]? = some t ∧
      UVB5.decode_squelch (fun _ => 0) 24 1 0 0 = (t, 0)) ∧
    (∃ d, UVB5.DCS_CODES[51 - 51]? = some d ∧ 0 < d ∧
      UVB5.decode_squelch (fun _ => 0) 51 1 0 0 = (0, if 1 = 0 then d else - d)) :=
  ⟨(C8_uvb5_squelch (fun _ => 0) 0 1).1 rfl,
   (C8_uvb5_squelch (fun _ => 0) 24 1).2.1 ⟨by decide, by decide⟩,
   (C8_uvb5_squelch (fun _ => 0) 51 1).2.2 ⟨by decide, by decide⟩⟩

/-- The UV-5R `decode_squelch` on the DCS index ranges, outputs initialised
to 0. -/
theorem uv5r_decode_squelch_dcs (beyond : Nat → Int) (v : Nat) :
    (1 ≤ v ∧ v ≤ 104 →
      ∃ d, UV5R.DCS_CODES[v - 1]? = some d ∧ 0 < d ∧
        UV5R.decode_squelch beyond v 0 0 = (0, d)) ∧
    (106 ≤ v ∧ v ≤ 209 →
      ∃ d, UV5R.DCS_CODES[v - 106]? = some d ∧ 0 < d ∧
        UV5R.decode_squelch beyond v 0 0 = (0, - d)) := by
  constructor
  · rintro ⟨h1, h2⟩
    obtain ⟨d, hd, hpos, hat⟩ := uv5r_dcs_at_inside beyond (v - 1) (by omega)
    refine ⟨d, hd, hpos, ?_⟩
    simp only [UV5R.decode_squelch, if_neg (by omega : ¬ (v = 0 ∨ v = 0xffff)),
      if_neg (by omega : ¬ v ≥ 0x0258), if_pos (by omega : v < 0x6A), hat]
  · rintro ⟨h1, h2⟩
    obtain ⟨d, hd, hpos, hat⟩ := uv5r_dcs_at_inside beyond (v - 106) (by omega)
    refine ⟨d, hd, hpos, ?_⟩
    simp only [UV5R.decode_squelch, if_neg (by omega : ¬ (v = 0 ∨ v = 0xffff)),
      if_neg (by omega : ¬ v ≥ 0x0258), if_neg (by omega : ¬ v < 0x6A), hat]

/-- C10: UV-5R squelch, DCS part. For every enabled channel, a raw tone value
`v` with `1 <= v <= 104` decodes to normal DCS with the code
`DCS_CODES[v-1]` (`dcs > 0`, `ctcs = 0`), and a raw tone value `v` with
`106 <= v <= 209` decodes to inverted DCS with the code `DCS_CODES[v-106]`
(`dcs = -DCS_CODES[v-106]`, `ctcs = 0`), for the receive tone (offset 8 of
the record) and the transmit tone (offset 10) alike; the index range alone
fixes the polarity. -/
theorem C10_uv5r_dcs (beyond : Nat → Int) (mem : Mem) (i : Nat) (o : UV5R.Channel)
    (h0 : rd32 mem (16 * i) ≠ 0) (h1 : rd32 mem (16 * i) ≠ 0xffffffff) :
    (1 ≤ rd16 mem (16 * i + 8) ∧ rd16 mem (16 * i + 8) ≤ 104 →
      ∃ d, UV5R.DCS_CODES[rd16 mem (16 * i + 8) - 1]? = some d ∧ 0 < d ∧
        (UV5R.decode_channel beyond mem i o).rx_dcs = d ∧
        (UV5R.decode_channel beyond mem i o).rx_ctcs = 0) ∧
    (106 ≤ rd16 mem (16 * i + 8) ∧ rd16 mem (16 * i + 8) ≤ 209 →
      ∃ d, UV5R.DCS_CODES[rd16 mem (16 * i + 8) - 106]? = some d ∧ 0 < d ∧
        (UV5R.decode_channel beyond mem i o).rx_dcs = - d ∧
        (UV5R.decode_channel beyond mem i o).rx_ctcs = 0) ∧
    (1 ≤ rd16 mem (16 * i + 10) ∧ rd16 mem (16 * i + 10) ≤ 104 →
      ∃ d, UV5R.DCS_CODES[rd16 mem (16 * i + 10) - 1]? = some d ∧ 0 < d ∧
        (UV5R.decode_channel beyond mem i o).tx_dcs = d ∧
        (UV5R.decode_channel beyond mem i o).tx_ctcs = 0) ∧
    (106 ≤ rd16 mem (16 * i + 10) ∧ rd16 mem (16 * i + 10) ≤ 209 →
      ∃ d, UV5R.DCS_CODES[rd16 mem (16 * i + 10) - 106]? = some d ∧ 0 < d ∧
        (UV5R.decode_channel beyond mem i o).tx_dcs = - d ∧
        (UV5R.decode_channel beyond mem i o).tx_ctcs = 0) := by
  have hen : ¬ (rd32 mem (16 * i) = 0 ∨ rd32 mem (16 * i) = 0xffffffff) := by
    rintro (h | h)
    · exact h0 h
    · exact h1 h
  refine ⟨?_, ?_, ?_, ?_⟩
  · intro hv
    obtain ⟨d, hd, hpos, hs⟩ := (uv5r_decode_squelch_dcs beyond _).1 hv
    exact ⟨d, hd, hpos, by simp only [UV5R.decode_channel, if_neg hen, hs],
      by simp only [UV5R.decode_channel, if_neg hen, hs]⟩
  · intro hv
    obtain ⟨d, hd, hpos, hs⟩ := (uv5r_decode_squelch_dcs beyond _).2 hv
    exact ⟨d, hd, hpos, by simp only [UV5R.decode_channel, if_neg hen, hs],
      by simp only [UV5R.decode_channel, if_neg hen, hs]⟩
  · intro hv
    obtain ⟨d, hd, hpos, hs⟩ := (uv5r_decode_squelch_dcs beyond _).1 hv
    exact ⟨d, hd, hpos, by simp only [UV5R.decode_channel, if_neg hen, hs],
      by simp only [UV5R.decode_channel, if_neg hen, hs]⟩
  · intro hv
    obtain ⟨d, hd, hpos, hs⟩ := (uv5r_decode_squelch_dcs beyond _).2 hv
    exact ⟨d, hd, hpos, by simp only [UV5R.decode_channel, if_neg hen, hs],
      by simp only [UV5R.decode_channel, if_neg hen, hs]⟩

/-- C10 at slot 0 of a memory with the receive frequency `0x14625000`, the
receive tone 23 (normal, code `DCS_CODES[22] = 132`) and the transmit tone
128 (inverted, code `DCS_CODES[22] = 132`). -/
theorem C10_uv5r_dcs_witness :
    (UV5R.decode_channel (fun _ => 0)
      (store (fun _ => 0) 0 [0x00, 0x50, 0x62, 0x14, 0, 0, 0, 0, 23, 0, 128, 0]) 0
      ⟨[], 0, 0, 0, 0, 0, 0, 0, 0, 0, 0, 0, 0⟩).rx_dcs = 132 ∧
    (UV5R.decode_channel (fun _ => 0)
      (store (fun _ => 0) 0 [0x00, 0x50, 0x62, 0x14, 0, 0, 0, 0, 23, 0, 128, 0]) 0
      ⟨[], 0, 0, 0, 0, 0, 0, 0, 0, 0, 0, 0, 0⟩).tx_dcs = -132 := by
  have h := C10_uv5r_dcs (fun _ => 0)
    (store (fun _ => 0) 0 [0x00, 0x50, 0x62, 0x14, 0, 0, 0, 0, 23, 0, 128, 0]) 0
    ⟨[], 0, 0, 0, 0, 0, 0, 0, 0, 0, 0, 0, 0⟩ (by decide) (by decide)
  obtain ⟨d, hd, _, hrx, _⟩ := h.1 ⟨by decide, by decide⟩
  obtain ⟨e, he, _, htx, _⟩ := h.2.2.2 ⟨by decide, by decide⟩
  have hd2 : d = 132 := by
    have : UV5R.DCS_CODES[rd16 (store (fun _ => 0) 0
      [0x00, 0x50, 0x62, 0x14, 0, 0, 0, 0, 23, 0, 128, 0]) (16 * 0 + 8) - 1]? = some 132 := by
      decide
    rw [this] at hd
    exact (Option.some.inj hd).symm
  have he2 : e = 132 := by
    have : UV5R.DCS_CODES[rd16 (store (fun _ => 0) 0
      [0x00, 0x50, 0x62, 0x14, 0, 0, 0, 0, 23, 0, 128, 0]) (16 * 0 + 10) - 106]? = some 132 := by
      decide
    rw [this] at he
    exact (Option.some.inj he).symm
  rw [hrx, htx, hd2, he2]
  exact ⟨rfl, rfl⟩

/-- What the BF-888S `decode_squelch` computes in each of its cases, outputs
initialised to 0 and `v` the 4-nibble BCD decode of the raw field `t`: below
8000 the DCS output is `v - 8000` next to the CTCSS output `v`. -/
theorem bf888s_decode_squelch_cases (t : Nat) :
    (t = 0 ∨ t = 0xffff → BF888S.decode_squelch t 0 0 = (0, 0)) ∧
    (¬ (t = 0 ∨ t = 0xffff) →
      ∀ v : Nat, v = ((t >>> 12) &&& 15) * 1000 + ((t >>> 8) &&& 15) * 100 +
          ((t >>> 4) &&& 15) * 10 + (t &&& 15) →
        (v < 8000 → BF888S.decode_squelch t 0 0 = ((v : Int), (v : Int) - 8000)) ∧
        (8000 ≤ v ∧ v < 12000 → BF888S.decode_squelch t 0 0 = (0, (v : Int) - 8000)) ∧
        (12000 ≤ v → BF888S.decode_squelch t 0 0 = (0, - ((v : Int) - 12000)))) := by
  constructor
  · intro h
    simp only [BF888S.decode_squelch, if_pos h]
  · intro h v hv
    subst hv
    simp only [BF888S.decode_squelch, if_neg h]
    refine ⟨fun h1 => ?_, fun h1 => ?_, fun h1 => ?_⟩ <;>
      split_ifs <;> first | rfl | (exfalso; omega)

/-! ### Acknowledgment of a block -/

/-- The statement of `read_loop_deliver` for an input whose leading chunks
`pre` hold the bytes and whose remainder `tail` is arbitrary. -/
theorem read_loop_deliver_tail (len0 : Nat) (tail : List (List Nat)) :
    ∀ (pre : List (List Nat)) (len : Nat) (got xs ys : List Nat),
      (∀ c ∈ pre, c ≠ []) → pre.flatten = xs ++ ys → xs.length = len → 0 < len →
      ∃ pre1, read_loop len0 (pre ++ tail) len got = (len0, got ++ xs, pre1 ++ tail) ∧
        (∀ c ∈ pre1, c ≠ []) ∧ pre1.flatten = ys := by
  intro pre
  induction pre with
  | nil =>
    intro len got xs ys _ hflat hlen hpos
    have hx : xs = [] := by
      have h := congrArg List.length hflat
      simp only [List.flatten_nil, List.length_nil, List.length_append] at h
      exact List.eq_nil_of_length_eq_zero (by omega)
    subst hx
    simp only [List.length_nil] at hlen
    omega
  | cons c rest ih =>
    intro len got xs ys hne hflat hlen hpos
    have hc : c ≠ [] := hne c (List.mem_cons_self _ _)
    have hcl : 0 < c.length := List.length_pos.mpr hc
    have hrest : ∀ d ∈ rest, d ≠ [] := fun d hd => hne d (List.mem_cons_of_mem _ hd)
    rw [List.flatten_cons] at hflat
    rw [List.cons_append]
    unfold read_loop
    rw [if_neg hc]
    by_cases hle : len ≤ c.length
    · have hmin : min len c.length = len := Nat.min_eq_left hle
      have htake : c.take len = xs := by
        have h := congrArg (List.take len) hflat
        rwa [List.take_append_of_le_length hle, List.take_left' hlen] at h
      have hdrop : c.drop len ++ rest.flatten = ys := by
        have h := congrArg (List.drop len) hflat
        rwa [List.drop_append_of_le_length hle, List.drop_left' hlen] at h
      simp only [hmin, Nat.sub_self, if_neg (Nat.pos_iff_ne_zero.mp hpos), if_true, htake]
      by_cases hnil : c.drop len = []
      · refine ⟨rest, ?_, hrest, ?_⟩
        · rw [if_pos hnil]
        · rw [hnil] at hdrop
          simpa using hdrop
      · refine ⟨c.drop len :: rest, ?_, ?_, ?_⟩
        · rw [if_neg hnil, List.cons_append]
        · intro d hd
          rcases List.mem_cons.mp hd with h | h
          · rw [h]; exact hnil
          · exact hrest d h
        · rw [List.flatten_cons]
          exact hdrop
    · have hlt : c.length < len := Nat.lt_of_not_le hle
      have hmin : min len c.length = c.length := Nat.min_eq_right (Nat.le_of_lt hlt)
      have hxs : xs = c ++ xs.drop c.length := by
        have h := congrArg (List.take c.length) hflat
        rw [List.take_left' rfl, List.take_append_of_le_length (by omega)] at h
        conv_lhs => rw [← List.take_append_drop c.length xs]
        rw [← h]
      have hflat2 : rest.flatten = xs.drop c.length ++ ys := by
        rw [hxs, List.append_assoc] at hflat
        exact List.append_cancel_left hflat
      have hlen2 : (xs.drop c.length).length = len - c.length := by
        rw [List.length_drop, hlen]
      obtain ⟨pre1, h1, h2, h3⟩ :=
        ih (len - c.length) (got ++ c) (xs.drop c.length) ys hrest hflat2 hlen2 (by omega)
      simp only [hmin, if_neg (Nat.pos_iff_ne_zero.mp hcl), List.take_length,
        if_neg (Nat.sub_ne_zero_of_lt hlt)]
      refine ⟨pre1, ?_, h2, h3⟩
      rw [h1, List.append_assoc, ← hxs]

/-- The function `read_with_timeout` on an input whose leading non-empty
chunks `pre` start with the bytes `xs`; `tail` is what follows the chunks. -/
theorem read_with_timeout_deliver_tail (l : Link) (pre tail : List (List Nat))
    (xs ys : List Nat) (hinp : l.inp = pre ++ tail)
    (hne : ∀ c ∈ pre, c ≠ []) (hflat : pre.flatten = xs ++ ys) (hpos : 0 < xs.length) :
    ∃ pre1, read_with_timeout l xs.length = (xs.length, xs, { l with inp := pre1 ++ tail }) ∧
      (∀ c ∈ pre1, c ≠ []) ∧ pre1.flatten = ys := by
  obtain ⟨pre1, h1, h2, h3⟩ :=
    read_loop_deliver_tail xs.length tail pre xs.length [] xs ys hne hflat rfl hpos
  refine ⟨pre1, ?_, h2, h3⟩
  simp only [read_with_timeout, hinp, h1, List.nil_append]

/-- On a silent line, or when `select` times out, `read_with_timeout` returns
0 and stores nothing. -/
theorem read_with_timeout_silent (l : Link) (n : Nat)
    (h : l.inp = [] ∨ ∃ t, l.inp = [] :: t) :
    read_with_timeout l n = (0, [], { l with inp := l.inp.drop 1 }) := by
  rcases h with h | ⟨t, h⟩ <;> simp [read_with_timeout, h, read_loop]

/-- Non-empty chunks that hold no byte: there is no chunk. -/
theorem chunks_nil (pre : List (List Nat)) (hne : ∀ c ∈ pre, c ≠ []) (h : pre.flatten = []) :
    pre = [] := by
  cases pre with
  | nil => rfl
  | cons c rest =>
    exfalso
    have hc := hne c (List.mem_cons_self _ _)
    rw [List.flatten_cons] at h
    exact hc (List.append_eq_nil.mp h).1

/-- What `read_block` of `baoclone.c` does when the radio answers a full block
and then sends the byte `k`: it stores the block, sends `0x06`, and returns
or halts according to `k`. -/
theorem uv5r_read_block_acked (l : Link) (a : Nat) (mem : Mem) (data : Nat)
    (dat rest : List Nat) (k : Nat) (pre tail : List (List Nat))
    (hup : l.up = true) (ha : a ≤ 0xFFFF) (hdat : dat.length = 0x40)
    (hinp : l.inp = pre ++ tail) (hne : ∀ c ∈ pre, c ≠ [])
    (hflat : pre.flatten = [0x58, a / 256, a % 256, 0x40] ++ dat ++ [k] ++ rest) :
    ∃ pre1, (∀ c ∈ pre1, c ≠ []) ∧ pre1.flatten = rest ∧
      UV5R.read_block l a mem data 0x40 =
        ⟨if k % 256 = 0x06 then none else some Fatal.bad_acknowledge,
         ⟨l.up, l.sent ++ [0x53, a / 256, a % 256, 0x40] ++ [0x06], pre1 ++ tail⟩,
         store mem data dat⟩ := by
  obtain ⟨hc1, hc2, hc3⟩ := cmd_bytes a ha
  rw [List.append_assoc, List.append_assoc] at hflat
  obtain ⟨inp1, h1, hne1, hflat1⟩ := read_with_timeout_deliver_tail
    { l with sent := l.sent ++ UV5R.read_cmd a 0x40 } pre tail
    [0x58, a / 256, a % 256, 0x40] _ hinp hne hflat (by simp)
  obtain ⟨inp2, h2, hne2, hflat2⟩ := read_with_timeout_deliver_tail
    { l with sent := l.sent ++ UV5R.read_cmd a 0x40, inp := inp1 ++ tail } inp1 tail dat _ rfl
    hne1 hflat1 (by omega)
  obtain ⟨inp3, h3, hne3, hflat3⟩ := read_with_timeout_deliver_tail
    { l with sent := l.sent ++ UV5R.read_cmd a 0x40 ++ [0x06], inp := inp2 ++ tail } inp2 tail
    [k] rest rfl hne2 hflat2 (by simp)
  refine ⟨inp3, hne3, hflat3, ?_⟩
  simp only [List.length_cons, List.length_nil, hdat] at h1 h2 h3
  have hcond : ¬ (uchar [0x58, a / 256, a % 256, 0x40] 0 ≠ 0x58 ∨
      uchar [0x58, a / 256, a % 256, 0x40] 1 <<< 8 |||
        uchar [0x58, a / 256, a % 256, 0x40] 2 ≠ a ∨
      uchar [0x58, a / 256, a % 256, 0x40] 3 ≠ 0x40) := by
    simp only [uchar, List.getD_cons_zero, List.getD_cons_succ, Nat.mod_eq_of_lt hc2,
      Nat.mod_mod, shl8_or (a / 256) (a % 256) (Nat.mod_lt _ (by norm_num)), hc3]
    simp
  unfold UV5R.read_block
  rw [write_up l _ hup]
  simp only [UV5R.read_cmd, List.length_cons, List.length_nil] at h1 h2 h3 ⊢
  simp only [h1]
  rw [if_neg (by simp), if_neg (by simp), if_neg hcond]
  simp only [h2]
  rw [if_neg (by simp), write_up ⟨l.up, _, inp2 ++ tail⟩ _ hup]
  simp only [List.length_cons, List.length_nil, h3]
  by_cases hk : k % 256 = 0x06
  · simp [uchar, hk, hc1]
  · simp [uchar, hk, hc1]

/-- What `read_block` of `baoclone.c` does when the radio answers a full block
and then stays silent: it halts for want of an acknowledgment. -/
theorem uv5r_read_block_no_ack (l : Link) (a : Nat) (mem : Mem) (data : Nat)
    (dat : List Nat) (pre tail : List (List Nat))
    (hup : l.up = true) (ha : a ≤ 0xFFFF) (hdat : dat.length = 0x40)
    (hinp : l.inp = pre ++ tail) (hne : ∀ c ∈ pre, c ≠ [])
    (hflat : pre.flatten = [0x58, a / 256, a % 256, 0x40] ++ dat)
    (htail : tail = [] ∨ ∃ t, tail = [] :: t) :
    UV5R.read_block l a mem data 0x40 =
      ⟨some Fatal.no_acknowledge,
       ⟨l.up, l.sent ++ [0x53, a / 256, a % 256, 0x40] ++ [0x06], tail.drop 1⟩,
       store mem data dat⟩ := by
  obtain ⟨hc1, hc2, hc3⟩ := cmd_bytes a ha
  obtain ⟨inp1, h1, hne1, hflat1⟩ := read_with_timeout_deliver_tail
    { l with sent := l.sent ++ UV5R.read_cmd a 0x40 } pre tail
    [0x58, a / 256, a % 256, 0x40] _ hinp hne hflat (by simp)
  rw [← List.append_nil dat] at hflat1
  obtain ⟨inp2, h2, hne2, hflat2⟩ := read_with_timeout_deliver_tail
    { l with sent := l.sent ++ UV5R.read_cmd a 0x40, inp := inp1 ++ tail } inp1 tail dat _ rfl
    hne1 hflat1 (by omega)
  have hnil := chunks_nil inp2 hne2 hflat2
  subst hnil
  have h3 := read_with_timeout_silent
    { l with sent := l.sent ++ UV5R.read_cmd a 0x40 ++ [0x06], inp := [] ++ tail } 1
    (by simpa using htail)
  simp only [List.length_cons, List.length_nil, hdat] at h1 h2
  have hcond : ¬ (uchar [0x58, a / 256, a % 256, 0x40] 0 ≠ 0x58 ∨
      uchar [0x58, a / 256, a % 256, 0x40] 1 <<< 8 |||
        uchar [0x58, a / 256, a % 256, 0x40] 2 ≠ a ∨
      uchar [0x58, a / 256, a % 256, 0x40] 3 ≠ 0x40) := by
    simp only [uchar, List.getD_cons_zero, List.getD_cons_succ, Nat.mod_eq_of_lt hc2,
      Nat.mod_mod, shl8_or (a / 256) (a % 256) (Nat.mod_lt _ (by norm_num)), hc3]
    simp
  unfold UV5R.read_block
  rw [write_up l _ hup]
  simp only [UV5R.read_cmd, List.length_cons, List.length_nil] at h1 h2 h3 ⊢
  simp only [h1]
  rw [if_neg (by simp), if_neg (by simp), if_neg hcond]
  simp only [h2]
  rw [if_neg (by simp), write_up ⟨l.up, _, [] ++ tail⟩ _ hup]
  simp only [List.length_cons, List.length_nil, h3]
  simp [hc1]

/-- What `read_block` of `uv-b5.c`, with `read_with_timeout` of
`baoclone.c`, does when the radio answers a full block
and then sends the byte `k`: it stores the block, sends `0x06`, and returns
or halts according to `k`. -/
theorem uvb5_read_block_acked (l : Link) (a : Nat) (mem : Mem) (data : Nat)
    (dat rest : List Nat) (k : Nat) (pre tail : List (List Nat))
    (hup : l.up = true) (ha : a ≤ 0xFFFF) (hdat : dat.length = 0x10)
    (hinp : l.inp = pre ++ tail) (hne : ∀ c ∈ pre, c ≠ [])
    (hflat : pre.flatten = [0x57, a / 256, a % 256, 0x10] ++ dat ++ [k] ++ rest) :
    ∃ pre1, (∀ c ∈ pre1, c ≠ []) ∧ pre1.flatten = rest ∧
      UVB5.read_block read_with_timeout l a mem data 0x10 =
        ⟨if k % 256 = 0x74 ∨ k % 256 = 0x78 ∨ k % 256 = 0x1f then none
          else some Fatal.bad_acknowledge,
         ⟨l.up, l.sent ++ [0x52, a / 256, a % 256, 0x10] ++ [0x06], pre1 ++ tail⟩,
         store mem data dat⟩ := by
  obtain ⟨hc1, hc2, hc3⟩ := cmd_bytes a ha
  rw [List.append_assoc, List.append_assoc] at hflat
  obtain ⟨inp1, h1, hne1, hflat1⟩ := read_with_timeout_deliver_tail
    { l with sent := l.sent ++ UVB5.read_cmd a 0x10 } pre tail
    [0x57, a / 256, a % 256, 0x10] _ hinp hne hflat (by simp)
  obtain ⟨inp2, h2, hne2, hflat2⟩ := read_with_timeout_deliver_tail
    { l with sent := l.sent ++ UVB5.read_cmd a 0x10, inp := inp1 ++ tail } inp1 tail dat _ rfl
    hne1 hflat1 (by omega)
  obtain ⟨inp3, h3, hne3, hflat3⟩ := read_with_timeout_deliver_tail
    { l with sent := l.sent ++ UVB5.read_cmd a 0x10 ++ [0x06], inp := inp2 ++ tail } inp2 tail
    [k] rest rfl hne2 hflat2 (by simp)
  refine ⟨inp3, hne3, hflat3, ?_⟩
  simp only [List.length_cons, List.length_nil, hdat] at h1 h2 h3
  have hcond : ¬ (uchar [0x57, a / 256, a % 256, 0x10] 0 ≠ 0x57 ∨
      uchar [0x57, a / 256, a % 256, 0x10] 1 <<< 8 |||
        uchar [0x57, a / 256, a % 256, 0x10] 2 ≠ a ∨
      uchar [0x57, a / 256, a % 256, 0x10] 3 ≠ 0x10) := by
    simp only [uchar, List.getD_cons_zero, List.getD_cons_succ, Nat.mod_eq_of_lt hc2,
      Nat.mod_mod, shl8_or (a / 256) (a % 256) (Nat.mod_lt _ (by norm_num)), hc3]
    simp
  unfold UVB5.read_block
  rw [write_up l _ hup]
  simp only [UVB5.read_cmd, List.length_cons, List.length_nil] at h1 h2 h3 ⊢
  simp only [h1]
  rw [if_neg (by simp), if_neg (by simp), if_neg hcond]
  simp only [h2]
  rw [if_neg (by simp), write_up ⟨l.up, _, inp2 ++ tail⟩ _ hup]
  simp only [List.length_cons, List.length_nil, h3]
  by_cases hk1 : k % 256 = 0x74
  · simp [uchar, hk1, hc1]
  · by_cases hk2 : k % 256 = 0x78
    · simp [uchar, hk2, hc1]
    · by_cases hk3 : k % 256 = 0x1f
      · simp [uchar, hk3, hc1]
      · simp [uchar, hk1, hk2, hk3, hc1]

/-- What `read_block` of `uv-b5.c`, with `read_with_timeout` of
`baoclone.c`, does when the radio answers a full block
and then stays silent: it halts for want of an acknowledgment. -/
theorem uvb5_read_block_no_ack (l : Link) (a : Nat) (mem : Mem) (data : Nat)
    (dat : List Nat) (pre tail : List (List Nat))
    (hup : l.up = true) (ha : a ≤ 0xFFFF) (hdat : dat.length = 0x10)
    (hinp : l.inp = pre ++ tail) (hne : ∀ c ∈ pre, c ≠ [])
    (hflat : pre.flatten = [0x57, a / 256, a % 256, 0x10] ++ dat)
    (htail : tail = [] ∨ ∃ t, tail = [] :: t) :
    UVB5.read_block read_with_timeout l a mem data 0x10 =
      ⟨some Fatal.no_acknowledge,
       ⟨l.up, l.sent ++ [0x52, a / 256, a % 256, 0x10] ++ [0x06], tail.drop 1⟩,
       store mem data dat⟩ := by
  obtain ⟨hc1, hc2, hc3⟩ := cmd_bytes a ha
  obtain ⟨inp1, h1, hne1, hflat1⟩ := read_with_timeout_deliver_tail
    { l with sent := l.sent ++ UVB5.read_cmd a 0x10 } pre tail
    [0x57, a / 256, a % 256, 0x10] _ hinp hne hflat (by simp)
  rw [← List.append_nil dat] at hflat1
  obtain ⟨inp2, h2, hne2, hflat2⟩ := read_with_timeout_deliver_tail
    { l with sent := l.sent ++ UVB5.read_cmd a 0x10, inp := inp1 ++ tail } inp1 tail dat _ rfl
    hne1 hflat1 (by omega)
  have hnil := chunks_nil inp2 hne2 hflat2
  subst hnil
  have h3 := read_with_timeout_silent
    { l with sent := l.sent ++ UVB5.read_cmd a 0x10 ++ [0x06], inp := [] ++ tail } 1
    (by simpa using htail)
  simp only [List.length_cons, List.length_nil, hdat] at h1 h2
  have hcond : ¬ (uchar [0x57, a / 256, a % 256, 0x10] 0 ≠ 0x57 ∨
      uchar [0x57, a / 256, a % 256, 0x10] 1 <<< 8 |||
        uchar [0x57, a / 256, a % 256, 0x10] 2 ≠ a ∨
      uchar [0x57, a / 256, a % 256, 0x10] 3 ≠ 0x10) := by
    simp only [uchar, List.getD_cons_zero, List.getD_cons_succ, Nat.mod_eq_of_lt hc2,
      Nat.mod_mod, shl8_or (a / 256) (a % 256) (Nat.mod_lt _ (by norm_num)), hc3]
    simp
  unfold UVB5.read_block
  rw [write_up l _ hup]
  simp only [UVB5.read_cmd, List.length_cons, List.length_nil] at h1 h2 h3 ⊢
  simp only [h1]
  rw [if_neg (by simp), if_neg (by simp), if_neg hcond]
  simp only [h2]
  rw [if_neg (by simp), write_up ⟨l.up, _, [] ++ tail⟩ _ hup]
  simp only [List.length_cons, List.length_nil, h3]
  simp [hc1]

/-- What `read_block` of `bf-888s.c`, with `read_with_timeout` of
`baoclone.c`, does when the radio answers a full block
and then sends the byte `k`: it stores the block, sends `0x06`, and returns
or halts according to `k`. -/
theorem bf888s_read_block_acked (l : Link) (a : Nat) (mem : Mem) (data : Nat)
    (dat rest : List Nat) (k : Nat) (pre tail : List (List Nat))
    (hup : l.up = true) (ha : a ≤ 0xFFFF) (hdat : dat.length = 8)
    (hinp : l.inp = pre ++ tail) (hne : ∀ c ∈ pre, c ≠ [])
    (hflat : pre.flatten = [0x57, a / 256, a % 256, 8] ++ dat ++ [k] ++ rest) :
    ∃ pre1, (∀ c ∈ pre1, c ≠ []) ∧ pre1.flatten = rest ∧
      BF888S.read_block read_with_timeout l a mem data 8 =
        ⟨if k % 256 = 0x06 then none else some Fatal.bad_acknowledge,
         ⟨l.up, l.sent ++ [0x52, a / 256, a % 256, 8] ++ [0x06], pre1 ++ tail⟩,
         store mem data dat⟩ := by
  obtain ⟨hc1, hc2, hc3⟩ := cmd_bytes a ha
  rw [List.append_assoc, List.append_assoc] at hflat
  obtain ⟨inp1, h1, hne1, hflat1⟩ := read_with_timeout_deliver_tail
    { l with sent := l.sent ++ BF888S.read_cmd a 8 } pre tail
    [0x57, a / 256, a % 256, 8] _ hinp hne hflat (by simp)
  obtain ⟨inp2, h2, hne2, hflat2⟩ := read_with_timeout_deliver_tail
    { l with sent := l.sent ++ BF888S.read_cmd a 8, inp := inp1 ++ tail } inp1 tail dat _ rfl
    hne1 hflat1 (by omega)
  obtain ⟨inp3, h3, hne3, hflat3⟩ := read_with_timeout_deliver_tail
    { l with sent := l.sent ++ BF888S.read_cmd a 8 ++ [0x06], inp := inp2 ++ tail } inp2 tail
    [k] rest rfl hne2 hflat2 (by simp)
  refine ⟨inp3, hne3, hflat3, ?_⟩
  simp only [List.length_cons, List.length_nil, hdat] at h1 h2 h3
  have hcond : ¬ (uchar [0x57, a / 256, a % 256, 8] 0 ≠ 0x57 ∨
      uchar [0x57, a / 256, a % 256, 8] 1 <<< 8 |||
        uchar [0x57, a / 256, a % 256, 8] 2 ≠ a ∨
      uchar [0x57, a / 256, a % 256, 8] 3 ≠ 8) := by
    simp only [uchar, List.getD_cons_zero, List.getD_cons_succ, Nat.mod_eq_of_lt hc2,
      Nat.mod_mod, shl8_or (a / 256) (a % 256) (Nat.mod_lt _ (by norm_num)), hc3]
    simp
  unfold BF888S.read_block
  rw [write_up l _ hup]
  simp only [BF888S.read_cmd, List.length_cons, List.length_nil] at h1 h2 h3 ⊢
  simp only [h1]
  rw [if_neg (by simp), if_neg (by simp), if_neg hcond]
  simp only [h2]
  rw [if_neg (by simp), write_up ⟨l.up, _, inp2 ++ tail⟩ _ hup]
  simp only [List.length_cons, List.length_nil, h3]
  by_cases hk : k % 256 = 0x06
  · simp [uchar, hk, hc1]
  · simp [uchar, hk, hc1]

/-- What `read_block` of `bf-888s.c`, with `read_with_timeout` of
`baoclone.c`, does when the radio answers a full block
and then stays silent: it halts for want of an acknowledgment. -/
theorem bf888s_read_block_no_ack (l : Link) (a : Nat) (mem : Mem) (data : Nat)
    (dat : List Nat) (pre tail : List (List Nat))
    (hup : l.up = true) (ha : a ≤ 0xFFFF) (hdat : dat.length = 8)
    (hinp : l.inp = pre ++ tail) (hne : ∀ c ∈ pre, c ≠ [])
    (hflat : pre.flatten = [0x57, a / 256, a % 256, 8] ++ dat)
    (htail : tail = [] ∨ ∃ t, tail = [] :: t) :
    BF888S.read_block read_with_timeout l a mem data 8 =
      ⟨some Fatal.no_acknowledge,
       ⟨l.up, l.sent ++ [0x52, a / 256, a % 256, 8] ++ [0x06], tail.drop 1⟩,
       store mem data dat⟩ := by
  obtain ⟨hc1, hc2, hc3⟩ := cmd_bytes a ha
  obtain ⟨inp1, h1, hne1, hflat1⟩ := read_with_timeout_deliver_tail
    { l with sent := l.sent ++ BF888S.read_cmd a 8 } pre tail
    [0x57, a / 256, a % 256, 8] _ hinp hne hflat (by simp)
  rw [← List.append_nil dat] at hflat1
  obtain ⟨inp2, h2, hne2, hflat2⟩ := read_with_timeout_deliver_tail
    { l with sent := l.sent ++ BF888S.read_cmd a 8, inp := inp1 ++ tail } inp1 tail dat _ rfl
    hne1 hflat1 (by omega)
  have hnil := chunks_nil inp2 hne2 hflat2
  subst hnil
  have h3 := read_with_timeout_silent
    { l with sent := l.sent ++ BF888S.read_cmd a 8 ++ [0x06], inp := [] ++ tail } 1
    (by simpa using htail)
  simp only [List.length_cons, List.length_nil, hdat] at h1 h2
  have hcond : ¬ (uchar [0x57, a / 256, a % 256, 8] 0 ≠ 0x57 ∨
      uchar [0x57, a / 256, a % 256, 8] 1 <<< 8 |||
        uchar [0x57, a / 256, a % 256, 8] 2 ≠ a ∨
      uchar [0x57, a / 256, a % 256, 8] 3 ≠ 8) := by
    simp only [uchar, List.getD_cons_zero, List.getD_cons_succ, Nat.mod_eq_of_lt hc2,
      Nat.mod_mod, shl8_or (a / 256) (a % 256) (Nat.mod_lt _ (by norm_num)), hc3]
    simp
  unfold BF888S.read_block
  rw [write_up l _ hup]
  simp only [BF888S.read_cmd, List.length_cons, List.length_nil] at h1 h2 h3 ⊢
  simp only [h1]
  rw [if_neg (by simp), if_neg (by simp), if_neg hcond]
  simp only [h2]
  rw [if_neg (by simp), write_up ⟨l.up, _, [] ++ tail⟩ _ hup]
  simp only [List.length_cons, List.length_nil, h3]
  simp [hc1]

/-- C11: after a valid reply and a full data block, `read_block` accepts the
acknowledgment byte `k` of the device if and only if `k` is in the accepted
set of the model: exactly `{0x06}` for UV-5R and BF-888S, exactly
`{0x74, 0x78, 0x1f}` for UV-B5 (so UV-B5 rejects `0x06`). Any other byte
halts the program with the bad-acknowledge error, and no byte within the
timeout (a silent line, or a `select` that times out) halts it with the
no-acknowledge error. For UV-B5 and BF-888S `read_with_timeout` is the one of
`baoclone.c`. -/
theorem C11_acknowledgment_sets :
    (∀ (l : Link) (a : Nat) (mem : Mem) (data : Nat) (dat rest : List Nat) (k : Nat)
        (pre tail : List (List Nat)),
      l.up = true → a ≤ 0xFFFF → dat.length = 0x40 → k < 256 →
      l.inp = pre ++ tail → (∀ c ∈ pre, c ≠ []) →
      pre.flatten = [0x58, a / 256, a % 256, 0x40] ++ dat ++ [k] ++ rest →
      ((UV5R.read_block l a mem data 0x40).status = none ↔ k = 0x06) ∧
      (k ≠ 0x06 →
        (UV5R.read_block l a mem data 0x40).status = some Fatal.bad_acknowledge)) ∧
    (∀ (l : Link) (a : Nat) (mem : Mem) (data : Nat) (dat : List Nat)
        (pre tail : List (List Nat)),
      l.up = true → a ≤ 0xFFFF → dat.length = 0x40 →
      l.inp = pre ++ tail → (∀ c ∈ pre, c ≠ []) →
      pre.flatten = [0x58, a / 256, a % 256, 0x40] ++ dat →
      (tail = [] ∨ ∃ t, tail = [] :: t) →
      (UV5R.read_block l a mem data 0x40).status = some Fatal.no_acknowledge) ∧
    (∀ (l : Link) (a : Nat) (mem : Mem) (data : Nat) (dat rest : List Nat) (k : Nat)
        (pre tail : List (List Nat)),
      l.up = true → a ≤ 0xFFFF → dat.length = 0x10 → k < 256 →
      l.inp = pre ++ tail → (∀ c ∈ pre, c ≠ []) →
      pre.flatten = [0x57, a / 256, a % 256, 0x10] ++ dat ++ [k] ++ rest →
      ((UVB5.read_block read_with_timeout l a mem data 0x10).status = none ↔
        (k = 0x74 ∨ k = 0x78 ∨ k = 0x1f)) ∧
      (¬ (k = 0x74 ∨ k = 0x78 ∨ k = 0x1f) →
        (UVB5.read_block read_with_timeout l a mem data 0x10).status =
          some Fatal.bad_acknowledge)) ∧
    (∀ (l : Link) (a : Nat) (mem : Mem) (data : Nat) (dat : List Nat)
        (pre tail : List (List Nat)),
      l.up = true → a ≤ 0xFFFF → dat.length = 0x10 →
      l.inp = pre ++ tail → (∀ c ∈ pre, c ≠ []) →
      pre.flatten = [0x57, a / 256, a % 256, 0x10] ++ dat →
      (tail = [] ∨ ∃ t, tail = [] :: t) →
      (UVB5.read_block read_with_timeout l a mem data 0x10).status =
        some Fatal.no_acknowledge) ∧
    (∀ (l : Link) (a : Nat) (mem : Mem) (data : Nat) (dat rest : List Nat) (k : Nat)
        (pre tail : List (List Nat)),
      l.up = true → a ≤ 0xFFFF → dat.length = 8 → k < 256 →
      l.inp = pre ++ tail → (∀ c ∈ pre, c ≠ []) →
      pre.flatten = [0x57, a / 256, a % 256, 8] ++ dat ++ [k] ++ rest →
      ((BF888S.read_block read_with_timeout l a mem data 8).status = none ↔ k = 0x06) ∧
      (k ≠ 0x06 →
        (BF888S.read_block read_with_timeout l a mem data 8).status =
          some Fatal.bad_acknowledge)) ∧
    (∀ (l : Link) (a : Nat) (mem : Mem) (data : Nat) (dat : List Nat)
        (pre tail : List (List Nat)),
      l.up = true → a ≤ 0xFFFF → dat.length = 8 →
      l.inp = pre ++ tail → (∀ c ∈ pre, c ≠ []) →
      pre.flatten = [0x57, a / 256, a % 256, 8] ++ dat →
      (tail = [] ∨ ∃ t, tail = [] :: t) →
      (BF888S.read_block read_with_timeout l a mem data 8).status =
        some Fatal.no_acknowledge) := by
  refine ⟨?_, ?_, ?_, ?_, ?_, ?_⟩
  · intro l a mem data dat rest k pre tail hup ha hdat hk hinp hne hflat
    obtain ⟨pre1, _, _, h⟩ :=
      uv5r_read_block_acked l a mem data dat rest k pre tail hup ha hdat hinp hne hflat
    rw [h, Nat.mod_eq_of_lt hk]
    by_cases hk6 : k = 0x06 <;> simp [hk6]
  · intro l a mem data dat pre tail hup ha hdat hinp hne hflat htail
    rw [uv5r_read_block_no_ack l a mem data dat pre tail hup ha hdat hinp hne hflat htail]
  · intro l a mem data dat rest k pre tail hup ha hdat hk hinp hne hflat
    obtain ⟨pre1, _, _, h⟩ :=
      uvb5_read_block_acked l a mem data dat rest k pre tail hup ha hdat hinp hne hflat
    rw [h, Nat.mod_eq_of_lt hk]
    by_cases hks : k = 0x74 ∨ k = 0x78 ∨ k = 0x1f <;> simp [hks]
  · intro l a mem data dat pre tail hup ha hdat hinp hne hflat htail
    rw [uvb5_read_block_no_ack l a mem data dat pre tail hup ha hdat hinp hne hflat htail]
  · intro l a mem data dat rest k pre tail hup ha hdat hk hinp hne hflat
    obtain ⟨pre1, _, _, h⟩ :=
      bf888s_read_block_acked l a mem data dat rest k pre tail hup ha hdat hinp hne hflat
    rw [h, Nat.mod_eq_of_lt hk]
    by_cases hk6 : k = 0x06 <;> simp [hk6]
  · intro l a mem data dat pre tail hup ha hdat hinp hne hflat htail
    rw [bf888s_read_block_no_ack l a mem data dat pre tail hup ha hdat hinp hne hflat htail]

/-- C11 at four transfers: UV-B5 block `0x0120` acknowledged with `0x06`
(rejected) and with `0x1f` (accepted), BF-888S block `0x0010` acknowledged
with `0x74` (rejected), UV-5R block `0x0000` followed by a timeout. -/
theorem C11_acknowledgment_sets_witness :
    (UVB5.read_block read_with_timeout
        ⟨true, [], [[0x57, 0x01, 0x20, 0x10], List.range 16, [0x06]]⟩
        0x120 (fun _ => 0) 0x120 0x10).status = some Fatal.bad_acknowledge ∧
    (UVB5.read_block read_with_timeout
        ⟨true, [], [[0x57, 0x01, 0x20, 0x10], List.range 16, [0x1f]]⟩
        0x120 (fun _ => 0) 0x120 0x10).status = none ∧
    (BF888S.read_block read_with_timeout
        ⟨true, [], [[0x57, 0x00, 0x10, 8], [1, 2, 3, 4, 5, 6, 7, 8], [0x74]]⟩
        0x10 (fun _ => 0) 0x10 8).status = some Fatal.bad_acknowledge ∧
    (UV5R.read_block ⟨true, [], [[0x58, 0x00, 0x00, 0x40], List.range 64, [], [0x06]]⟩
        0 (fun _ => 0) 0 0x40).status = some Fatal.no_acknowledge :=
  ⟨(C11_acknowledgment_sets.2.2.1
      ⟨true, [], [[0x57, 0x01, 0x20, 0x10], List.range 16, [0x06]]⟩ 0x120 (fun _ => 0) 0x120
      (List.range 16) [] 0x06 [[0x57, 0x01, 0x20, 0x10], List.range 16, [0x06]] []
      rfl (by decide) (by decide) (by decide) rfl (by decide) (by decide)).2 (by decide),
   (C11_acknowledgment_sets.2.2.1
      ⟨true, [], [[0x57, 0x01, 0x20, 0x10], List.range 16, [0x1f]]⟩ 0x120 (fun _ => 0) 0x120
      (List.range 16) [] 0x1f [[0x57, 0x01, 0x20, 0x10], List.range 16, [0x1f]] []
      rfl (by decide) (by decide) (by decide) rfl (by decide) (by decide)).1.2
      (Or.inr (Or.inr rfl)),
   (C11_acknowledgment_sets.2.2.2.2.1
      ⟨true, [], [[0x57, 0x00, 0x10, 8], [1, 2, 3, 4, 5, 6, 7, 8], [0x74]]⟩ 0x10 (fun _ => 0)
      0x10 [1, 2, 3, 4, 5, 6, 7, 8] [] 0x74
      [[0x57, 0x00, 0x10, 8], [1, 2, 3, 4, 5, 6, 7, 8], [0x74]] []
      rfl (by decide) (by decide) (by decide) rfl (by decide) (by decide)).2 (by decide),
   C11_acknowledgment_sets.2.1
      ⟨true, [], [[0x58, 0x00, 0x00, 0x40], List.range 64, [], [0x06]]⟩ 0 (fun _ => 0) 0
      (List.range 64) [[0x58, 0x00, 0x00, 0x40], List.range 64] [[], [0x06]]
      rfl (by decide) (by decide) rfl (by decide) (by decide) (Or.inr ⟨[[0x06]], rfl⟩)⟩

/-! ### Block write -/

/-- The number of bytes that `bytes` reads. -/
theorem bytes_length (m : Mem) (p n : Nat) : (bytes m p n).length = n := by
  simp [bytes]

/-- Byte `j` of `bytes`. -/
theorem bytes_getD (m : Mem) (p n j : Nat) (hj : j < n) :
    (bytes m p n).getD j 0 = byte m (p + j) := by
  simp [bytes, List.getD_eq_getElem?_getD, List.getElem?_map, List.getElem?_range hj]

/-- The function `write_block` of `uv-b5.c` on a working port: it writes the
command and the data, then lets `read_with_timeout` fetch one byte and
decides on it. -/
theorem uvb5_write_block_eq (rwt : Reader) (l : Link) (a : Nat) (mem : Mem) (data n : Nat)
    (hup : l.up = true) (ha : a ≤ 0xFFFF) (hn : n ≤ 255) :
    UVB5.write_block rwt l a mem data n =
      if (rwt ⟨l.up, l.sent ++ ([0x57, a / 256, a % 256, n] ++ bytes mem data n), l.inp⟩ 1).1 ≠ 1
      then ⟨some Fatal.no_acknowledge,
        (rwt ⟨l.up, l.sent ++ ([0x57, a / 256, a % 256, n] ++ bytes mem data n), l.inp⟩ 1).2.2,
        mem⟩
      else if uchar
        (rwt ⟨l.up, l.sent ++ ([0x57, a / 256, a % 256, n] ++ bytes mem data n), l.inp⟩ 1).2.1 0
          ≠ 0x06
      then ⟨some Fatal.bad_acknowledge,
        (rwt ⟨l.up, l.sent ++ ([0x57, a / 256, a % 256, n] ++ bytes mem data n), l.inp⟩ 1).2.2,
        mem⟩
      else ⟨none,
        (rwt ⟨l.up, l.sent ++ ([0x57, a / 256, a % 256, n] ++ bytes mem data n), l.inp⟩ 1).2.2,
        mem⟩ := by
  obtain ⟨hc1, _, _⟩ := cmd_bytes a ha
  unfold UVB5.write_block
  rw [write_up l _ hup]
  simp only [UVB5.write_cmd, List.length_cons, List.length_nil]
  rw [if_neg (by simp),
    write_up ⟨l.up, l.sent ++ [87, a >>> 8 % 256, a % 256, n % 256], l.inp⟩ _ hup]
  simp only [bytes_length]
  rw [if_neg (by simp), hc1, Nat.mod_eq_of_lt (by omega : n < 256), List.append_assoc]

/-- The function `write_block` of `bf-888s.c` on a working port: it writes the
command and the data, then lets `read_with_timeout` fetch one byte and
decides on it. -/
theorem bf888s_write_block_eq (rwt : Reader) (l : Link) (a : Nat) (mem : Mem) (data n : Nat)
    (hup : l.up = true) (ha : a ≤ 0xFFFF) (hn : n ≤ 255) :
    BF888S.write_block rwt l a mem data n =
      if (rwt ⟨l.up, l.sent ++ ([0x57, a / 256, a % 256, n] ++ bytes mem data n), l.inp⟩ 1).1 ≠ 1
      then ⟨some Fatal.no_acknowledge,
        (rwt ⟨l.up, l.sent ++ ([0x57, a / 256, a % 256, n] ++ bytes mem data n), l.inp⟩ 1).2.2,
        mem⟩
      else if uchar
        (rwt ⟨l.up, l.sent ++ ([0x57, a / 256, a % 256, n] ++ bytes mem data n), l.inp⟩ 1).2.1 0
          ≠ 0x06
      then ⟨some Fatal.bad_acknowledge,
        (rwt ⟨l.up, l.sent ++ ([0x57, a / 256, a % 256, n] ++ bytes mem data n), l.inp⟩ 1).2.2,
        mem⟩
      else ⟨none,
        (rwt ⟨l.up, l.sent ++ ([0x57, a / 256, a % 256, n] ++ bytes mem data n), l.inp⟩ 1).2.2,
        mem⟩ := by
  obtain ⟨hc1, _, _⟩ := cmd_bytes a ha
  unfold BF888S.write_block
  rw [write_up l _ hup]
  simp only [BF888S.write_cmd, List.length_cons, List.length_nil]
  rw [if_neg (by simp),
    write_up ⟨l.up, l.sent ++ [87, a >>> 8 % 256, a % 256, n % 256], l.inp⟩ _ hup]
  simp only [bytes_length]
  rw [if_neg (by simp), hc1, Nat.mod_eq_of_lt (by omega : n < 256), List.append_assoc]

/-- C12: for UV-B5 and BF-888S, for every address `a` in `0..0xFFFF` and
every data block of `n <= 255` bytes at `data`, `write_block` on a working
port sends exactly the 4 bytes `['W', a>>8, a&0xFF, n]` immediately followed
by the `n` data bytes and nothing else, and then returns to its caller if
and only if one acknowledgment byte is read and it equals `0x06`. The first
two parts hold for every `read_with_timeout`: the port it is called on has
received the frame and nothing else, the port it leaves is the port
`write_block` leaves, and it decides the outcome. The last four parts take
the `read_with_timeout` of `baoclone.c`: with a byte `k` pending the call
succeeds exactly for `k = 0x06`; with no byte within the timeout it halts the
program. -/
theorem C12_write_block :
    (∀ (rwt : Reader) (l : Link) (a : Nat) (mem : Mem) (data n : Nat),
      l.up = true → a ≤ 0xFFFF → n ≤ 255 →
      ((UVB5.write_block rwt l a mem data n).status = none ↔
        ((rwt ⟨l.up, l.sent ++ ([0x57, a / 256, a % 256, n] ++ bytes mem data n), l.inp⟩ 1).1
            = 1 ∧
         uchar (rwt ⟨l.up, l.sent ++ ([0x57, a / 256, a % 256, n] ++ bytes mem data n),
            l.inp⟩ 1).2.1 0 = 0x06)) ∧
      (UVB5.write_block rwt l a mem data n).link =
        (rwt ⟨l.up, l.sent ++ ([0x57, a / 256, a % 256, n] ++ bytes mem data n), l.inp⟩ 1).2.2) ∧
    (∀ (rwt : Reader) (l : Link) (a : Nat) (mem : Mem) (data n : Nat),
      l.up = true → a ≤ 0xFFFF → n ≤ 255 →
      ((BF888S.write_block rwt l a mem data n).status = none ↔
        ((rwt ⟨l.up, l.sent ++ ([0x57, a / 256, a % 256, n] ++ bytes mem data n), l.inp⟩ 1).1
            = 1 ∧
         uchar (rwt ⟨l.up, l.sent ++ ([0x57, a / 256, a % 256, n] ++ bytes mem data n),
            l.inp⟩ 1).2.1 0 = 0x06)) ∧
      (BF888S.write_block rwt l a mem data n).link =
        (rwt ⟨l.up, l.sent ++ ([0x57, a / 256, a % 256, n] ++ bytes mem data n), l.inp⟩ 1).2.2) ∧
    (∀ (l : Link) (a : Nat) (mem : Mem) (data n k : Nat) (rest : List Nat)
        (pre tail : List (List Nat)),
      l.up = true → a ≤ 0xFFFF → n ≤ 255 → k < 256 →
      l.inp = pre ++ tail → (∀ c ∈ pre, c ≠ []) → pre.flatten = [k] ++ rest →
      ((UVB5.write_block read_with_timeout l a mem data n).status = none ↔ k = 0x06) ∧
      (UVB5.write_block read_with_timeout l a mem data n).link.sent =
        l.sent ++ ([0x57, a / 256, a % 256, n] ++ bytes mem data n)) ∧
    (∀ (l : Link) (a : Nat) (mem : Mem) (data n : Nat),
      l.up = true → a ≤ 0xFFFF → n ≤ 255 → (l.inp = [] ∨ ∃ t, l.inp = [] :: t) →
      (UVB5.write_block read_with_timeout l a mem data n).status =
        some Fatal.no_acknowledge ∧
      (UVB5.write_block read_with_timeout l a mem data n).link.sent =
        l.sent ++ ([0x57, a / 256, a % 256, n] ++ bytes mem data n)) ∧
    (∀ (l : Link) (a : Nat) (mem : Mem) (data n k : Nat) (rest : List Nat)
        (pre tail : List (List Nat)),
      l.up = true → a ≤ 0xFFFF → n ≤ 255 → k < 256 →
      l.inp = pre ++ tail → (∀ c ∈ pre, c ≠ []) → pre.flatten = [k] ++ rest →
      ((BF888S.write_block read_with_timeout l a mem data n).status = none ↔ k = 0x06) ∧
      (BF888S.write_block read_with_timeout l a mem data n).link.sent =
        l.sent ++ ([0x57, a / 256, a % 256, n] ++ bytes mem data n)) ∧
    (∀ (l : Link) (a : Nat) (mem : Mem) (data n : Nat),
      l.up = true → a ≤ 0xFFFF → n ≤ 255 → (l.inp = [] ∨ ∃ t, l.inp = [] :: t) →
      (BF888S.write_block read_with_timeout l a mem data n).status =
        some Fatal.no_acknowledge ∧
      (BF888S.write_block read_with_timeout l a mem data n).link.sent =
        l.sent ++ ([0x57, a / 256, a % 256, n] ++ bytes mem data n)) := by
  refine ⟨?_, ?_, ?_, ?_, ?_, ?_⟩
  · intro rwt l a mem data n hup ha hn
    rw [uvb5_write_block_eq rwt l a mem data n hup ha hn]
    split_ifs with h1 h2 <;> simp_all
  · intro rwt l a mem data n hup ha hn
    rw [bf888s_write_block_eq rwt l a mem data n hup ha hn]
    split_ifs with h1 h2 <;> simp_all
  · intro l a mem data n k rest pre tail hup ha hn hk hinp hne hflat
    obtain ⟨pre1, h1, _, _⟩ := read_with_timeout_deliver_tail
      ⟨l.up, l.sent ++ ([0x57, a / 256, a % 256, n] ++ bytes mem data n), l.inp⟩ pre tail
      [k] rest hinp hne hflat (by simp)
    simp only [List.length_cons, List.length_nil] at h1
    rw [uvb5_write_block_eq read_with_timeout l a mem data n hup ha hn]
    simp only [h1]
    rw [if_neg (by simp)]
    by_cases hk6 : k = 0x06 <;> simp [uchar, hk6, Nat.mod_eq_of_lt hk]
  · intro l a mem data n hup ha hn hsil
    have h1 := read_with_timeout_silent
      ⟨l.up, l.sent ++ ([0x57, a / 256, a % 256, n] ++ bytes mem data n), l.inp⟩ 1 hsil
    rw [uvb5_write_block_eq read_with_timeout l a mem data n hup ha hn]
    simp only [h1]
    simp
  · intro l a mem data n k rest pre tail hup ha hn hk hinp hne hflat
    obtain ⟨pre1, h1, _, _⟩ := read_with_timeout_deliver_tail
      ⟨l.up, l.sent ++ ([0x57, a / 256, a % 256, n] ++ bytes mem data n), l.inp⟩ pre tail
      [k] rest hinp hne hflat (by simp)
    simp only [List.length_cons, List.length_nil] at h1
    rw [bf888s_write_block_eq read_with_timeout l a mem data n hup ha hn]
    simp only [h1]
    rw [if_neg (by simp)]
    by_cases hk6 : k = 0x06 <;> simp [uchar, hk6, Nat.mod_eq_of_lt hk]
  · intro l a mem data n hup ha hn hsil
    have h1 := read_with_timeout_silent
      ⟨l.up, l.sent ++ ([0x57, a / 256, a % 256, n] ++ bytes mem data n), l.inp⟩ 1 hsil
    rw [bf888s_write_block_eq read_with_timeout l a mem data n hup ha hn]
    simp only [h1]
    simp

/-- C12 at the write of the 8 bytes at `0x02b8` of a BF-888S memory that
holds `a % 256` at every address `a`, acknowledged with `0x06`, and at the
write of 16 bytes at `0x0120` to a UV-B5 that answers `0x15`. -/
theorem C12_write_block_witness :
    (BF888S.write_block read_with_timeout ⟨true, [], [[0x06]]⟩ 0x2b8 (fun a => a % 256)
        0x2b8 8).status = none ∧
    (BF888S.write_block read_with_timeout ⟨true, [], [[0x06]]⟩ 0x2b8 (fun a => a % 256)
        0x2b8 8).link.sent =
      [0x57, 0x02, 0xb8, 8, 0xb8, 0xb9, 0xba, 0xbb, 0xbc, 0xbd, 0xbe, 0xbf] ∧
    ¬ (UVB5.write_block read_with_timeout ⟨true, [], [[0x15]]⟩ 0x120 (fun a => a % 256)
        0x120 0x10).status = none :=
  have h8 := C12_write_block.2.2.2.2.1 ⟨true, [], [[0x06]]⟩ 0x2b8 (fun a => a % 256) 0x2b8 8
    0x06 [] [[0x06]] [] rfl (by decide) (by decide) (by decide) rfl (by decide) rfl
  have hb := C12_write_block.2.2.1 ⟨true, [], [[0x15]]⟩ 0x120 (fun a => a % 256) 0x120 0x10
    0x15 [] [[0x15]] [] rfl (by decide) (by decide) (by decide) rfl (by decide) rfl
  ⟨h8.1.2 rfl, h8.2, fun h => absurd (hb.1.1 h) (by decide)⟩

/-! ### Identification -/

/-- The bytes before the first NUL are a prefix of the buffer. -/
theorem take_cstr_length (buf : List Nat) : buf.take (cstr buf).length = cstr buf := by
  unfold cstr
  induction buf with
  | nil => rfl
  | cons b rest ih =>
    by_cases hb : (b != 0) = true
    · simp only [List.takeWhile_cons, hb, if_true, List.length_cons, List.take_succ_cons, ih]
    · simp [List.takeWhile_cons, hb]

/-- The function `read_with_timeout` keeps the port working and the bytes
sent. -/
theorem read_with_timeout_link (l : Link) (n : Nat) :
    (read_with_timeout l n).2.2.up = l.up ∧ (read_with_timeout l n).2.2.sent = l.sent := by
  simp [read_with_timeout]

/-- When fewer than `len` bytes arrive before the line falls silent or a
`select` times out, the loop of `read_with_timeout` returns 0. -/
theorem read_loop_short (len0 : Nat) (tail : List (List Nat))
    (htail : tail = [] ∨ ∃ t, tail = [] :: t) :
    ∀ (pre : List (List Nat)) (len : Nat) (got : List Nat),
      (∀ c ∈ pre, c ≠ []) → pre.flatten.length < len →
      (read_loop len0 (pre ++ tail) len got).1 = 0 := by
  intro pre
  induction pre with
  | nil =>
    intro len got _ _
    rcases htail with h | ⟨t, h⟩ <;> simp [h, read_loop]
  | cons c rest ih =>
    intro len got hne hlen
    have hc : c ≠ [] := hne c (List.mem_cons_self _ _)
    have hcl : 0 < c.length := List.length_pos.mpr hc
    have hrest : ∀ d ∈ rest, d ≠ [] := fun d hd => hne d (List.mem_cons_of_mem _ hd)
    rw [List.flatten_cons, List.length_append] at hlen
    rw [List.cons_append]
    unfold read_loop
    have hmin : min len c.length = c.length := Nat.min_eq_right (by omega)
    simp only [if_neg hc, hmin, if_neg (Nat.pos_iff_ne_zero.mp hcl),
      if_neg (by omega : ¬ len - c.length = 0)]
    exact ih (len - c.length) _ hrest (by omega)

/-- When fewer than `n` bytes arrive before the line falls silent or a
`select` times out, `read_with_timeout` returns 0. -/
theorem read_with_timeout_short (l : Link) (pre tail : List (List Nat)) (n : Nat)
    (hinp : l.inp = pre ++ tail) (hne : ∀ c ∈ pre, c ≠ [])
    (htail : tail = [] ∨ ∃ t, tail = [] :: t) (hlen : pre.flatten.length < n) :
    (read_with_timeout l n).1 = 0 := by
  simp only [read_with_timeout, hinp]
  exact read_loop_short n tail htail pre n [] hne hlen

/-- The call `tcflush` keeps the port working and the bytes sent. -/
theorem tcflush_link (l : Link) (rest : Bool) :
    (tcflush l rest).up = l.up ∧ (tcflush l rest).sent = l.sent := by
  cases rest <;> exact ⟨rfl, rfl⟩

/-- With no unread rest in the input queue `tcflush` discards nothing. -/
theorem tcflush_false (l : Link) : tcflush l false = l := rfl

/-- The function `try_magic` on a port whose input queue holds an unread rest
is `try_magic` on the port without that rest. -/
theorem try_magic_flushed (l : Link) (rest : Bool) (ident : Mem) (magic : List Nat) :
    UV5R.try_magic l rest ident magic = UV5R.try_magic (tcflush l rest) false ident magic := by
  cases rest <;> rfl

/-- On a working port `try_magic` never halts the program, and returns 0 or 1. -/
theorem try_magic_returns (l : Link) (rest : Bool) (ident : Mem) (magic : List Nat)
    (hup : l.up = true) :
    (UV5R.try_magic l rest ident magic).status = none ∧
    ((UV5R.try_magic l rest ident magic).ret = 0 ∨
      (UV5R.try_magic l rest ident magic).ret = 1) ∧
    (UV5R.try_magic l rest ident magic).link.up = true := by
  have hup0 : (tcflush l rest).up = true := (tcflush_link l rest).1.trans hup
  unfold UV5R.try_magic
  simp only [write, hup0, if_true, (read_with_timeout_link _ _).1, take_cstr_length]
  split_ifs <;> simp_all [(read_with_timeout_link _ _).1]

/-- A completed handshake on a port with no unread rest: the radio answers
the magic with `a1`, the query with the 8 bytes `id8`, the clone-mode byte
with `a2`, and `a1` and `a2` are `0x06` as `unsigned char`. -/
theorem try_magic_success_flushed (l : Link) (ident : Mem) (magic id8 rest : List Nat)
    (a1 a2 : Nat) (pre tail : List (List Nat)) (hup : l.up = true)
    (hinp : l.inp = pre ++ tail) (hne : ∀ c ∈ pre, c ≠ [])
    (hflat : pre.flatten = [a1] ++ id8 ++ [a2] ++ rest) (hid : id8.length = 8)
    (h1 : a1 % 256 = 0x06) (h2 : a2 % 256 = 0x06) :
    ∃ pre1 pre2, (∀ c ∈ pre1, c ≠ []) ∧ pre1.flatten = rest ∧
      UV5R.try_magic l false ident magic =
        ⟨none, 1, ⟨l.up, l.sent ++ cstr magic ++ [0x02] ++ [0x06], pre1 ++ tail⟩,
         store ident 0 id8, read_loop_rest (pre2 ++ tail) 1⟩ := by
  rw [List.append_assoc, List.append_assoc] at hflat
  obtain ⟨inp1, e1, hne1, hflat1⟩ := read_with_timeout_deliver_tail
    { l with sent := l.sent ++ cstr magic } pre tail [a1] _ hinp hne hflat (by simp)
  obtain ⟨inp2, e2, hne2, hflat2⟩ := read_with_timeout_deliver_tail
    { l with sent := l.sent ++ cstr magic ++ [0x02], inp := inp1 ++ tail } inp1 tail id8 _ rfl
    hne1 hflat1 (by omega)
  obtain ⟨inp3, e3, hne3, hflat3⟩ := read_with_timeout_deliver_tail
    { l with sent := l.sent ++ cstr magic ++ [0x02] ++ [0x06], inp := inp2 ++ tail } inp2 tail
    [a2] rest rfl hne2 hflat2 (by simp)
  refine ⟨inp3, inp2, hne3, hflat3, ?_⟩
  simp only [List.length_cons, List.length_nil, hid] at e1 e2 e3
  simp only [UV5R.try_magic, tcflush_false]
  rw [take_cstr_length, write_up l _ hup]
  simp only [e1]
  rw [if_neg (by simp), if_neg (by simp), if_neg (by simp [uchar, h1]),
    write_up ⟨l.up, l.sent ++ cstr magic, inp1 ++ tail⟩ _ hup]
  simp only [List.length_cons, List.length_nil, e2]
  rw [if_neg (by simp), if_neg (by simp),
    write_up ⟨l.up, l.sent ++ cstr magic ++ [0x02], inp2 ++ tail⟩ _ hup]
  simp only [List.length_cons, List.length_nil, e3]
  rw [if_neg (by simp), if_neg (by simp), if_neg (by simp [uchar, h2])]

/-- A completed handshake: after the `tcflush`, the radio answers the magic
with `a1`, the query with the 8 bytes `id8`, the clone-mode byte with `a2`,
and `a1` and `a2` are `0x06` as `unsigned char`. -/
theorem try_magic_success (l : Link) (rest0 : Bool) (ident : Mem) (magic id8 rest : List Nat)
    (a1 a2 : Nat) (pre tail : List (List Nat)) (hup : l.up = true)
    (hinp : (tcflush l rest0).inp = pre ++ tail) (hne : ∀ c ∈ pre, c ≠ [])
    (hflat : pre.flatten = [a1] ++ id8 ++ [a2] ++ rest) (hid : id8.length = 8)
    (h1 : a1 % 256 = 0x06) (h2 : a2 % 256 = 0x06) :
    ∃ pre1, (∀ c ∈ pre1, c ≠ []) ∧ pre1.flatten = rest ∧
      (UV5R.try_magic l rest0 ident magic).status = none ∧
      (UV5R.try_magic l rest0 ident magic).ret = 1 ∧
      (UV5R.try_magic l rest0 ident magic).link =
        ⟨l.up, l.sent ++ cstr magic ++ [0x02] ++ [0x06], pre1 ++ tail⟩ ∧
      (UV5R.try_magic l rest0 ident magic).ident = store ident 0 id8 := by
  obtain ⟨hfu, hfs⟩ := tcflush_link l rest0
  obtain ⟨pre1, pre2, hne1, hflat1, h⟩ := try_magic_success_flushed (tcflush l rest0) ident magic
    id8 rest a1 a2 pre tail (hfu.trans hup) hinp hne hflat hid h1 h2
  refine ⟨pre1, hne1, hflat1, ?_⟩
  rw [try_magic_flushed, h, hfu, hfs]
  exact ⟨rfl, rfl, rfl, rfl⟩

/-- On a working port with no unread rest, with the bytes `pre.flatten`
arriving before the line falls silent or a `select` times out, `try_magic` returns 1 exactly when the
radio completes the handshake. -/
theorem try_magic_ret_one_iff_flushed (l : Link) (ident : Mem) (magic : List Nat)
    (pre tail : List (List Nat)) (hup : l.up = true)
    (hinp : l.inp = pre ++ tail) (hne : ∀ c ∈ pre, c ≠ [])
    (htail : tail = [] ∨ ∃ t, tail = [] :: t) :
    (UV5R.try_magic l false ident magic).ret = 1 ↔
      ∃ a1 id8 a2 rest, pre.flatten = [a1] ++ id8 ++ [a2] ++ rest ∧ id8.length = 8 ∧
        a1 % 256 = 0x06 ∧ a2 % 256 = 0x06 := by
  constructor
  · intro hret
    -- the answer to the magic
    rcases hB : pre.flatten with _ | ⟨a1, B1⟩
    · exfalso
      have hs := read_with_timeout_short { l with sent := l.sent ++ cstr magic } pre tail 1
        hinp hne htail (by rw [hB]; simp)
      simp only [UV5R.try_magic, tcflush_false] at hret
      rw [take_cstr_length, write_up l _ hup] at hret
      simp only [hs] at hret
      simp at hret
    obtain ⟨inp1, e1, hne1, hflat1⟩ := read_with_timeout_deliver_tail
      { l with sent := l.sent ++ cstr magic } pre tail [a1] B1 hinp hne
      (by rw [hB]; rfl) (by simp)
    simp only [List.length_cons, List.length_nil] at e1
    by_cases h1 : a1 % 256 = 0x06
    swap
    · exfalso
      simp only [UV5R.try_magic, tcflush_false] at hret
      rw [take_cstr_length, write_up l _ hup] at hret
      simp [e1, uchar, h1] at hret
    -- the identifier
    by_cases hlen : B1.length < 8
    · exfalso
      have hs := read_with_timeout_short
        { l with sent := l.sent ++ cstr magic ++ [0x02], inp := inp1 ++ tail } inp1 tail 8
        rfl hne1 htail (by rw [hflat1]; exact hlen)
      simp only [UV5R.try_magic, tcflush_false] at hret
      rw [take_cstr_length, write_up l _ hup] at hret
      simp only [e1] at hret
      rw [if_neg (by simp), if_neg (by simp), if_neg (by simp [uchar, h1]),
        write_up ⟨l.up, l.sent ++ cstr magic, inp1 ++ tail⟩ _ hup] at hret
      simp only [hs] at hret
      simp at hret
    have hid : (B1.take 8).length = 8 := by
      rw [List.length_take]; omega
    obtain ⟨inp2, e2, hne2, hflat2⟩ := read_with_timeout_deliver_tail
      { l with sent := l.sent ++ cstr magic ++ [0x02], inp := inp1 ++ tail } inp1 tail
      (B1.take 8) (B1.drop 8) rfl hne1 (by rw [hflat1, List.take_append_drop]) (by omega)
    simp only [hid] at e2
    -- the answer to the clone-mode byte
    rcases hB2 : B1.drop 8 with _ | ⟨a2, rest⟩
    · exfalso
      have hs := read_with_timeout_short
        { l with sent := l.sent ++ cstr magic ++ [0x02] ++ [0x06], inp := inp2 ++ tail }
        inp2 tail 1 rfl hne2 htail (by rw [hflat2, hB2]; simp)
      simp only [UV5R.try_magic, tcflush_false] at hret
      rw [take_cstr_length, write_up l _ hup] at hret
      simp only [e1] at hret
      rw [if_neg (by simp), if_neg (by simp), if_neg (by simp [uchar, h1]),
        write_up ⟨l.up, l.sent ++ cstr magic, inp1 ++ tail⟩ _ hup] at hret
      simp only [List.length_cons, List.length_nil, e2] at hret
      rw [if_neg (by simp), if_neg (by simp),
        write_up ⟨l.up, l.sent ++ cstr magic ++ [0x02], inp2 ++ tail⟩ _ hup] at hret
      simp only [hs] at hret
      simp at hret
    obtain ⟨inp3, e3, _, _⟩ := read_with_timeout_deliver_tail
      { l with sent := l.sent ++ cstr magic ++ [0x02] ++ [0x06], inp := inp2 ++ tail }
      inp2 tail [a2] rest rfl hne2 (by rw [hflat2, hB2]; rfl) (by simp)
    simp only [List.length_cons, List.length_nil] at e3
    by_cases h2 : a2 % 256 = 0x06
    swap
    · exfalso
      simp only [UV5R.try_magic, tcflush_false] at hret
      rw [take_cstr_length, write_up l _ hup] at hret
      simp only [e1] at hret
      rw [if_neg (by simp), if_neg (by simp), if_neg (by simp [uchar, h1]),
        write_up ⟨l.up, l.sent ++ cstr magic, inp1 ++ tail⟩ _ hup] at hret
      simp only [List.length_cons, List.length_nil, e2] at hret
      rw [if_neg (by simp), if_neg (by simp),
        write_up ⟨l.up, l.sent ++ cstr magic ++ [0x02], inp2 ++ tail⟩ _ hup] at hret
      simp only [e3] at hret
      simp [uchar, h2] at hret
    refine ⟨a1, B1.take 8, a2, rest, ?_, hid, h1, h2⟩
    rw [List.append_assoc, List.append_assoc, List.singleton_append, List.singleton_append,
      ← hB2, List.take_append_drop]
  · rintro ⟨a1, id8, a2, rest, hflat, hid, h1, h2⟩
    obtain ⟨pre1, pre2, _, _, h⟩ :=
      try_magic_success_flushed l ident magic id8 rest a1 a2 pre tail hup hinp hne hflat hid
        h1 h2
    rw [h]

/-- On a working port, with the bytes `pre.flatten` arriving after the
`tcflush` and before the line falls silent or a `select` times out,
`try_magic` returns 1 exactly when the radio completes the handshake. -/
theorem try_magic_ret_one_iff (l : Link) (rest0 : Bool) (ident : Mem) (magic : List Nat)
    (pre tail : List (List Nat)) (hup : l.up = true)
    (hinp : (tcflush l rest0).inp = pre ++ tail) (hne : ∀ c ∈ pre, c ≠ [])
    (htail : tail = [] ∨ ∃ t, tail = [] :: t) :
    (UV5R.try_magic l rest0 ident magic).ret = 1 ↔
      ∃ a1 id8 a2 rest, pre.flatten = [a1] ++ id8 ++ [a2] ++ rest ∧ id8.length = 8 ∧
        a1 % 256 = 0x06 ∧ a2 % 256 = 0x06 := by
  rw [try_magic_flushed]
  exact try_magic_ret_one_iff_flushed (tcflush l rest0) ident magic pre tail
    ((tcflush_link l rest0).1.trans hup) hinp hne htail

/-- C13: `try_magic` on a working port. It never halts the program and
returns 0 or 1. With the bytes `pre.flatten` arriving after its `tcflush` and
before the line falls silent or a `select` times out, it returns 1 exactly
when the device answers the magic with `0x06`, then delivers 8 identifier
bytes in reply to the query byte, then answers the clone-mode byte with
`0x06`; in every other case (no or wrong acknowledgment, fewer than 8
identifier bytes) it returns 0 to its caller. On success the bytes sent are
the magic, `0x02`, `0x06` in this order, and `ident` holds the 8 bytes
received. -/
theorem C13_try_magic :
    (∀ (l : Link) (rest0 : Bool) (ident : Mem) (magic : List Nat), l.up = true →
      (UV5R.try_magic l rest0 ident magic).status = none ∧
      ((UV5R.try_magic l rest0 ident magic).ret = 0 ∨
        (UV5R.try_magic l rest0 ident magic).ret = 1)) ∧
    (∀ (l : Link) (rest0 : Bool) (ident : Mem) (magic : List Nat) (pre tail : List (List Nat)),
      l.up = true → (tcflush l rest0).inp = pre ++ tail → (∀ c ∈ pre, c ≠ []) →
      (∀ b ∈ pre.flatten, b < 256) → (tail = [] ∨ ∃ t, tail = [] :: t) →
      ((UV5R.try_magic l rest0 ident magic).ret = 1 ↔
        ∃ id8 rest, pre.flatten = [0x06] ++ id8 ++ [0x06] ++ rest ∧ id8.length = 8)) ∧
    (∀ (l : Link) (rest0 : Bool) (ident : Mem) (magic id8 rest : List Nat)
        (pre tail : List (List Nat)),
      l.up = true → (tcflush l rest0).inp = pre ++ tail → (∀ c ∈ pre, c ≠ []) →
      pre.flatten = [0x06] ++ id8 ++ [0x06] ++ rest → id8.length = 8 →
      (UV5R.try_magic l rest0 ident magic).ret = 1 ∧
      (UV5R.try_magic l rest0 ident magic).link.sent =
        l.sent ++ cstr magic ++ [0x02] ++ [0x06] ∧
      (∀ j, j < 8 → (UV5R.try_magic l rest0 ident magic).ident j = id8.getD j 0)) := by
  refine ⟨?_, ?_, ?_⟩
  · intro l rest0 ident magic hup
    exact ⟨(try_magic_returns l rest0 ident magic hup).1,
      (try_magic_returns l rest0 ident magic hup).2.1⟩
  · intro l rest0 ident magic pre tail hup hinp hne hbytes htail
    rw [try_magic_ret_one_iff l rest0 ident magic pre tail hup hinp hne htail]
    constructor
    · rintro ⟨a1, id8, a2, rest, hflat, hid, h1, h2⟩
      have ha1 : a1 < 256 := hbytes a1 (by rw [hflat]; simp)
      have ha2 : a2 < 256 := hbytes a2 (by rw [hflat]; simp)
      rw [Nat.mod_eq_of_lt ha1] at h1
      rw [Nat.mod_eq_of_lt ha2] at h2
      subst h1 h2
      exact ⟨id8, rest, hflat, hid⟩
    · rintro ⟨id8, rest, hflat, hid⟩
      exact ⟨0x06, id8, 0x06, rest, hflat, hid, rfl, rfl⟩
  · intro l rest0 ident magic id8 rest pre tail hup hinp hne hflat hid
    obtain ⟨pre1, _, _, _, hr, hl, hi⟩ :=
      try_magic_success l rest0 ident magic id8 rest 0x06 0x06 pre tail hup hinp hne hflat hid
        rfl rfl
    rw [hr, hl, hi]
    refine ⟨rfl, rfl, ?_⟩
    intro j hj
    have := (store_spec ident 0 id8).1 j (by omega)
    simpa using this

/-- C13 at four probes with the magic of the newer firmware: a completed
handshake, an identifier of 7 bytes followed by a timeout, a negative answer
`0x15`, and a completed handshake on a port whose input queue held the unread
rest `0x15, 0x06` of an earlier answer. -/
theorem C13_try_magic_witness :
    ((UV5R.try_magic ⟨true, [], [[0x06], [1, 2, 3, 4, 5, 6, 7, 8], [0x06]]⟩ false (fun _ => 0)
        UV5R.UV5R_MODEL_291).ret = 1 ∧
     (UV5R.try_magic ⟨true, [], [[0x06], [1, 2, 3, 4, 5, 6, 7, 8], [0x06]]⟩ false (fun _ => 0)
        UV5R.UV5R_MODEL_291).link.sent =
       [0x50, 0xBB, 0xFF, 0x20, 0x12, 0x07, 0x25, 0x02, 0x06]) ∧
    ¬ (UV5R.try_magic ⟨true, [], [[0x06], [1, 2, 3, 4, 5, 6, 7], [], [8, 0x06]]⟩ false
        (fun _ => 0) UV5R.UV5R_MODEL_291).ret = 1 ∧
    (UV5R.try_magic ⟨true, [], [[0x15]]⟩ false (fun _ => 0) UV5R.UV5R_MODEL_291).status = none ∧
    (UV5R.try_magic ⟨true, [], [[0x15, 0x06], [0x06], [1, 2, 3, 4, 5, 6, 7, 8], [0x06]]⟩ true
        (fun _ => 0) UV5R.UV5R_MODEL_291).ret = 1 :=
  have hs := C13_try_magic.2.2 ⟨true, [], [[0x06], [1, 2, 3, 4, 5, 6, 7, 8], [0x06]]⟩ false
    (fun _ => 0) UV5R.UV5R_MODEL_291 [1, 2, 3, 4, 5, 6, 7, 8] []
    [[0x06], [1, 2, 3, 4, 5, 6, 7, 8], [0x06]] [] rfl rfl (by decide) rfl rfl
  have hf := C13_try_magic.2.1 ⟨true, [], [[0x06], [1, 2, 3, 4, 5, 6, 7], [], [8, 0x06]]⟩ false
    (fun _ => 0) UV5R.UV5R_MODEL_291 [[0x06], [1, 2, 3, 4, 5, 6, 7]] [[], [8, 0x06]]
    rfl rfl (by decide) (by decide) (Or.inr ⟨[[8, 0x06]], rfl⟩)
  have ht := C13_try_magic.2.2
    ⟨true, [], [[0x15, 0x06], [0x06], [1, 2, 3, 4, 5, 6, 7, 8], [0x06]]⟩ true
    (fun _ => 0) UV5R.UV5R_MODEL_291 [1, 2, 3, 4, 5, 6, 7, 8] []
    [[0x06], [1, 2, 3, 4, 5, 6, 7, 8], [0x06]] [] rfl rfl (by decide) rfl rfl
  ⟨⟨hs.1, hs.2.1⟩,
   fun h => by
    obtain ⟨id8, rest, hflat, hid⟩ := hf.1 h
    have hl := congrArg List.length hflat
    simp [hid] at hl
    omega,
   (C13_try_magic.1 ⟨true, [], [[0x15]]⟩ false (fun _ => 0) UV5R.UV5R_MODEL_291 rfl).1,
   ht.1⟩

/-- The magics alternate with period 2. -/
theorem candidate_add_two (j : Nat) : UV5R.candidate (j + 2) = UV5R.candidate j := by
  simp [UV5R.candidate, Nat.add_mod]

/-- Attempt `j + 2` is attempt `j` of the probes that start where the first
two attempts ended. -/
theorem attempt_add_two (l : Link) (rest : Bool) (ident : Mem) :
    ∀ j, UV5R.attempt (j + 2) l rest ident =
      UV5R.attempt j (UV5R.attempt 1 l rest ident).link (UV5R.attempt 1 l rest ident).rest
        (UV5R.attempt 1 l rest ident).ident := by
  intro j
  induction j with
  | zero => rfl
  | succ j ih =>
    show UV5R.try_magic (UV5R.attempt (j + 2) l rest ident).link
      (UV5R.attempt (j + 2) l rest ident).rest (UV5R.attempt (j + 2) l rest ident).ident
      (UV5R.candidate (j + 1 + 2)) = _
    rw [ih, candidate_add_two]
    rfl

/-- On a working port every attempt returns, and leaves the port working. -/
theorem attempt_returns (l : Link) (rest : Bool) (ident : Mem) (hup : l.up = true) :
    ∀ j, (UV5R.attempt j l rest ident).status = none ∧
      (UV5R.attempt j l rest ident).link.up = true := by
  intro j
  induction j with
  | zero =>
    exact ⟨(try_magic_returns l rest ident _ hup).1, (try_magic_returns l rest ident _ hup).2.2⟩
  | succ j ih =>
    exact ⟨(try_magic_returns _ _ _ _ ih.2).1, (try_magic_returns _ _ _ _ ih.2).2.2⟩

/-- The loop of `identify` returns at the first attempt that completes the
handshake, provided it is among the `2 * rounds` attempts of the loop. -/
theorem identify_loop_first_success :
    ∀ (rounds : Nat) (l : Link) (rest : Bool) (ident : Mem) (is_original : Int) (k : Nat),
      l.up = true → k < 2 * rounds →
      (∀ j, j < k → (UV5R.attempt j l rest ident).ret = 0) →
      (UV5R.attempt k l rest ident).ret = 1 →
      UV5R.identify_loop rounds l rest ident is_original =
        ⟨none, (UV5R.attempt k l rest ident).link, (UV5R.attempt k l rest ident).ident,
         if k % 2 = 0 then 0 else 1⟩ := by
  intro rounds
  induction rounds with
  | zero => intro l rest ident is_original k _ hk; omega
  | succ n ih =>
    intro l rest ident is_original k hup hk hfail hok
    have hp : UV5R.try_magic l rest ident UV5R.UV5R_MODEL_291 = UV5R.attempt 0 l rest ident :=
      rfl
    have hp0 := attempt_returns l rest ident hup 0
    have hq : UV5R.try_magic (UV5R.attempt 0 l rest ident).link
        (UV5R.attempt 0 l rest ident).rest (UV5R.attempt 0 l rest ident).ident
        UV5R.UV5R_MODEL_ORIG = UV5R.attempt 1 l rest ident := rfl
    have hq0 := attempt_returns l rest ident hup 1
    unfold UV5R.identify_loop
    simp only [hp, hq, hp0.1, hq0.1, ne_eq, not_true_eq_false, if_false]
    rcases k with _ | _ | k
    · simp [hok]
    · have h0 := hfail 0 (by omega)
      simp [h0, hok]
    · have h0 := hfail 0 (by omega)
      have h1 := hfail 1 (by omega)
      simp only [h0, h1, not_true_eq_false, if_false]
      rw [ih (UV5R.attempt 1 l rest ident).link (UV5R.attempt 1 l rest ident).rest
        (UV5R.attempt 1 l rest ident).ident is_original k hq0.2 (by omega)
        (fun j hj => by rw [← attempt_add_two]; exact hfail (j + 2) (by omega))
        (by rw [← attempt_add_two]; exact hok)]
      rw [← attempt_add_two, show k + 1 + 1 = k + 2 from rfl, Nat.add_mod_right]

/-- The identifier that a completed attempt records: the 8 bytes that arrive
after the acknowledgment of its magic. -/
theorem attempt_ident (l : Link) (rest0 : Bool) (ident : Mem) (hup : l.up = true) (k : Nat)
    (id8 rest : List Nat) (pre tail : List (List Nat))
    (hinp : (UV5R.attempt_port k l rest0 ident).inp = pre ++ tail) (hne : ∀ c ∈ pre, c ≠ [])
    (hflat : pre.flatten = [0x06] ++ id8 ++ [0x06] ++ rest) (hid : id8.length = 8) :
    (UV5R.attempt k l rest0 ident).ret = 1 ∧
    ∀ j, j < 8 → (UV5R.attempt k l rest0 ident).ident j = id8.getD j 0 := by
  cases k with
  | zero =>
    obtain ⟨pre1, _, _, _, hr, _, hi⟩ := try_magic_success l rest0 ident (UV5R.candidate 0)
      id8 rest 0x06 0x06 pre tail hup hinp hne hflat hid rfl rfl
    refine ⟨hr, ?_⟩
    intro j hj
    show (UV5R.try_magic l rest0 ident (UV5R.candidate 0)).ident j = _
    rw [hi]
    have := (store_spec ident 0 id8).1 j (by omega)
    simpa using this
  | succ k =>
    obtain ⟨pre1, _, _, _, hr, _, hi⟩ := try_magic_success (UV5R.attempt k l rest0 ident).link
      (UV5R.attempt k l rest0 ident).rest (UV5R.attempt k l rest0 ident).ident
      (UV5R.candidate (k + 1)) id8 rest 0x06 0x06 pre tail
      (attempt_returns l rest0 ident hup k).2 hinp hne hflat hid rfl rfl
    refine ⟨hr, ?_⟩
    intro j hj
    show (UV5R.try_magic (UV5R.attempt k l rest0 ident).link (UV5R.attempt k l rest0 ident).rest
      (UV5R.attempt k l rest0 ident).ident (UV5R.candidate (k + 1))).ident j = _
    rw [hi]
    have := (store_spec (UV5R.attempt k l rest0 ident).ident 0 id8).1 j (by omega)
    simpa using this

/-- C14: `identify` tries the magic of the newer firmware (`UV5R_MODEL_291`)
on the attempts 0, 2, 4, ... and the original magic (`UV5R_MODEL_ORIG`) on
the attempts 1, 3, 5, ... (attempts counted from 0); every attempt begins
with a `tcflush` that discards what the attempt before it has left unread.
On a working port, for every behaviour of the device whose first completed
handshake happens on attempt `k < 20`, `identify` returns at attempt `k`: the
port and `ident` are as that attempt leaves them, `is_original` is 1 exactly
when the attempt used the original magic, and `ident` holds the 8 identifier
bytes received in that attempt. -/
theorem C14_identify_first_success (l : Link) (ident : Mem) (is_original : Int) (k : Nat)
    (hup : l.up = true) (hk : k < 20)
    (hfail : ∀ j, j < k → (UV5R.attempt j l false ident).ret = 0)
    (hok : (UV5R.attempt k l false ident).ret = 1) :
    (UV5R.identify l ident is_original).status = none ∧
    (UV5R.identify l ident is_original).link = (UV5R.attempt k l false ident).link ∧
    (UV5R.identify l ident is_original).ident = (UV5R.attempt k l false ident).ident ∧
    (UV5R.identify l ident is_original).is_original = (if k % 2 = 0 then 0 else 1) ∧
    ((UV5R.identify l ident is_original).is_original = 1 ↔
      UV5R.candidate k = UV5R.UV5R_MODEL_ORIG) ∧
    (∀ (id8 rest : List Nat) (pre tail : List (List Nat)),
      (UV5R.attempt_port k l false ident).inp = pre ++ tail → (∀ c ∈ pre, c ≠ []) →
      pre.flatten = [0x06] ++ id8 ++ [0x06] ++ rest → id8.length = 8 →
      ∀ j, j < 8 → (UV5R.identify l ident is_original).ident j = id8.getD j 0) := by
  have h := identify_loop_first_success 10 l false ident is_original k hup (by omega) hfail hok
  have hid : UV5R.identify l ident is_original =
      ⟨none, (UV5R.attempt k l false ident).link, (UV5R.attempt k l false ident).ident,
       if k % 2 = 0 then 0 else 1⟩ := h
  rw [hid]
  refine ⟨rfl, rfl, rfl, rfl, ?_, ?_⟩
  · by_cases hk2 : k % 2 = 0
    · simp [UV5R.candidate, hk2, UV5R.UV5R_MODEL_291, UV5R.UV5R_MODEL_ORIG]
    · simp [UV5R.candidate, hk2]
  · intro id8 rest pre tail hinp hne hflat hlen j hj
    exact (attempt_ident l false ident hup k id8 rest pre tail hinp hne hflat hlen).2 j hj

/-- C14 at a device that is silent during the first three attempts and
completes the handshake on the fourth, which is the second round's probe
with the original magic: `identify` selects the original model and records
the identifier. -/
theorem C14_identify_first_success_witness :
    (UV5R.identify ⟨true, [], [[], [], [], [0x06], [1, 2, 3, 4, 5, 6, 7, 8], [0x06]]⟩
        (fun _ => 0) 0).status = none ∧
    (UV5R.identify ⟨true, [], [[], [], [], [0x06], [1, 2, 3, 4, 5, 6, 7, 8], [0x06]]⟩
        (fun _ => 0) 0).is_original = 1 ∧
    (UV5R.identify ⟨true, [], [[], [], [], [0x06], [1, 2, 3, 4, 5, 6, 7, 8], [0x06]]⟩
        (fun _ => 0) 0).ident 7 = 8 :=
  have h := C14_identify_first_success
    ⟨true, [], [[], [], [], [0x06], [1, 2, 3, 4, 5, 6, 7, 8], [0x06]]⟩ (fun _ => 0) 0 3 rfl
    (by decide) (by decide) (by decide)
  ⟨h.1, h.2.2.2.1,
   h.2.2.2.2.2 [1, 2, 3, 4, 5, 6, 7, 8] [] [[0x06], [1, 2, 3, 4, 5, 6, 7, 8], [0x06]] []
     (by decide) (by decide) (by decide) rfl 7 (by decide)⟩

/-- What `tcflush` changes: when the first answer is `0x15, 0x06` in one chunk,
the second attempt discards the unread `0x06`, reads the `1` of the next chunk
and returns 0; the third attempt discards the bytes `2 .. 8`, is acknowledged
by the `0x06` that arrives then, sends the query and gets no identifier; the
line is silent from then on and `identify` halts the program. -/
theorem identify_discards_unread_rest :
    (UV5R.attempt 0 ⟨true, [], [[0x15, 0x06], [1, 2, 3, 4, 5, 6, 7, 8], [0x06]]⟩ false
      (fun _ => 0)).rest = true ∧
    (UV5R.attempt 1 ⟨true, [], [[0x15, 0x06], [1, 2, 3, 4, 5, 6, 7, 8], [0x06]]⟩ false
      (fun _ => 0)).ret = 0 ∧
    (UV5R.attempt 2 ⟨true, [], [[0x15, 0x06], [1, 2, 3, 4, 5, 6, 7, 8], [0x06]]⟩ false
      (fun _ => 0)).ret = 0 ∧
    (UV5R.identify ⟨true, [], [[0x15, 0x06], [1, 2, 3, 4, 5, 6, 7, 8], [0x06]]⟩
      (fun _ => 0) 0).status = some Fatal.not_detected := by
  decide

/-- A probe on a port with no unread rest that is answered by nothing (silent
line, `select` timing out) or by bytes the first of which is not `0x06`
returns 0 after sending the magic only; what it leaves unread of the answer is
discarded by the next `tcflush`. -/
theorem try_magic_no_ack_flushed (l : Link) (ident : Mem) (magic : List Nat)
    (hup : l.up = true)
    (hno : ∀ c ∈ l.inp, c = [] ∨ ∃ b t, c = b :: t ∧ b % 256 ≠ 0x06) :
    (UV5R.try_magic l false ident magic).status = none ∧
    (UV5R.try_magic l false ident magic).ret = 0 ∧
    (UV5R.try_magic l false ident magic).link.up = true ∧
    (UV5R.try_magic l false ident magic).link.sent = l.sent ++ cstr magic ∧
    (UV5R.try_magic l false ident magic).ident = ident ∧
    (tcflush (UV5R.try_magic l false ident magic).link
      (UV5R.try_magic l false ident magic).rest).inp = l.inp.drop 1 := by
  simp only [UV5R.try_magic, tcflush_false]
  rw [take_cstr_length, write_up l _ hup]
  rcases hinp : l.inp with _ | ⟨c, t⟩
  · simp [read_with_timeout, hinp, read_loop, read_loop_rest, tcflush, hup]
  · rcases hno c (by rw [hinp]; exact List.mem_cons_self _ _) with hc | ⟨b, t1, hc, hb⟩
    · subst hc
      simp [read_with_timeout, hinp, read_loop, read_loop_rest, tcflush, hup]
    · subst hc
      cases t1 with
      | nil => simp [read_with_timeout, hinp, read_loop, read_loop_rest, tcflush, uchar, hb, hup]
      | cons b1 t2 =>
        simp [read_with_timeout, hinp, read_loop, read_loop_rest, tcflush, uchar, hb, hup]

/-- A probe that, after its `tcflush`, is answered by nothing or by bytes the
first of which is not `0x06`. -/
theorem try_magic_no_ack (l : Link) (rest : Bool) (ident : Mem) (magic : List Nat)
    (hup : l.up = true)
    (hno : ∀ c ∈ (tcflush l rest).inp, c = [] ∨ ∃ b t, c = b :: t ∧ b % 256 ≠ 0x06) :
    (UV5R.try_magic l rest ident magic).status = none ∧
    (UV5R.try_magic l rest ident magic).ret = 0 ∧
    (UV5R.try_magic l rest ident magic).link.up = true ∧
    (UV5R.try_magic l rest ident magic).link.sent = l.sent ++ cstr magic ∧
    (UV5R.try_magic l rest ident magic).ident = ident ∧
    (tcflush (UV5R.try_magic l rest ident magic).link
      (UV5R.try_magic l rest ident magic).rest).inp = (tcflush l rest).inp.drop 1 := by
  obtain ⟨hfu, hfs⟩ := tcflush_link l rest
  have h := try_magic_no_ack_flushed (tcflush l rest) ident magic (hfu.trans hup) hno
  rw [← try_magic_flushed, hfs] at h
  exact h

/-- The loop of `identify` against a device that never acknowledges: every
round sends the two magics and nothing else, and after the last round the
program halts. -/
theorem identify_loop_no_ack :
    ∀ (rounds : Nat) (l : Link) (rest : Bool) (ident : Mem) (is_original : Int),
      l.up = true →
      (∀ c ∈ (tcflush l rest).inp, c = [] ∨ ∃ b t, c = b :: t ∧ b % 256 ≠ 0x06) →
      (UV5R.identify_loop rounds l rest ident is_original).status = some Fatal.not_detected ∧
      (UV5R.identify_loop rounds l rest ident is_original).link.sent =
        l.sent ++ (List.replicate rounds
          (cstr UV5R.UV5R_MODEL_291 ++ cstr UV5R.UV5R_MODEL_ORIG)).flatten ∧
      (UV5R.identify_loop rounds l rest ident is_original).ident = ident ∧
      (UV5R.identify_loop rounds l rest ident is_original).is_original = is_original := by
  intro rounds
  induction rounds with
  | zero =>
    intro l rest ident is_original _ _
    simp [UV5R.identify_loop]
  | succ n ih =>
    intro l rest ident is_original hup hno
    obtain ⟨p1, p2, p3, p4, p5, p6⟩ := try_magic_no_ack l rest ident UV5R.UV5R_MODEL_291 hup hno
    have hno1 : ∀ c ∈ (tcflush (UV5R.try_magic l rest ident UV5R.UV5R_MODEL_291).link
        (UV5R.try_magic l rest ident UV5R.UV5R_MODEL_291).rest).inp,
        c = [] ∨ ∃ b t, c = b :: t ∧ b % 256 ≠ 0x06 := by
      rw [p6]
      exact fun c hc => hno c (List.mem_of_mem_drop hc)
    obtain ⟨q1, q2, q3, q4, q5, q6⟩ := try_magic_no_ack _ _
      (UV5R.try_magic l rest ident UV5R.UV5R_MODEL_291).ident UV5R.UV5R_MODEL_ORIG p3 hno1
    have hno2 : ∀ c ∈ (tcflush
        (UV5R.try_magic (UV5R.try_magic l rest ident UV5R.UV5R_MODEL_291).link
          (UV5R.try_magic l rest ident UV5R.UV5R_MODEL_291).rest
          (UV5R.try_magic l rest ident UV5R.UV5R_MODEL_291).ident UV5R.UV5R_MODEL_ORIG).link
        (UV5R.try_magic (UV5R.try_magic l rest ident UV5R.UV5R_MODEL_291).link
          (UV5R.try_magic l rest ident UV5R.UV5R_MODEL_291).rest
          (UV5R.try_magic l rest ident UV5R.UV5R_MODEL_291).ident UV5R.UV5R_MODEL_ORIG).rest).inp,
        c = [] ∨ ∃ b t, c = b :: t ∧ b % 256 ≠ 0x06 := by
      rw [q6]
      exact fun c hc => hno1 c (List.mem_of_mem_drop hc)
    obtain ⟨r1, r2, r3, r4⟩ := ih _ _
      (UV5R.try_magic (UV5R.try_magic l rest ident UV5R.UV5R_MODEL_291).link
        (UV5R.try_magic l rest ident UV5R.UV5R_MODEL_291).rest
        (UV5R.try_magic l rest ident UV5R.UV5R_MODEL_291).ident UV5R.UV5R_MODEL_ORIG).ident
      is_original q3 hno2
    unfold UV5R.identify_loop
    simp only [p1, p2, q1, q2, ne_eq, not_true_eq_false, if_false]
    refine ⟨r1, ?_, ?_, r4⟩
    · rw [r2, q4, p4]
      simp only [List.replicate_succ, List.flatten_cons, List.append_assoc]
    · rw [r3, q5, p5]

/-- C15: against a device that never acknowledges (every probe is answered
by nothing or by bytes the first of which is not `0x06`, and what a probe
leaves unread of such an answer is discarded by the `tcflush` of the next
probe), `identify` on a working port halts the program with the not-detected
error after exactly 10 rounds: the bytes sent are exactly 10 times the magic
of the newer firmware followed by the original magic, 20 probes in all;
neither the query byte `0x02` nor the clone-mode byte `0x06` is among them;
`ident` and `is_original` are left as they were. -/
theorem C15_identify_never_acknowledged (l : Link) (ident : Mem) (is_original : Int)
    (hup : l.up = true)
    (hno : ∀ c ∈ l.inp, c = [] ∨ ∃ b t, c = b :: t ∧ b % 256 ≠ 0x06) :
    (UV5R.identify l ident is_original).status = some Fatal.not_detected ∧
    (UV5R.identify l ident is_original).link.sent =
      l.sent ++ (List.replicate 10
        ([0x50, 0xBB, 0xFF, 0x20, 0x12, 0x07, 0x25] ++
         [0x50, 0xBB, 0xFF, 0x01, 0x25, 0x98, 0x4D])).flatten ∧
    (∀ b ∈ (List.replicate 10
        ([0x50, 0xBB, 0xFF, 0x20, 0x12, 0x07, 0x25] ++
         [0x50, 0xBB, 0xFF, 0x01, 0x25, 0x98, 0x4D])).flatten, b ≠ 0x02 ∧ b ≠ 0x06) ∧
    (UV5R.identify l ident is_original).ident = ident ∧
    (UV5R.identify l ident is_original).is_original = is_original := by
  obtain ⟨h1, h2, h3, h4⟩ := identify_loop_no_ack 10 l false ident is_original hup hno
  refine ⟨h1, h2, ?_, h3, h4⟩
  intro b hb
  obtain ⟨x, hx, hbx⟩ := List.mem_flatten.mp hb
  rw [(List.mem_replicate.mp hx).2] at hbx
  clear hb hx h1 h2 h3 h4
  revert b
  decide

/-- C15 at a silent device, at a device that answers the first three probes
with `0x15` and then falls silent, and at a device that answers the first
probe with the two bytes `0x15, 0x06` in one chunk. -/
theorem C15_identify_never_acknowledged_witness :
    (UV5R.identify ⟨true, [], []⟩ (fun _ => 0) 0).status = some Fatal.not_detected ∧
    (UV5R.identify ⟨true, [], [[0x15], [0x15], [0x15]]⟩ (fun _ => 0) 0).link.sent.length
      = 140 ∧
    (UV5R.identify ⟨true, [], [[0x15, 0x06]]⟩ (fun _ => 0) 0).status =
      some Fatal.not_detected ∧
    (UV5R.identify ⟨true, [], [[0x15, 0x06]]⟩ (fun _ => 0) 0).link.sent.length = 140 :=
  have h0 := C15_identify_never_acknowledged ⟨true, [], []⟩ (fun _ => 0) 0 rfl
    (fun c hc => absurd hc (List.not_mem_nil c))
  have h1 := C15_identify_never_acknowledged ⟨true, [], [[0x15], [0x15], [0x15]]⟩
    (fun _ => 0) 0 rfl
    (fun c hc => Or.inr ⟨0x15, [], by simpa using hc, by decide⟩)
  have h2 := C15_identify_never_acknowledged ⟨true, [], [[0x15, 0x06]]⟩
    (fun _ => 0) 0 rfl
    (fun c hc => Or.inr ⟨0x15, [0x06], by simpa using hc, by decide⟩)
  ⟨h0.1, by rw [h1.2.1]; rfl, h2.1, by rw [h2.2.1]; rfl⟩

/-! ### Image files -/

/-- The bytes of a memory span, indexed by the positions `q, q+1, ...` they
take in a file. -/
theorem bytes_eq_map_range' (m : Mem) (p n q : Nat) :
    bytes m p n = (List.range' q n).map (fun a => byte m (p + (a - q))) := by
  rw [List.range'_eq_map_range, List.map_map]
  unfold bytes
  apply List.map_congr_left
  intro j _
  simp

/-- Two maps over a span of positions agree when the functions agree on it. -/
theorem map_range'_congr (f g : Nat → Nat) (s n : Nat)
    (h : ∀ a, s ≤ a → a < s + n → f a = g a) :
    (List.range' s n).map f = (List.range' s n).map g := by
  apply List.map_congr_left
  intro a ha
  obtain ⟨h1, h2⟩ := List.mem_range'_1.mp ha
  exact h a h1 h2

/-- Concatenation of equal lists. -/
theorem append_congr {a b c d : List Nat} (h1 : a = c) (h2 : b = d) : a ++ b = c ++ d := by
  rw [h1, h2]

/-- The byte that `bf888s_save_image` writes at file offset `a`. -/
theorem bf888s_save_image_eq (radio_ident radio_mem : Mem) :
    BF888S.bf888s_save_image radio_ident radio_mem =
      (List.range 0x3e0).map (fun a =>
        if a < 8 then byte radio_ident a
        else if a < 0x10 then 0xff
        else if a < 0x2b0 then byte radio_mem a
        else if a < 0x2c0 then 0xff
        else if a < 0x370 then byte radio_mem a
        else if a < 0x380 then byte radio_mem (a - 0x370 + 0x2b0)
        else byte radio_mem a) := by
  have hr : List.range 0x3e0 =
      List.range' 0 8 ++ List.range' 8 8 ++ List.range' 0x10 (0x2b0 - 0x10) ++
      List.range' 0x2b0 8 ++ List.range' 0x2b8 8 ++ List.range' 0x2c0 (0x370 - 0x2c0) ++
      List.range' 0x370 0x10 ++ List.range' 0x380 (0x3e0 - 0x380) := by
    have h1 : List.range' 0 8 ++ List.range' 8 8 = List.range' 0 0x10 :=
      List.range'_append_1 0 8 8
    have h2 : List.range' 0 0x10 ++ List.range' 0x10 (0x2b0 - 0x10) = List.range' 0 0x2b0 :=
      List.range'_append_1 0 0x10 (0x2b0 - 0x10)
    have h3 : List.range' 0 0x2b0 ++ List.range' 0x2b0 8 = List.range' 0 0x2b8 :=
      List.range'_append_1 0 0x2b0 8
    have h4 : List.range' 0 0x2b8 ++ List.range' 0x2b8 8 = List.range' 0 0x2c0 :=
      List.range'_append_1 0 0x2b8 8
    have h5 : List.range' 0 0x2c0 ++ List.range' 0x2c0 (0x370 - 0x2c0) = List.range' 0 0x370 :=
      List.range'_append_1 0 0x2c0 (0x370 - 0x2c0)
    have h6 : List.range' 0 0x370 ++ List.range' 0x370 0x10 = List.range' 0 0x380 :=
      List.range'_append_1 0 0x370 0x10
    have h7 : List.range' 0 0x380 ++ List.range' 0x380 (0x3e0 - 0x380) = List.range' 0 0x3e0 :=
      List.range'_append_1 0 0x380 (0x3e0 - 0x380)
    rw [h1, h2, h3, h4, h5, h6, h7, List.range_eq_range']
  have hff : ∀ q, [0xff, 0xff, 0xff, 0xff, 0xff, 0xff, 0xff, 0xff] =
      (List.range' q 8).map (fun _ => 0xff) := by
    intro q
    simp [List.range']
  unfold BF888S.bf888s_save_image
  rw [hr]
  simp only [List.map_append]
  refine append_congr (append_congr (append_congr (append_congr (append_congr
    (append_congr (append_congr ?_ ?_) ?_) ?_) ?_) ?_) ?_) ?_
  all_goals
    first
    | refine (bytes_eq_map_range' _ _ _ _).trans (map_range'_congr _ _ _ _ ?_)
    | refine (hff _).trans (map_range'_congr _ _ _ _ ?_)
    intro a h1 h2
    simp only [Nat.reduceSub, Nat.reduceAdd] at h1 h2
    split_ifs <;> first | omega | (refine congrArg (byte _) ?_; omega)

/-- C16: BF-888S image layout with remap. For every memory and identifier,
`bf888s_save_image` writes exactly `0x3E0` bytes: bytes `0..7` are the
identifier, bytes `8..15` are `0xFF`, the byte at file offset `a` is
`mem[a]` for every `a` in `[0x10,0x2B0)`, `[0x2C0,0x370)` and
`[0x380,0x3E0)`, the 16 bytes at `0x2B0..0x2BF` are `0xFF`, and the 16
settings bytes `mem[0x2B0..0x2BF]` are stored at the file offsets
`0x370..0x37F`. -/
theorem C16_bf888s_image_layout (radio_ident radio_mem : Mem) :
    (BF888S.bf888s_save_image radio_ident radio_mem).length = 0x3E0 ∧
    (∀ a, a < 8 →
      (BF888S.bf888s_save_image radio_ident radio_mem)[a]? = some (byte radio_ident a)) ∧
    (∀ a, 8 ≤ a → a < 0x10 →
      (BF888S.bf888s_save_image radio_ident radio_mem)[a]? = some 0xff) ∧
    (∀ a, (0x10 ≤ a ∧ a < 0x2b0) ∨ (0x2c0 ≤ a ∧ a < 0x370) ∨ (0x380 ≤ a ∧ a < 0x3e0) →
      (BF888S.bf888s_save_image radio_ident radio_mem)[a]? = some (byte radio_mem a)) ∧
    (∀ a, 0x2b0 ≤ a → a < 0x2c0 →
      (BF888S.bf888s_save_image radio_ident radio_mem)[a]? = some 0xff) ∧
    (∀ j, j < 0x10 →
      (BF888S.bf888s_save_image radio_ident radio_mem)[0x370 + j]? =
        some (byte radio_mem (0x2b0 + j))) := by
  rw [bf888s_save_image_eq]
  refine ⟨by simp, ?_, ?_, ?_, ?_, ?_⟩
  · intro a h
    rw [List.getElem?_map, List.getElem?_range (by omega), Option.map_some', if_pos h]
  · intro a h1 h2
    rw [List.getElem?_map, List.getElem?_range (by omega), Option.map_some',
      if_neg (by omega), if_pos h2]
  · intro a h
    rw [List.getElem?_map, List.getElem?_range (by omega), Option.map_some']
    rcases h with h | h | h
    · rw [if_neg (by omega), if_neg (by omega), if_pos (by omega)]
    · rw [if_neg (by omega), if_neg (by omega), if_neg (by omega), if_neg (by omega),
        if_pos (by omega)]
    · rw [if_neg (by omega), if_neg (by omega), if_neg (by omega), if_neg (by omega),
        if_neg (by omega), if_neg (by omega)]
  · intro a h1 h2
    rw [List.getElem?_map, List.getElem?_range (by omega), Option.map_some',
      if_neg (by omega), if_neg (by omega), if_neg (by omega), if_pos h2]
  · intro j h
    rw [List.getElem?_map, List.getElem?_range (by omega), Option.map_some',
      if_neg (by omega), if_neg (by omega), if_neg (by omega), if_neg (by omega),
      if_neg (by omega), if_pos (by omega)]
    exact congrArg some (congrArg (byte radio_mem) (by omega))

/-- C16 at the memory that holds `a % 251` at address `a` and the identifier
`0x50 + j`: the first settings byte `mem[0x2B0]` is at file offset `0x370`,
and the file offset `0x2B0` holds `0xFF`. -/
theorem C16_bf888s_image_layout_witness :
    (BF888S.bf888s_save_image (fun j => 0x50 + j) (fun a => a % 251))[0x370 + 0]? =
      some (byte (fun a => a % 251) (0x2b0 + 0)) ∧
    (BF888S.bf888s_save_image (fun j => 0x50 + j) (fun a => a % 251))[0x2b0]? = some 0xff :=
  ⟨(C16_bf888s_image_layout (fun j => 0x50 + j) (fun a => a % 251)).2.2.2.2.2 0 (by decide),
   (C16_bf888s_image_layout (fun j => 0x50 + j) (fun a => a % 251)).2.2.2.2.1 0x2b0
     (by decide) (by decide)⟩

/-- The memory after storing `n` bytes read at position `k` of a file that
is long enough. -/
theorem store_take_drop (m : Mem) (p k n : Nat) (f : List Nat) (a : Nat)
    (hlen : k + n ≤ f.length) :
    store m p ((f.drop k).take n) a =
      if p ≤ a ∧ a < p + n then f.getD (k + (a - p)) 0 else m a := by
  have hl : ((f.drop k).take n).length = n := by
    rw [List.length_take, List.length_drop]; omega
  unfold store
  rw [hl]
  by_cases h : p ≤ a ∧ a < p + n
  · rw [if_pos h, if_pos h, List.getD_eq_getElem?_getD, List.getD_eq_getElem?_getD,
      List.getElem?_take_of_lt (by omega), List.getElem?_drop]
  · rw [if_neg h, if_neg h]

/-- The byte at offset `a` of the file that `bf888s_save_image` writes. -/
theorem bf888s_save_image_getD (radio_ident radio_mem : Mem) (a : Nat) (h : a < 0x3e0) :
    (BF888S.bf888s_save_image radio_ident radio_mem).getD a 0 =
      if a < 8 then byte radio_ident a
      else if a < 0x10 then 0xff
      else if a < 0x2b0 then byte radio_mem a
      else if a < 0x2c0 then 0xff
      else if a < 0x370 then byte radio_mem a
      else if a < 0x380 then byte radio_mem (a - 0x370 + 0x2b0)
      else byte radio_mem a := by
  rw [bf888s_save_image_eq, List.getD_eq_getElem?_getD, List.getElem?_map,
    List.getElem?_range h]
  rfl

/-- Loading the file that `bf888s_save_image` writes: `bf888s_read_image`
returns, and what it leaves in the identifier and in the memory. -/
theorem bf888s_read_saved (radio_ident radio_mem ident0 mem0 : Mem) :
    (BF888S.bf888s_read_image (BF888S.bf888s_save_image radio_ident radio_mem)
      ident0 mem0).status = none ∧
    (∀ j, (BF888S.bf888s_read_image (BF888S.bf888s_save_image radio_ident radio_mem)
      ident0 mem0).ident j = if j < 8 then byte radio_ident j else ident0 j) ∧
    (∀ a, (BF888S.bf888s_read_image (BF888S.bf888s_save_image radio_ident radio_mem)
      ident0 mem0).mem a =
        if a < 0x10 then mem0 a
        else if a < 0x370 then byte radio_mem a
        else if a < 0x380 then 0xff
        else if a < 0x3e0 then byte radio_mem a
        else mem0 a) := by
  have hlen : (BF888S.bf888s_save_image radio_ident radio_mem).length = 0x3e0 := by
    rw [bf888s_save_image_eq]; simp
  have hg := bf888s_save_image_getD radio_ident radio_mem
  generalize BF888S.bf888s_save_image radio_ident radio_mem = f at hlen hg
  have h1 : (f.take 8).length = 8 := by rw [List.length_take]; omega
  have h2 : ((f.drop 8).take 8).length = 8 := by
    rw [List.length_take, List.length_drop]; omega
  have h3 : (((f.drop 8).drop 8).take 0x3d0).length = 0x3d0 := by
    rw [List.length_take, List.length_drop, List.length_drop]; omega
  have hdd : (f.drop 8).drop 8 = f.drop 16 := by rw [List.drop_drop]
  have hmem1 : ∀ a, store mem0 0x10 (((f.drop 8).drop 8).take 0x3d0) a =
      if 0x10 ≤ a ∧ a < 0x10 + 0x3d0 then f.getD (16 + (a - 0x10)) 0 else mem0 a := by
    intro a
    rw [hdd]
    exact store_take_drop mem0 0x10 16 0x3d0 f a (by omega)
  have hid : ∀ j, store ident0 0 (f.take 8) j =
      if 0 ≤ j ∧ j < 0 + 8 then f.getD (0 + (j - 0)) 0 else ident0 j := by
    intro j
    have := store_take_drop ident0 0 0 8 f j (by omega)
    rwa [List.drop_zero] at this
  simp only [BF888S.bf888s_read_image, fread, h1, h2, h3, ne_eq, not_true_eq_false, if_false]
  refine ⟨trivial, ?_, ?_⟩
  · intro j
    rw [hid]
    by_cases hj : j < 8
    · rw [if_pos (by omega), if_pos hj, hg _ (by omega), if_pos (by omega)]
      exact congrArg (byte radio_ident) (by omega)
    · rw [if_neg (by omega), if_neg hj]
  · intro a
    have hb : ∀ j, j < 0x10 →
        (bytes (store mem0 0x10 (((f.drop 8).drop 8).take 0x3d0)) 0x370 0x10).getD j 0 =
          byte radio_mem (0x2b0 + j) := by
      intro j hj
      rw [bytes_getD _ _ _ _ hj]
      unfold byte
      rw [hmem1, if_pos (by omega), hg _ (by omega), if_neg (by omega), if_neg (by omega),
        if_neg (by omega), if_neg (by omega), if_neg (by omega), if_pos (by omega)]
      unfold byte
      rw [Nat.mod_mod]
      exact congrArg (fun x => radio_mem x % 256) (by omega)
    unfold store
    simp only [List.length_replicate, bytes_length, h3]
    by_cases h370 : 0x370 ≤ a ∧ a < 0x370 + 0x10
    · rw [if_pos h370, if_neg (by omega), if_neg (by omega), if_pos (by omega)]
      rw [List.getD_eq_getElem?_getD, List.getElem?_replicate, if_pos (by omega)]
      rfl
    · rw [if_neg h370]
      by_cases h2b0 : 0x2b0 ≤ a ∧ a < 0x2b0 + 0x10
      · rw [if_pos h2b0, if_neg (by omega), if_pos (by omega)]
        have := hb (a - 0x2b0) (by omega)
        unfold store at this
        simp only [h3] at this
        rw [this]
        exact congrArg (byte radio_mem) (by omega)
      · rw [if_neg h2b0]
        have := hmem1 a
        unfold store at this
        simp only [h3] at this
        rw [this]
        by_cases hin : 0x10 ≤ a ∧ a < 0x10 + 0x3d0
        · rw [if_pos hin, hg _ (by omega)]
          split_ifs <;> first | omega | exact congrArg (byte radio_mem) (by omega)
        · rw [if_neg hin]
          split_ifs <;> omega

/-- C17: BF-888S image round trip with reverse remap. For every memory `m`
and identifier, `bf888s_read_image` on the file that `bf888s_save_image`
produces returns to its caller with the same identifier and with a memory
that equals `m` at every address in `[0x10,0x370)` and `[0x380,0x3E0)`, so
the three transferred spans, the settings at `0x2B0..0x2BF` included, are
restored; the 16 bytes at `0x370..0x37F` are `0xFF`. -/
theorem C17_bf888s_image_round_trip (radio_ident radio_mem ident0 mem0 : Mem) :
    (BF888S.bf888s_read_image (BF888S.bf888s_save_image radio_ident radio_mem)
      ident0 mem0).status = none ∧
    (∀ j, j < 8 →
      (BF888S.bf888s_read_image (BF888S.bf888s_save_image radio_ident radio_mem)
        ident0 mem0).ident j = byte radio_ident j) ∧
    (∀ a, (0x10 ≤ a ∧ a < 0x370) ∨ (0x380 ≤ a ∧ a < 0x3e0) →
      (BF888S.bf888s_read_image (BF888S.bf888s_save_image radio_ident radio_mem)
        ident0 mem0).mem a = byte radio_mem a) ∧
    (∀ a, 0x370 ≤ a → a < 0x380 →
      (BF888S.bf888s_read_image (BF888S.bf888s_save_image radio_ident radio_mem)
        ident0 mem0).mem a = 0xff) := by
  obtain ⟨h1, h2, h3⟩ := bf888s_read_saved radio_ident radio_mem ident0 mem0
  refine ⟨h1, ?_, ?_, ?_⟩
  · intro j hj
    rw [h2, if_pos hj]
  · intro a ha
    rw [h3]
    rcases ha with ha | ha
    · rw [if_neg (by omega), if_pos (by omega)]
    · rw [if_neg (by omega), if_neg (by omega), if_neg (by omega), if_pos (by omega)]
  · intro a ha1 ha2
    rw [h3, if_neg (by omega), if_neg (by omega), if_pos (by omega)]

/-- C17 at the memory that holds `a % 251` at address `a`: after saving and
loading, the first settings byte is back at `0x2B0`, and `0x370` holds
`0xFF`. -/
theorem C17_bf888s_image_round_trip_witness :
    (BF888S.bf888s_read_image
      (BF888S.bf888s_save_image (fun j => 0x50 + j) (fun a => a % 251))
      (fun _ => 0) (fun _ => 0)).mem 0x2b0 = byte (fun a => a % 251) 0x2b0 ∧
    (BF888S.bf888s_read_image
      (BF888S.bf888s_save_image (fun j => 0x50 + j) (fun a => a % 251))
      (fun _ => 0) (fun _ => 0)).mem 0x370 = 0xff :=
  ⟨(C17_bf888s_image_round_trip (fun j => 0x50 + j) (fun a => a % 251) (fun _ => 0)
      (fun _ => 0)).2.2.1 0x2b0 (Or.inl ⟨by decide, by decide⟩),
   (C17_bf888s_image_round_trip (fun j => 0x50 + j) (fun a => a % 251) (fun _ => 0)
      (fun _ => 0)).2.2.2 0x370 (by decide) (by decide)⟩

/-! ### Download and upload -/

/-- A loop over blocks whose body, on every address of the list and every
memory that satisfies `inv`, consumes the answer `answer a` of the device,
sends `cmdlog a`, keeps `inv` and returns: the loop returns, has consumed
the answers and sent the commands in the order of the list. -/
theorem run_blocks_spec (body : Link → Nat → Mem → Run) (answer cmdlog : Nat → List Nat)
    (upd : Nat → Mem → Mem) (ok : Nat → Prop) (inv : Mem → Prop)
    (hbody : ∀ (a : Nat) (l : Link) (m : Mem) (rest : List Nat) (pre tail : List (List Nat)),
      ok a → inv m → l.up = true → l.inp = pre ++ tail → (∀ c ∈ pre, c ≠ []) →
      pre.flatten = answer a ++ rest →
      inv (upd a m) ∧ ∃ pre1, (∀ c ∈ pre1, c ≠ []) ∧ pre1.flatten = rest ∧
        body l a m = ⟨none, ⟨l.up, l.sent ++ cmdlog a, pre1 ++ tail⟩, upd a m⟩) :
    ∀ (addrs : List Nat) (l : Link) (m : Mem) (rest : List Nat) (pre tail : List (List Nat)),
      (∀ a ∈ addrs, ok a) → inv m → l.up = true → l.inp = pre ++ tail →
      (∀ c ∈ pre, c ≠ []) → pre.flatten = (addrs.map answer).flatten ++ rest →
      inv (addrs.foldl (fun m a => upd a m) m) ∧
      ∃ pre1, (∀ c ∈ pre1, c ≠ []) ∧ pre1.flatten = rest ∧
        run_blocks body addrs l m =
          ⟨none, ⟨l.up, l.sent ++ (addrs.map cmdlog).flatten, pre1 ++ tail⟩,
           addrs.foldl (fun m a => upd a m) m⟩ := by
  intro addrs
  induction addrs with
  | nil =>
    intro l m rest pre tail _ hinv _ hinp hne hflat
    refine ⟨hinv, pre, hne, by simpa using hflat, ?_⟩
    simp only [run_blocks, List.map_nil, List.flatten_nil, List.append_nil, List.foldl_nil,
      ← hinp]
  | cons a as ih =>
    intro l m rest pre tail hok hinv hup hinp hne hflat
    rw [List.map_cons, List.flatten_cons, List.append_assoc] at hflat
    obtain ⟨hinv1, pre1, hne1, hflat1, hb⟩ :=
      hbody a l m _ pre tail (hok a (List.mem_cons_self _ _)) hinv hup hinp hne hflat
    obtain ⟨hinv2, pre2, hne2, hflat2, hr⟩ := ih ⟨l.up, l.sent ++ cmdlog a, pre1 ++ tail⟩
      (upd a m) rest pre1 tail (fun b hb => hok b (List.mem_cons_of_mem _ hb)) hinv1 hup rfl
      hne1 hflat1
    refine ⟨hinv2, pre2, hne2, hflat2, ?_⟩
    simp only [run_blocks, hb, Run.andThen, hr, List.map_cons, List.flatten_cons,
      List.append_assoc, List.foldl_cons]

/-- Two loops in sequence are one loop over the concatenated address list. -/
theorem run_blocks_append (body : Link → Nat → Mem → Run) :
    ∀ (xs ys : List Nat) (l : Link) (m : Mem),
      run_blocks body (xs ++ ys) l m = (run_blocks body xs l m).andThen (run_blocks body ys) := by
  intro xs
  induction xs with
  | nil => intro ys l m; rfl
  | cons a as ih =>
    intro ys l m
    simp only [List.cons_append, run_blocks]
    rcases h : (body l a m).status with _ | e
    · simp only [Run.andThen, h]
      exact ih ys _ _
    · simp only [Run.andThen, h]

/-- A memory cell outside all the blocks stored is unchanged. -/
theorem foldl_store_outside (dat : Nat → List Nat) (n : Nat) (hdat : ∀ a, (dat a).length = n) :
    ∀ (addrs : List Nat) (m : Mem) (x : Nat), (∀ a ∈ addrs, x < a ∨ a + n ≤ x) →
      addrs.foldl (fun m a => store m a (dat a)) m x = m x := by
  intro addrs
  induction addrs with
  | nil => intro m x _; rfl
  | cons b bs ih =>
    intro m x h
    rw [List.foldl_cons, ih _ x (fun a ha => h a (List.mem_cons_of_mem _ ha))]
    have hb := h b (List.mem_cons_self _ _)
    exact (store_spec m b (dat b)).2 x (by rw [hdat]; exact hb)

/-- A memory cell inside one of pairwise disjoint blocks holds the byte
stored for that block. -/
theorem foldl_store_inside (dat : Nat → List Nat) (n : Nat) (hdat : ∀ a, (dat a).length = n) :
    ∀ (addrs : List Nat) (m : Mem) (a j : Nat),
      addrs.Pairwise (fun a b => a + n ≤ b ∨ b + n ≤ a) → a ∈ addrs → j < n →
      addrs.foldl (fun m a => store m a (dat a)) m (a + j) = (dat a).getD j 0 := by
  intro addrs
  induction addrs with
  | nil => intro m a j _ ha; exact absurd ha (List.not_mem_nil a)
  | cons b bs ih =>
    intro m a j hpw ha hj
    rw [List.foldl_cons]
    rcases List.mem_cons.mp ha with hab | hab
    · subst hab
      rw [foldl_store_outside dat n hdat bs _ (a + j)
        (fun c hc => by have := (List.pairwise_cons.mp hpw).1 c hc; omega)]
      exact (store_spec m a (dat a)).1 j (by rw [hdat]; exact hj)
    · exact ih _ a j (List.pairwise_cons.mp hpw).2 hab hj

/-- The addresses of the 38 blocks that `bf888s_download` and `bf888s_upload`
visit. -/
theorem bf888s_addrs_eq :
    for_addrs 0x10 0x110 8 ++ (for_addrs 0x2b0 0x2c0 8 ++ for_addrs 0x3c0 0x3e0 8) =
      [0x10, 0x18, 0x20, 0x28, 0x30, 0x38, 0x40, 0x48, 0x50, 0x58, 0x60, 0x68, 0x70, 0x78,
       0x80, 0x88, 0x90, 0x98, 0xa0, 0xa8, 0xb0, 0xb8, 0xc0, 0xc8, 0xd0, 0xd8, 0xe0, 0xe8,
       0xf0, 0xf8, 0x100, 0x108, 0x2b0, 0x2b8, 0x3c0, 0x3c8, 0x3d0, 0x3d8] := by
  decide

/-- Every block of the BF-888S transfer lies in one of the three spans. -/
theorem bf888s_addrs_span :
    ∀ a ∈ [0x10, 0x18, 0x20, 0x28, 0x30, 0x38, 0x40, 0x48, 0x50, 0x58, 0x60, 0x68, 0x70, 0x78,
       0x80, 0x88, 0x90, 0x98, 0xa0, 0xa8, 0xb0, 0xb8, 0xc0, 0xc8, 0xd0, 0xd8, 0xe0, 0xe8,
       0xf0, 0xf8, 0x100, 0x108, 0x2b0, 0x2b8, 0x3c0, 0x3c8, 0x3d0, 0x3d8],
      (0x10 ≤ a ∧ a + 8 ≤ 0x110) ∨ (0x2b0 ≤ a ∧ a + 8 ≤ 0x2c0) ∨ (0x3c0 ≤ a ∧ a + 8 ≤ 0x3e0) := by
  decide

/-- The blocks of the BF-888S transfer are pairwise disjoint. -/
theorem bf888s_addrs_disjoint :
    [0x10, 0x18, 0x20, 0x28, 0x30, 0x38, 0x40, 0x48, 0x50, 0x58, 0x60, 0x68, 0x70, 0x78,
       0x80, 0x88, 0x90, 0x98, 0xa0, 0xa8, 0xb0, 0xb8, 0xc0, 0xc8, 0xd0, 0xd8, 0xe0, 0xe8,
       0xf0, 0xf8, 0x100, 0x108, 0x2b0, 0x2b8, 0x3c0, 0x3c8, 0x3d0, 0x3d8].Pairwise
      (fun a b => a + 8 ≤ b ∨ b + 8 ≤ a) := by
  decide

/-- The function `bf888s_download` is one loop over the 38 blocks. -/
theorem bf888s_download_eq (rwt : Reader) (l : Link) (mem : Mem) :
    BF888S.bf888s_download rwt l mem =
      run_blocks (fun l addr m => BF888S.read_block rwt l addr m addr 8)
        [0x10, 0x18, 0x20, 0x28, 0x30, 0x38, 0x40, 0x48, 0x50, 0x58, 0x60, 0x68, 0x70, 0x78,
         0x80, 0x88, 0x90, 0x98, 0xa0, 0xa8, 0xb0, 0xb8, 0xc0, 0xc8, 0xd0, 0xd8, 0xe0, 0xe8,
         0xf0, 0xf8, 0x100, 0x108, 0x2b0, 0x2b8, 0x3c0, 0x3c8, 0x3d0, 0x3d8]
        l (store mem 0 (List.replicate 0x400 0xff)) := by
  rw [← bf888s_addrs_eq, run_blocks_append]
  simp only [BF888S.bf888s_download]
  refine congrArg (Run.andThen _) ?_
  funext l1 m1
  rw [run_blocks_append]

/-- The function `bf888s_upload` is one loop over the 38 blocks. -/
theorem bf888s_upload_eq (rwt : Reader) (l : Link) (mem : Mem) :
    BF888S.bf888s_upload rwt l mem =
      run_blocks (fun l addr m => BF888S.write_block rwt l addr m addr 8)
        [0x10, 0x18, 0x20, 0x28, 0x30, 0x38, 0x40, 0x48, 0x50, 0x58, 0x60, 0x68, 0x70, 0x78,
         0x80, 0x88, 0x90, 0x98, 0xa0, 0xa8, 0xb0, 0xb8, 0xc0, 0xc8, 0xd0, 0xd8, 0xe0, 0xe8,
         0xf0, 0xf8, 0x100, 0x108, 0x2b0, 0x2b8, 0x3c0, 0x3c8, 0x3d0, 0x3d8]
        l mem := by
  rw [← bf888s_addrs_eq, run_blocks_append]
  simp only [BF888S.bf888s_upload]
  refine congrArg (Run.andThen _) ?_
  funext l1 m1
  rw [run_blocks_append]

/-- The function `bf888s_download`, with `read_with_timeout` of `baoclone.c`,
against a device that answers every block `a` with the data `dat a` and
acknowledges with `0x06`. -/
theorem bf888s_download_ok (l : Link) (mem : Mem) (dat : Nat → List Nat) (rest : List Nat)
    (pre tail : List (List Nat)) (addrs : List Nat)
    (haddrs : addrs = for_addrs 0x10 0x110 8 ++ (for_addrs 0x2b0 0x2c0 8 ++
      for_addrs 0x3c0 0x3e0 8))
    (hup : l.up = true) (hinp : l.inp = pre ++ tail) (hne : ∀ c ∈ pre, c ≠ [])
    (hdat : ∀ a, (dat a).length = 8)
    (hflat : pre.flatten =
      (addrs.map (fun a => [0x57, a / 256, a % 256, 8] ++ dat a ++ [0x06])).flatten ++ rest) :
    ∃ pre1, (∀ c ∈ pre1, c ≠ []) ∧ pre1.flatten = rest ∧
      BF888S.bf888s_download read_with_timeout l mem =
        ⟨none,
         ⟨l.up, l.sent ++ (addrs.map (fun a => [0x52, a / 256, a % 256, 8] ++ [0x06])).flatten,
          pre1 ++ tail⟩,
         addrs.foldl (fun m a => store m a (dat a))
           (store mem 0 (List.replicate 0x400 0xff))⟩ := by
  rw [bf888s_addrs_eq] at haddrs
  rw [bf888s_download_eq, ← haddrs]
  have h := run_blocks_spec
    (fun l addr m => BF888S.read_block read_with_timeout l addr m addr 8)
    (fun a => [0x57, a / 256, a % 256, 8] ++ dat a ++ [0x06])
    (fun a => [0x52, a / 256, a % 256, 8] ++ [0x06])
    (fun a m => store m a (dat a)) (fun a => a ≤ 0xFFFF) (fun _ => True)
    (by
      intro a l m rest pre tail hok _ hup hinp hne hflat
      obtain ⟨pre1, h1, h2, h3⟩ := bf888s_read_block_acked l a m a (dat a) rest 0x06 pre tail
        hup hok (hdat a) hinp hne hflat
      refine ⟨trivial, pre1, h1, h2, ?_⟩
      show BF888S.read_block read_with_timeout l a m a 8 =
        ⟨none, ⟨l.up, l.sent ++ ([0x52, a / 256, a % 256, 8] ++ [0x06]), pre1 ++ tail⟩,
         store m a (dat a)⟩
      rw [h3, List.append_assoc]
      rfl)
    addrs l (store mem 0 (List.replicate 0x400 0xff)) rest pre tail
    (by
      intro a ha
      rw [haddrs] at ha
      have := bf888s_addrs_span a ha
      omega)
    trivial hup hinp hne hflat
  exact h.2

/-- What `write_block` of `bf-888s.c`, with `read_with_timeout` of
`baoclone.c`, does when the radio answers the block with the byte `k`. -/
theorem bf888s_write_block_acked (l : Link) (a : Nat) (mem : Mem) (data n k : Nat)
    (rest : List Nat) (pre tail : List (List Nat))
    (hup : l.up = true) (ha : a ≤ 0xFFFF) (hn : n ≤ 255)
    (hinp : l.inp = pre ++ tail) (hne : ∀ c ∈ pre, c ≠ [])
    (hflat : pre.flatten = [k] ++ rest) :
    ∃ pre1, (∀ c ∈ pre1, c ≠ []) ∧ pre1.flatten = rest ∧
      BF888S.write_block read_with_timeout l a mem data n =
        ⟨if k % 256 = 0x06 then none else some Fatal.bad_acknowledge,
         ⟨l.up, l.sent ++ ([0x57, a / 256, a % 256, n] ++ bytes mem data n), pre1 ++ tail⟩,
         mem⟩ := by
  obtain ⟨pre1, h1, hne1, hflat1⟩ := read_with_timeout_deliver_tail
    ⟨l.up, l.sent ++ ([0x57, a / 256, a % 256, n] ++ bytes mem data n), l.inp⟩ pre tail
    [k] rest hinp hne hflat (by simp)
  refine ⟨pre1, hne1, hflat1, ?_⟩
  simp only [List.length_cons, List.length_nil] at h1
  rw [bf888s_write_block_eq read_with_timeout l a mem data n hup ha hn]
  simp only [h1]
  rw [if_neg (by simp)]
  by_cases hk : k % 256 = 0x06 <;> simp [uchar, hk]

/-- The function `bf888s_upload`, with `read_with_timeout` of `baoclone.c`,
against a device that acknowledges every block with `0x06`. -/
theorem bf888s_upload_ok (l : Link) (mem : Mem) (rest : List Nat)
    (pre tail : List (List Nat)) (addrs : List Nat)
    (haddrs : addrs = for_addrs 0x10 0x110 8 ++ (for_addrs 0x2b0 0x2c0 8 ++
      for_addrs 0x3c0 0x3e0 8))
    (hup : l.up = true) (hinp : l.inp = pre ++ tail) (hne : ∀ c ∈ pre, c ≠ [])
    (hflat : pre.flatten = (addrs.map (fun _ => [0x06])).flatten ++ rest) :
    ∃ pre1, (∀ c ∈ pre1, c ≠ []) ∧ pre1.flatten = rest ∧
      BF888S.bf888s_upload read_with_timeout l mem =
        ⟨none,
         ⟨l.up,
          l.sent ++ (addrs.map (fun a => [0x57, a / 256, a % 256, 8] ++ bytes mem a 8)).flatten,
          pre1 ++ tail⟩,
         mem⟩ := by
  rw [bf888s_addrs_eq] at haddrs
  rw [bf888s_upload_eq, ← haddrs]
  have h := run_blocks_spec
    (fun l addr m => BF888S.write_block read_with_timeout l addr m addr 8)
    (fun _ => [0x06])
    (fun a => [0x57, a / 256, a % 256, 8] ++ bytes mem a 8)
    (fun _ m => m) (fun a => a ≤ 0xFFFF) (fun m => m = mem)
    (by
      intro a l m rest pre tail hok hinv hup hinp hne hflat
      obtain ⟨pre1, h1, h2, h3⟩ := bf888s_write_block_acked l a m a 8 0x06 rest pre tail
        hup hok (by omega) hinp hne hflat
      refine ⟨hinv, pre1, h1, h2, ?_⟩
      show BF888S.write_block read_with_timeout l a m a 8 =
        ⟨none, ⟨l.up, l.sent ++ ([0x57, a / 256, a % 256, 8] ++ bytes mem a 8), pre1 ++ tail⟩,
         m⟩
      rw [h3, hinv]
      rfl)
    addrs l mem rest pre tail
    (by
      intro a ha
      rw [haddrs] at ha
      have := bf888s_addrs_span a ha
      omega)
    rfl hup hinp hne hflat
  obtain ⟨hm, pre1, h1, h2, h3⟩ := h
  refine ⟨pre1, h1, h2, ?_⟩
  rw [h3, hm]

/-- C19: BF-888S transfer spans. `bf888s_download` and `bf888s_upload` visit
the same 38 blocks of 8 bytes, at the addresses `0x10, 0x18, ..., 0x108`,
then `0x2B0, 0x2B8`, then `0x3C0, ..., 0x3D8`. Against a device that answers
every block, `bf888s_download` returns having requested exactly these blocks
in this order; every block is stored at its own address, every other byte
of `0..0x3FF`, that is every byte outside `[0x10,0x110)`, `[0x2B0,0x2C0)` and
`[0x3C0,0x3E0)`, is `0xFF`, and the memory from `0x400` on is unchanged.
Against a device that acknowledges every block, `bf888s_upload` returns
having sent, for the same addresses in the same order, the write command
followed by `mem[address..address+7]`. `read_with_timeout` is the one of
`baoclone.c`. -/
theorem C19_bf888s_transfer_spans (addrs : List Nat)
    (haddrs : addrs = for_addrs 0x10 0x110 8 ++ (for_addrs 0x2b0 0x2c0 8 ++
      for_addrs 0x3c0 0x3e0 8)) :
    (addrs =
      [0x10, 0x18, 0x20, 0x28, 0x30, 0x38, 0x40, 0x48, 0x50, 0x58, 0x60, 0x68, 0x70, 0x78,
       0x80, 0x88, 0x90, 0x98, 0xa0, 0xa8, 0xb0, 0xb8, 0xc0, 0xc8, 0xd0, 0xd8, 0xe0, 0xe8,
       0xf0, 0xf8, 0x100, 0x108, 0x2b0, 0x2b8, 0x3c0, 0x3c8, 0x3d0, 0x3d8] ∧
     addrs.length = 38) ∧
    (∀ (l : Link) (mem : Mem) (dat : Nat → List Nat) (rest : List Nat)
        (pre tail : List (List Nat)),
      l.up = true → l.inp = pre ++ tail → (∀ c ∈ pre, c ≠ []) → (∀ a, (dat a).length = 8) →
      pre.flatten =
        (addrs.map (fun a => [0x57, a / 256, a % 256, 8] ++ dat a ++ [0x06])).flatten ++ rest →
      (BF888S.bf888s_download read_with_timeout l mem).status = none ∧
      (BF888S.bf888s_download read_with_timeout l mem).link.sent =
        l.sent ++ (addrs.map (fun a => [0x52, a / 256, a % 256, 8] ++ [0x06])).flatten ∧
      (∀ a ∈ addrs, ∀ j, j < 8 →
        (BF888S.bf888s_download read_with_timeout l mem).mem (a + j) = (dat a).getD j 0) ∧
      (∀ x, x < 0x400 →
        ¬ ((0x10 ≤ x ∧ x < 0x110) ∨ (0x2b0 ≤ x ∧ x < 0x2c0) ∨ (0x3c0 ≤ x ∧ x < 0x3e0)) →
        (BF888S.bf888s_download read_with_timeout l mem).mem x = 0xff) ∧
      (∀ x, 0x400 ≤ x → (BF888S.bf888s_download read_with_timeout l mem).mem x = mem x)) ∧
    (∀ (l : Link) (mem : Mem) (rest : List Nat) (pre tail : List (List Nat)),
      l.up = true → l.inp = pre ++ tail → (∀ c ∈ pre, c ≠ []) →
      pre.flatten = (addrs.map (fun _ => [0x06])).flatten ++ rest →
      (BF888S.bf888s_upload read_with_timeout l mem).status = none ∧
      (BF888S.bf888s_upload read_with_timeout l mem).link.sent =
        l.sent ++
          (addrs.map (fun a => [0x57, a / 256, a % 256, 8] ++ bytes mem a 8)).flatten ∧
      (BF888S.bf888s_upload read_with_timeout l mem).mem = mem) := by
  have hex := haddrs
  rw [bf888s_addrs_eq] at hex
  refine ⟨⟨hex, by rw [hex]; rfl⟩, ?_, ?_⟩
  · intro l mem dat rest pre tail hup hinp hne hdat hflat
    obtain ⟨pre1, _, _, h⟩ :=
      bf888s_download_ok l mem dat rest pre tail addrs haddrs hup hinp hne hdat hflat
    rw [h]
    refine ⟨rfl, rfl, ?_, ?_, ?_⟩
    · intro a ha j hj
      exact foldl_store_inside dat 8 hdat addrs _ a j
        (by rw [hex]; exact bf888s_addrs_disjoint) ha hj
    · intro x hx hout
      show addrs.foldl (fun m a => store m a (dat a))
        (store mem 0 (List.replicate 0x400 0xff)) x = 0xff
      rw [foldl_store_outside dat 8 hdat addrs _ x
        (fun a ha => by
          have := bf888s_addrs_span a (by rw [← hex]; exact ha)
          omega)]
      have := (store_spec mem 0 (List.replicate 0x400 0xff)).1 x (by rw [List.length_replicate]; exact hx)
      rw [Nat.zero_add] at this
      rw [this, List.getD_eq_getElem?_getD, List.getElem?_replicate, if_pos hx]
      rfl
    · intro x hx
      show addrs.foldl (fun m a => store m a (dat a))
        (store mem 0 (List.replicate 0x400 0xff)) x = mem x
      rw [foldl_store_outside dat 8 hdat addrs _ x
        (fun a ha => by
          have := bf888s_addrs_span a (by rw [← hex]; exact ha)
          omega)]
      exact (store_spec mem 0 (List.replicate 0x400 0xff)).2 x (by rw [List.length_replicate]; omega)
  · intro l mem rest pre tail hup hinp hne hflat
    obtain ⟨pre1, _, _, h⟩ := bf888s_upload_ok l mem rest pre tail addrs haddrs hup hinp hne hflat
    rw [h]
    exact ⟨rfl, rfl, rfl⟩

/-- C19 at a device whose block `a` holds eight times the byte `a % 256`, one
chunk per block, and at a device that acknowledges 38 blocks: the download
returns, the byte at `0x2B7` comes from the block `0x2B0`, the byte at
`0x200`, outside the spans, is `0xFF`; the upload returns and keeps the
memory. -/
theorem C19_bf888s_transfer_spans_witness :
    (BF888S.bf888s_download read_with_timeout
      ⟨true, [], (for_addrs 0x10 0x110 8 ++ (for_addrs 0x2b0 0x2c0 8 ++
        for_addrs 0x3c0 0x3e0 8)).map
          (fun a => [0x57, a / 256, a % 256, 8] ++ List.replicate 8 (a % 256) ++ [0x06])⟩
      (fun _ => 0)).status = none ∧
    (BF888S.bf888s_download read_with_timeout
      ⟨true, [], (for_addrs 0x10 0x110 8 ++ (for_addrs 0x2b0 0x2c0 8 ++
        for_addrs 0x3c0 0x3e0 8)).map
          (fun a => [0x57, a / 256, a % 256, 8] ++ List.replicate 8 (a % 256) ++ [0x06])⟩
      (fun _ => 0)).mem (0x2b0 + 7) = (List.replicate 8 (0x2b0 % 256)).getD 7 0 ∧
    (BF888S.bf888s_download read_with_timeout
      ⟨true, [], (for_addrs 0x10 0x110 8 ++ (for_addrs 0x2b0 0x2c0 8 ++
        for_addrs 0x3c0 0x3e0 8)).map
          (fun a => [0x57, a / 256, a % 256, 8] ++ List.replicate 8 (a % 256) ++ [0x06])⟩
      (fun _ => 0)).mem 0x200 = 0xff ∧
    (BF888S.bf888s_upload read_with_timeout
      ⟨true, [], (for_addrs 0x10 0x110 8 ++ (for_addrs 0x2b0 0x2c0 8 ++
        for_addrs 0x3c0 0x3e0 8)).map (fun _ => [0x06])⟩
      (fun a => a % 256)).status = none :=
  have h := C19_bf888s_transfer_spans
    (for_addrs 0x10 0x110 8 ++ (for_addrs 0x2b0 0x2c0 8 ++ for_addrs 0x3c0 0x3e0 8)) rfl
  have hd := h.2.1
    ⟨true, [], (for_addrs 0x10 0x110 8 ++ (for_addrs 0x2b0 0x2c0 8 ++
      for_addrs 0x3c0 0x3e0 8)).map
        (fun a => [0x57, a / 256, a % 256, 8] ++ List.replicate 8 (a % 256) ++ [0x06])⟩
    (fun _ => 0) (fun a => List.replicate 8 (a % 256)) []
    ((for_addrs 0x10 0x110 8 ++ (for_addrs 0x2b0 0x2c0 8 ++ for_addrs 0x3c0 0x3e0 8)).map
        (fun a => [0x57, a / 256, a % 256, 8] ++ List.replicate 8 (a % 256) ++ [0x06])) []
    rfl (List.append_nil _).symm
    (fun c hc => by
      obtain ⟨a, _, rfl⟩ := List.mem_map.mp hc
      simp)
    (fun a => List.length_replicate 8 (a % 256)) (List.append_nil _).symm
  have hu := h.2.2
    ⟨true, [], (for_addrs 0x10 0x110 8 ++ (for_addrs 0x2b0 0x2c0 8 ++
      for_addrs 0x3c0 0x3e0 8)).map (fun _ => [0x06])⟩
    (fun a => a % 256) []
    ((for_addrs 0x10 0x110 8 ++ (for_addrs 0x2b0 0x2c0 8 ++ for_addrs 0x3c0 0x3e0 8)).map
      (fun _ => [0x06])) []
    rfl (List.append_nil _).symm
    (fun c hc => by
      obtain ⟨a, _, rfl⟩ := List.mem_map.mp hc
      simp)
    (List.append_nil _).symm
  ⟨hd.1, hd.2.2.1 0x2b0 (by decide) 7 (by decide), hd.2.2.2.1 0x200 (by decide) (by decide),
   hu.1⟩

/-- The byte at offset `a` of the file that `save_image` of `baoclone.c`
writes. -/
theorem uv5r_save_image_eq (ident mem : Mem) :
    bytes ident 0 8 ++ bytes mem 0 0x1800 ++ bytes mem 0x1EC0 (0x2000 - 0x1EC0) =
      (List.range (8 + 0x1800 + 0x140)).map (fun a =>
        if a < 8 then byte ident a
        else if a < 8 + 0x1800 then byte mem (a - 8)
        else byte mem (a - (8 + 0x1800) + 0x1EC0)) := by
  have hr : List.range (8 + 0x1800 + 0x140) =
      List.range' 0 8 ++ List.range' 8 0x1800 ++ List.range' (8 + 0x1800) (0x2000 - 0x1EC0) := by
    have h1 : List.range' 0 8 ++ List.range' 8 0x1800 = List.range' 0 (8 + 0x1800) :=
      List.range'_append_1 0 8 0x1800
    have h2 : List.range' 0 (8 + 0x1800) ++ List.range' (8 + 0x1800) (0x2000 - 0x1EC0) =
        List.range' 0 (8 + 0x1800 + 0x140) :=
      List.range'_append_1 0 (8 + 0x1800) (0x2000 - 0x1EC0)
    rw [h1, h2, List.range_eq_range']
  rw [hr]
  simp only [List.map_append]
  refine append_congr (append_congr ?_ ?_) ?_
  all_goals
    refine (bytes_eq_map_range' _ _ _ _).trans (map_range'_congr _ _ _ _ ?_)
    intro a h1 h2
    simp only [Nat.reduceSub, Nat.reduceAdd] at h1 h2
    split_ifs <;> first | omega | (refine congrArg (byte _) ?_; omega)

/-- Loading the file that `save_image` of `baoclone.c` writes: `load_image`
returns, and what it leaves in `image_ident` and in `mem`. -/
theorem uv5r_load_saved (ident mem image_ident0 mem0 : Mem) :
    (UV5R.load_image (some (UV5R.save_image true ident mem).2) image_ident0 mem0).status
      = none ∧
    (∀ j, (UV5R.load_image (some (UV5R.save_image true ident mem).2)
      image_ident0 mem0).ident j = if j < 8 then byte ident j else image_ident0 j) ∧
    (∀ a, (UV5R.load_image (some (UV5R.save_image true ident mem).2)
      image_ident0 mem0).mem a =
        if a < 0x1800 then byte mem a
        else if a < 0x1EC0 then mem0 a
        else if a < 0x2000 then byte mem a
        else mem0 a) := by
  have hfile : (UV5R.save_image true ident mem).2 =
      bytes ident 0 8 ++ bytes mem 0 0x1800 ++ bytes mem 0x1EC0 (0x2000 - 0x1EC0) := rfl
  rw [hfile]
  have hlen : (bytes ident 0 8 ++ bytes mem 0 0x1800 ++
      bytes mem 0x1EC0 (0x2000 - 0x1EC0)).length = 8 + 0x1800 + 0x140 := by
    simp only [List.length_append, bytes_length]
  have hg : ∀ a, a < 8 + 0x1800 + 0x140 →
      (bytes ident 0 8 ++ bytes mem 0 0x1800 ++ bytes mem 0x1EC0 (0x2000 - 0x1EC0)).getD a 0 =
        if a < 8 then byte ident a
        else if a < 8 + 0x1800 then byte mem (a - 8)
        else byte mem (a - (8 + 0x1800) + 0x1EC0) := by
    intro a h
    rw [uv5r_save_image_eq, List.getD_eq_getElem?_getD, List.getElem?_map,
      List.getElem?_range h]
    rfl
  generalize bytes ident 0 8 ++ bytes mem 0 0x1800 ++ bytes mem 0x1EC0 (0x2000 - 0x1EC0) = f
    at hlen hg
  have h1 : (f.take 8).length = 8 := by rw [List.length_take]; omega
  have h2 : ((f.drop 8).take 0x1800).length = 0x1800 := by
    rw [List.length_take, List.length_drop]; omega
  have h3 : (((f.drop 8).drop 0x1800).take (0x2000 - 0x1EC0)).length = 0x2000 - 0x1EC0 := by
    rw [List.length_take, List.length_drop, List.length_drop]; omega
  have hdd : (f.drop 8).drop 0x1800 = f.drop (8 + 0x1800) := by rw [List.drop_drop]
  have hid : ∀ j, store image_ident0 0 (f.take 8) j =
      if 0 ≤ j ∧ j < 0 + 8 then f.getD (0 + (j - 0)) 0 else image_ident0 j := by
    intro j
    have := store_take_drop image_ident0 0 0 8 f j (by omega)
    rwa [List.drop_zero] at this
  have hm1 : ∀ a, store mem0 0 ((f.drop 8).take 0x1800) a =
      if 0 ≤ a ∧ a < 0 + 0x1800 then f.getD (8 + (a - 0)) 0 else mem0 a :=
    fun a => store_take_drop mem0 0 8 0x1800 f a (by omega)
  have hm2 : ∀ a, store (store mem0 0 ((f.drop 8).take 0x1800)) 0x1EC0
      (((f.drop 8).drop 0x1800).take (0x2000 - 0x1EC0)) a =
      if 0x1EC0 ≤ a ∧ a < 0x1EC0 + (0x2000 - 0x1EC0) then
        f.getD (8 + 0x1800 + (a - 0x1EC0)) 0
      else store mem0 0 ((f.drop 8).take 0x1800) a := by
    intro a
    rw [hdd]
    exact store_take_drop _ 0x1EC0 (8 + 0x1800) (0x2000 - 0x1EC0) f a (by omega)
  simp only [UV5R.load_image, fread, h1, h2, h3, ne_eq, not_true_eq_false, if_false]
  refine ⟨trivial, ?_, ?_⟩
  · intro j
    rw [hid]
    by_cases hj : j < 8
    · rw [if_pos (by omega), if_pos hj, hg _ (by omega), if_pos (by omega)]
      exact congrArg (byte ident) (by omega)
    · rw [if_neg (by omega), if_neg hj]
  · intro a
    rw [hm2]
    by_cases ha : 0x1EC0 ≤ a ∧ a < 0x1EC0 + (0x2000 - 0x1EC0)
    · rw [if_pos ha, hg _ (by omega), if_neg (by omega), if_neg (by omega),
        if_neg (by omega), if_neg (by omega), if_pos (by omega)]
      exact congrArg (byte mem) (by omega)
    · rw [if_neg ha, hm1]
      by_cases hb : a < 0x1800
      · rw [if_pos (by omega), if_pos hb, hg _ (by omega), if_neg (by omega),
          if_pos (by omega)]
        exact congrArg (byte mem) (by omega)
      · rw [if_neg (by omega), if_neg hb]
        split_ifs <;> omega

/-- Membership in the address list of a loop. -/
theorem mem_for_addrs (start stop step a : Nat) :
    a ∈ for_addrs start stop step ↔
      ∃ k, k < (stop - start + step - 1) / step ∧ a = start + k * step := by
  simp only [for_addrs, List.mem_map, List.mem_range]
  constructor
  · rintro ⟨k, hk, rfl⟩; exact ⟨k, hk, rfl⟩
  · rintro ⟨k, hk, rfl⟩; exact ⟨k, hk, rfl⟩

/-- A memory span is the concatenation of its two parts. -/
theorem bytes_append (m : Mem) (p a b : Nat) :
    bytes m p (a + b) = bytes m p a ++ bytes m (p + a) b := by
  rw [bytes_eq_map_range' m p (a + b) 0, bytes_eq_map_range' m p a 0,
    bytes_eq_map_range' m (p + a) b a, Nat.add_comm a b, ← List.range'_append_1 0 a b,
    List.map_append, Nat.zero_add]
  refine append_congr rfl (map_range'_congr _ _ _ _ ?_)
  intro x h1 h2
  exact congrArg (byte m) (by omega)

/-- The blocks of `n` bytes at `s, s+n, ...` make up the span that starts at
`s`. -/
theorem blocks_flatten (m : Mem) (s n : Nat) :
    ∀ c, (((List.range c).map (fun k => s + k * n)).map (fun a => bytes m a n)).flatten =
      bytes m s (c * n) := by
  intro c
  induction c with
  | zero => simp [bytes]
  | succ c ih =>
    rw [List.range_succ, List.map_append, List.map_append, List.flatten_append, ih,
      Nat.succ_mul, bytes_append]
    simp

/-- The memory after storing, block by block, the content `img` of the
device: the cells inside a block hold the bytes of `img`. -/
theorem foldl_store_image (img : Mem) (n : Nat) :
    ∀ (addrs : List Nat) (m : Mem) (x : Nat),
      addrs.foldl (fun m a => store m a (bytes img a n)) m x =
        if ∃ a ∈ addrs, a ≤ x ∧ x < a + n then byte img x else m x := by
  intro addrs
  induction addrs with
  | nil => intro m x; simp
  | cons b bs ih =>
    intro m x
    rw [List.foldl_cons, ih]
    by_cases hbs : ∃ a ∈ bs, a ≤ x ∧ x < a + n
    · obtain ⟨a, ha, hax⟩ := hbs
      rw [if_pos ⟨a, ha, hax⟩, if_pos ⟨a, List.mem_cons_of_mem _ ha, hax⟩]
    · rw [if_neg hbs]
      by_cases hb : b ≤ x ∧ x < b + n
      · rw [if_pos ⟨b, List.mem_cons_self _ _, hb⟩]
        have := (store_spec m b (bytes img b n)).1 (x - b) (by rw [bytes_length]; omega)
        rw [show b + (x - b) = x by omega] at this
        rw [this, bytes_getD _ _ _ _ (by omega)]
        exact congrArg (byte img) (by omega)
      · have hno : ¬ ∃ a ∈ b :: bs, a ≤ x ∧ x < a + n := by
          rintro ⟨a, ha, hax⟩
          rcases List.mem_cons.mp ha with h | h
          · subst h; exact hb hax
          · exact hbs ⟨a, h, hax⟩
        rw [if_neg hno]
        exact (store_spec m b (bytes img b n)).2 x (by rw [bytes_length]; omega)

/-- The blocks that `read_device` visits cover exactly `[0,0x1800)` and
`[0x1EC0,0x2000)`. -/
theorem uv5r_addrs_cover (x : Nat) :
    (∃ a ∈ for_addrs 0 0x1800 0x40 ++ for_addrs 0x1EC0 0x2000 0x40, a ≤ x ∧ x < a + 0x40) ↔
      (x < 0x1800 ∨ (0x1EC0 ≤ x ∧ x < 0x2000)) := by
  constructor
  · rintro ⟨a, ha, h1, h2⟩
    rcases List.mem_append.mp ha with h | h
    · obtain ⟨k, hk, rfl⟩ := (mem_for_addrs _ _ _ _).mp h
      simp only [Nat.reduceSub, Nat.reduceAdd, Nat.reduceDiv] at hk
      omega
    · obtain ⟨k, hk, rfl⟩ := (mem_for_addrs _ _ _ _).mp h
      simp only [Nat.reduceSub, Nat.reduceAdd, Nat.reduceDiv] at hk
      omega
  · rintro (h | h)
    · refine ⟨0 + x / 0x40 * 0x40, List.mem_append_left _
        ((mem_for_addrs _ _ _ _).mpr ⟨x / 0x40, ?_, rfl⟩), by omega, by omega⟩
      simp only [Nat.reduceSub, Nat.reduceAdd, Nat.reduceDiv]
      omega
    · refine ⟨0x1EC0 + (x - 0x1EC0) / 0x40 * 0x40, List.mem_append_right _
        ((mem_for_addrs _ _ _ _).mpr ⟨(x - 0x1EC0) / 0x40, ?_, rfl⟩), by omega, by omega⟩
      simp only [Nat.reduceSub, Nat.reduceAdd, Nat.reduceDiv]
      omega

/-- The function `read_device` against a device with the memory `img` that
answers every block and acknowledges with `0x06`. -/
theorem uv5r_read_device_ok (l : Link) (mem img : Mem) (rest : List Nat)
    (pre tail : List (List Nat)) (addrs : List Nat)
    (haddrs : addrs = for_addrs 0 0x1800 0x40 ++ for_addrs 0x1EC0 0x2000 0x40)
    (hup : l.up = true) (hinp : l.inp = pre ++ tail) (hne : ∀ c ∈ pre, c ≠ [])
    (hflat : pre.flatten =
      (addrs.map (fun a => [0x58, a / 256, a % 256, 0x40] ++ bytes img a 0x40 ++ [0x06])).flatten
        ++ rest) :
    ∃ pre1, (∀ c ∈ pre1, c ≠ []) ∧ pre1.flatten = rest ∧
      UV5R.read_device l mem =
        ⟨none,
         ⟨l.up,
          l.sent ++ (addrs.map (fun a => [0x53, a / 256, a % 256, 0x40] ++ [0x06])).flatten,
          pre1 ++ tail⟩,
         addrs.foldl (fun m a => store m a (bytes img a 0x40)) mem⟩ := by
  have hrd : UV5R.read_device l mem =
      run_blocks (fun l addr m => UV5R.read_block l addr m addr 0x40) addrs l mem := by
    rw [haddrs, run_blocks_append]
    rfl
  rw [hrd]
  have h := run_blocks_spec
    (fun l addr m => UV5R.read_block l addr m addr 0x40)
    (fun a => [0x58, a / 256, a % 256, 0x40] ++ bytes img a 0x40 ++ [0x06])
    (fun a => [0x53, a / 256, a % 256, 0x40] ++ [0x06])
    (fun a m => store m a (bytes img a 0x40)) (fun a => a ≤ 0xFFFF) (fun _ => True)
    (by
      intro a l m rest pre tail hok _ hup hinp hne hflat
      obtain ⟨pre1, h1, h2, h3⟩ := uv5r_read_block_acked l a m a (bytes img a 0x40) rest 0x06
        pre tail hup hok (bytes_length _ _ _) hinp hne hflat
      refine ⟨trivial, pre1, h1, h2, ?_⟩
      show UV5R.read_block l a m a 0x40 =
        ⟨none, ⟨l.up, l.sent ++ ([0x53, a / 256, a % 256, 0x40] ++ [0x06]), pre1 ++ tail⟩,
         store m a (bytes img a 0x40)⟩
      rw [h3, List.append_assoc]
      rfl)
    addrs l mem rest pre tail
    (by
      intro a ha
      rw [haddrs] at ha
      rcases List.mem_append.mp ha with h | h
      · obtain ⟨k, hk, rfl⟩ := (mem_for_addrs _ _ _ _).mp h
        simp only [Nat.reduceSub, Nat.reduceAdd, Nat.reduceDiv] at hk
        omega
      · obtain ⟨k, hk, rfl⟩ := (mem_for_addrs _ _ _ _).mp h
        simp only [Nat.reduceSub, Nat.reduceAdd, Nat.reduceDiv] at hk
        omega)
    trivial hup hinp hne hflat
  exact h.2

/-- C18: UV-5R image round trip. `save_image`, when the file can be opened,
writes exactly `8 + 0x1800 + 0x140` bytes: the 8-byte identifier, then
`mem[0..0x17FF]`, then `mem[0x1EC0..0x1FFF]`. These are the blocks that
`read_device` transfers, in transfer order: against a device that answers
every block, `read_device` requests the blocks of `0x40` bytes at
`0, 0x40, ..., 0x17C0` and then at `0x1EC0, ..., 0x1FC0`, and fills exactly
`[0,0x1800)` and `[0x1EC0,0x2000)`. `load_image` of the saved file returns
with `image_ident` equal to the saved identifier and a memory equal to the
original on `[0,0x1800)` and `[0x1EC0,0x2000)`, and leaves the bytes at
`0x1800..0x1EBF` unchanged. -/
theorem C18_uv5r_image_round_trip (ident mem : Mem) :
    (UV5R.save_image true ident mem).1 = none ∧
    (UV5R.save_image true ident mem).2 =
      bytes ident 0 8 ++ bytes mem 0 0x1800 ++ bytes mem 0x1EC0 0x140 ∧
    (UV5R.save_image true ident mem).2.length = 8 + 0x1800 + 0x140 ∧
    (UV5R.save_image true ident mem).2 =
      bytes ident 0 8 ++
        ((for_addrs 0 0x1800 0x40 ++ for_addrs 0x1EC0 0x2000 0x40).map
          (fun a => bytes mem a 0x40)).flatten ∧
    (∀ (l : Link) (mem0 img : Mem) (rest : List Nat) (pre tail : List (List Nat)),
      l.up = true → l.inp = pre ++ tail → (∀ c ∈ pre, c ≠ []) →
      pre.flatten =
        ((for_addrs 0 0x1800 0x40 ++ for_addrs 0x1EC0 0x2000 0x40).map
          (fun a => [0x58, a / 256, a % 256, 0x40] ++ bytes img a 0x40 ++ [0x06])).flatten
          ++ rest →
      (UV5R.read_device l mem0).status = none ∧
      (UV5R.read_device l mem0).link.sent =
        l.sent ++ ((for_addrs 0 0x1800 0x40 ++ for_addrs 0x1EC0 0x2000 0x40).map
          (fun a => [0x53, a / 256, a % 256, 0x40] ++ [0x06])).flatten ∧
      (∀ x, x < 0x1800 ∨ (0x1EC0 ≤ x ∧ x < 0x2000) →
        (UV5R.read_device l mem0).mem x = byte img x) ∧
      (∀ x, ¬ (x < 0x1800 ∨ (0x1EC0 ≤ x ∧ x < 0x2000)) →
        (UV5R.read_device l mem0).mem x = mem0 x)) ∧
    (∀ (image_ident0 mem0 : Mem),
      (UV5R.load_image (some (UV5R.save_image true ident mem).2) image_ident0 mem0).status
        = none ∧
      (∀ j, j < 8 →
        (UV5R.load_image (some (UV5R.save_image true ident mem).2) image_ident0 mem0).ident j
          = byte ident j) ∧
      (∀ a, a < 0x1800 ∨ (0x1EC0 ≤ a ∧ a < 0x2000) →
        (UV5R.load_image (some (UV5R.save_image true ident mem).2) image_ident0 mem0).mem a
          = byte mem a) ∧
      (∀ a, 0x1800 ≤ a → a < 0x1EC0 →
        (UV5R.load_image (some (UV5R.save_image true ident mem).2) image_ident0 mem0).mem a
          = mem0 a)) := by
  refine ⟨rfl, rfl, ?_, ?_, ?_, ?_⟩
  · show (bytes ident 0 8 ++ bytes mem 0 0x1800 ++ bytes mem 0x1EC0 (0x2000 - 0x1EC0)).length = _
    simp only [List.length_append, bytes_length]
  · show bytes ident 0 8 ++ bytes mem 0 0x1800 ++ bytes mem 0x1EC0 (0x2000 - 0x1EC0) = _
    have hA := blocks_flatten mem 0 0x40 96
    have hB := blocks_flatten mem 0x1EC0 0x40 5
    rw [List.map_append, List.flatten_append, List.append_assoc]
    exact congrArg (bytes ident 0 8 ++ ·) (append_congr hA.symm hB.symm)
  · intro l mem0 img rest pre tail hup hinp hne hflat
    obtain ⟨pre1, _, _, h⟩ := uv5r_read_device_ok l mem0 img rest pre tail _ rfl hup hinp hne hflat
    rw [h]
    refine ⟨rfl, rfl, ?_, ?_⟩
    · intro x hx
      exact (foldl_store_image img 0x40 _ mem0 x).trans (if_pos ((uv5r_addrs_cover x).mpr hx))
    · intro x hx
      exact (foldl_store_image img 0x40 _ mem0 x).trans
        (if_neg (fun h => hx ((uv5r_addrs_cover x).mp h)))
  · intro image_ident0 mem0
    obtain ⟨h1, h2, h3⟩ := uv5r_load_saved ident mem image_ident0 mem0
    refine ⟨h1, ?_, ?_, ?_⟩
    · intro j hj
      rw [h2, if_pos hj]
    · intro a ha
      rw [h3]
      rcases ha with ha | ha
      · rw [if_pos ha]
      · rw [if_neg (by omega), if_neg (by omega), if_pos ha.2]
    · intro a ha1 ha2
      rw [h3, if_neg (by omega), if_pos ha2]

/-- C18 at the memory that holds `a % 251` at address `a` and the identifier
`0x50 + j`: after saving and loading, address `0x1EC0` holds the saved byte
and address `0x1800` is untouched. -/
theorem C18_uv5r_image_round_trip_witness :
    (UV5R.load_image (some (UV5R.save_image true (fun j => 0x50 + j) (fun a => a % 251)).2)
      (fun _ => 0) (fun _ => 0x77)).mem 0x1EC0 = byte (fun a => a % 251) 0x1EC0 ∧
    (UV5R.load_image (some (UV5R.save_image true (fun j => 0x50 + j) (fun a => a % 251)).2)
      (fun _ => 0) (fun _ => 0x77)).mem 0x1800 = (fun _ => 0x77) 0x1800 :=
  have h := (C18_uv5r_image_round_trip (fun j => 0x50 + j) (fun a => a % 251)).2.2.2.2.2
    (fun _ => 0) (fun _ => 0x77)
  ⟨h.2.2.1 0x1EC0 (Or.inr ⟨by decide, by decide⟩), h.2.2.2 0x1800 (by decide) (by decide)⟩

/-! ### Band limits -/

/-- The four decimal digits packed in two BCD bytes. -/
theorem bcd4_digits (msb lsb d3 d2 d1 d0 : Nat) (h2 : d2 ≤ 9) (h0 : d0 ≤ 9)
    (hm : msb = 16 * d3 + d2) (hl : lsb = 16 * d1 + d0) (h3 : d3 ≤ 9) (h1 : d1 ≤ 9) :
    ((msb >>> 4) &&& 15) * 1000 + (msb &&& 15) * 100 + ((lsb >>> 4) &&& 15) * 10 + (lsb &&& 15)
      = 1000 * d3 + 100 * d2 + 10 * d1 + d0 := by
  simp only [low_nibble_eq, Nat.shiftRight_eq_div_pow, Nat.reducePow]
  subst hm hl
  omega

/-- C20: UV-5R `decode_limits` reads a 5-byte record whose address depends on
the band and on the firmware revision: `0x1FCA` (VHF, band `V`) and `0x1FDA`
(UHF, any other band) when `is_original` is set, `0x1FC0` (VHF) and `0x1FC5`
(UHF) otherwise. `enable` is byte 0 of the record; each bound is the 4-digit
number formed by the four nibbles of its two bytes read most significant
first, the lower bound from the bytes 1 and 2, the upper bound from the bytes
3 and 4, so for decimal nibbles each bound lies in `0..9999`; the VHF and the
UHF record of a revision do not overlap. -/
theorem C20_decode_limits (mem : Mem) (is_original : Int) (band : Char) :
    (UV5R.limits_offset is_original band =
      if is_original ≠ 0 then (if band = 'V' then 0x1FCA else 0x1FDA)
      else (if band = 'V' then 0x1FC0 else 0x1FC5)) ∧
    (UV5R.decode_limits mem is_original band).enable =
      byte mem (UV5R.limits_offset is_original band) ∧
    (∀ d3 d2 d1 d0 : Nat, d3 ≤ 9 → d2 ≤ 9 → d1 ≤ 9 → d0 ≤ 9 →
      byte mem (UV5R.limits_offset is_original band + 1) = 16 * d3 + d2 →
      byte mem (UV5R.limits_offset is_original band + 2) = 16 * d1 + d0 →
      (UV5R.decode_limits mem is_original band).lower =
        ((1000 * d3 + 100 * d2 + 10 * d1 + d0 : Nat) : Int) ∧
      0 ≤ (UV5R.decode_limits mem is_original band).lower ∧
      (UV5R.decode_limits mem is_original band).lower ≤ 9999) ∧
    (∀ d3 d2 d1 d0 : Nat, d3 ≤ 9 → d2 ≤ 9 → d1 ≤ 9 → d0 ≤ 9 →
      byte mem (UV5R.limits_offset is_original band + 3) = 16 * d3 + d2 →
      byte mem (UV5R.limits_offset is_original band + 4) = 16 * d1 + d0 →
      (UV5R.decode_limits mem is_original band).upper =
        ((1000 * d3 + 100 * d2 + 10 * d1 + d0 : Nat) : Int) ∧
      0 ≤ (UV5R.decode_limits mem is_original band).upper ∧
      (UV5R.decode_limits mem is_original band).upper ≤ 9999) ∧
    (band ≠ 'V' →
      UV5R.limits_offset is_original 'V' + 5 ≤ UV5R.limits_offset is_original band ∨
      UV5R.limits_offset is_original band + 5 ≤ UV5R.limits_offset is_original 'V') := by
  refine ⟨?_, rfl, ?_, ?_, ?_⟩
  · unfold UV5R.limits_offset
    split_ifs <;> rfl
  · intro d3 d2 d1 d0 h3 h2 h1 h0 hm hl
    have h := bcd4_digits _ _ d3 d2 d1 d0 h2 h0 hm hl h3 h1
    have hdef : (UV5R.decode_limits mem is_original band).lower =
        ((((byte mem (UV5R.limits_offset is_original band + 1) >>> 4) &&& 15) * 1000 +
          (byte mem (UV5R.limits_offset is_original band + 1) &&& 15) * 100 +
          ((byte mem (UV5R.limits_offset is_original band + 2) >>> 4) &&& 15) * 10 +
          (byte mem (UV5R.limits_offset is_original band + 2) &&& 15) : Nat) : Int) := rfl
    rw [hdef, h]
    omega
  · intro d3 d2 d1 d0 h3 h2 h1 h0 hm hl
    have h := bcd4_digits _ _ d3 d2 d1 d0 h2 h0 hm hl h3 h1
    have hdef : (UV5R.decode_limits mem is_original band).upper =
        ((((byte mem (UV5R.limits_offset is_original band + 3) >>> 4) &&& 15) * 1000 +
          (byte mem (UV5R.limits_offset is_original band + 3) &&& 15) * 100 +
          ((byte mem (UV5R.limits_offset is_original band + 4) >>> 4) &&& 15) * 10 +
          (byte mem (UV5R.limits_offset is_original band + 4) &&& 15) : Nat) : Int) := rfl
    rw [hdef, h]
    omega
  · intro hb
    unfold UV5R.limits_offset
    by_cases ho : is_original ≠ 0
    · simp only [if_pos ho, if_neg hb, if_true]
      omega
    · simp only [if_neg ho, if_neg hb, if_true]
      omega

/-- C20 at a memory of the newer firmware whose VHF record is
`01 01 36 01 74` (136..174) and whose UHF record is `01 04 00 05 20`
(400..520). -/
theorem C20_decode_limits_witness :
    (UV5R.decode_limits
      (store (fun _ => 0) 0x1FC0 [1, 0x01, 0x36, 0x01, 0x74, 1, 0x04, 0x00, 0x05, 0x20])
      0 'V').lower = ((1000 * 0 + 100 * 1 + 10 * 3 + 6 : Nat) : Int) ∧
    (UV5R.decode_limits
      (store (fun _ => 0) 0x1FC0 [1, 0x01, 0x36, 0x01, 0x74, 1, 0x04, 0x00, 0x05, 0x20])
      0 'U').upper = ((1000 * 0 + 100 * 5 + 10 * 2 + 0 : Nat) : Int) :=
  ⟨((C20_decode_limits
      (store (fun _ => 0) 0x1FC0 [1, 0x01, 0x36, 0x01, 0x74, 1, 0x04, 0x00, 0x05, 0x20])
      0 'V').2.2.1 0 1 3 6 (by decide) (by decide) (by decide) (by decide)
      (by decide) (by decide)).1,
   ((C20_decode_limits
      (store (fun _ => 0) 0x1FC0 [1, 0x01, 0x36, 0x01, 0x74, 1, 0x04, 0x00, 0x05, 0x20])
      0 'U').2.2.2.1 0 5 2 0 (by decide) (by decide) (by decide) (by decide)
      (by decide) (by decide)).1⟩

/-! ### Channel names -/

/-- The C string of a buffer that starts with non-NUL bytes followed by a NUL. -/
theorem cstr_append_zero (xs rest : List Nat) (hx : ∀ x ∈ xs, x ≠ 0) :
    cstr (xs ++ 0 :: rest) = xs := by
  unfold cstr
  rw [List.takeWhile_append_of_pos (fun a ha => by simpa using hx a ha)]
  simp

/-- The bytes of a C string are not NUL. -/
theorem cstr_ne_zero (buf : List Nat) : ∀ x ∈ cstr buf, x ≠ 0 := by
  intro x hx
  have h := List.mem_takeWhile_imp hx
  simpa using h

/-- A buffer without NUL is its own C string. -/
theorem cstr_eq_self (xs : List Nat) (hx : 0 ∉ xs) : cstr xs = xs := by
  unfold cstr
  rw [List.takeWhile_eq_self_iff]
  intro x hxs
  have : x ≠ 0 := fun h => hx (h ▸ hxs)
  simpa using this

/-- The C string of a buffer that holds a NUL is shorter than the buffer. -/
theorem cstr_length_lt (xs : List Nat) (hx : 0 ∈ xs) : (cstr xs).length < xs.length := by
  induction xs with
  | nil => simp at hx
  | cons a t ih =>
    by_cases ha : a = 0
    · subst ha
      simp [cstr]
    · have ht : 0 ∈ t := by
        rcases List.mem_cons.mp hx with h | h
        · exact absurd h.symm ha
        · exact h
      have h1 : cstr (a :: t) = a :: cstr t := by
        simp [cstr, ha]
      rw [h1]
      simpa using ih ht

/-- The loop that strips trailing FF's, on a buffer whose first `xs.length`
bytes `xs` are not NUL and are followed by a NUL: the string left is `xs`
without its trailing FF's. -/
theorem strip_ff_full (xs : List Nat) :
    ∀ rest : List Nat, (∀ x ∈ xs, x ≠ 0) →
      cstr (UV5R.strip_ff (xs ++ 0 :: rest) xs.length) = xs.rdropWhile (fun c => c == 0xff) := by
  induction xs using List.reverseRecOn with
  | nil =>
    intro rest _
    simp [UV5R.strip_ff, cstr]
  | append_singleton ys a ih =>
    intro rest hx
    have hys : ∀ x ∈ ys, x ≠ 0 := fun x h => hx x (List.mem_append_left _ h)
    have hget : (ys ++ [a] ++ 0 :: rest).getD ys.length 0 = a := by
      rw [List.getD_eq_getElem?_getD, List.append_assoc,
        List.getElem?_append_right (Nat.le_refl _), Nat.sub_self]
      rfl
    rw [List.length_append, List.length_singleton]
    simp only [UV5R.strip_ff, hget]
    rw [List.rdropWhile_concat]
    by_cases ha : a = 0xff
    · have hset : (ys ++ [a] ++ 0 :: rest).set ys.length 0 = ys ++ 0 :: 0 :: rest := by
        simp [List.set_append_right]
      rw [if_pos ha, hset, ih (0 :: rest) hys, if_pos (by simp [ha])]
    · rw [if_neg ha, if_neg (by simpa using ha)]
      exact cstr_append_zero _ _ hx

/-- The loop that strips trailing FF's stops at once on a buffer whose
byte 6 is NUL. -/
theorem strip_ff_short (buf : List Nat) (h : buf.getD 6 0 = 0) :
    UV5R.strip_ff buf 7 = buf := by
  have h1 : UV5R.strip_ff buf 7 =
      if buf.getD 6 0 = 0xff then UV5R.strip_ff (buf.set 6 0) 6 else buf := rfl
  rw [h1, h, if_neg (by decide)]

/-- The name that `decode_channel` of `baoclone.c` extracts from the 7 name
bytes `src`: when they hold a NUL, the bytes before it, trailing FF's
included; otherwise `src` without its trailing FF's. -/
theorem uv5r_name_eq (src rest : List Nat) (hlen : src.length = 7) :
    cstr (UV5R.strip_ff (UV5R.strncpy src 7 ++ 0 :: rest) 7) =
      if 0 ∈ src then cstr src else src.rdropWhile (fun c => c == 0xff) := by
  have htake : src.take 7 = src := List.take_of_length_le (by omega)
  by_cases h0 : 0 ∈ src
  · rw [if_pos h0]
    have hlt := cstr_length_lt src h0
    have hbuf : UV5R.strncpy src 7 ++ 0 :: rest =
        cstr src ++ 0 :: (List.replicate (7 - (cstr src).length - 1) 0 ++ 0 :: rest) := by
      simp only [UV5R.strncpy, htake]
      have : 7 - (cstr src).length = (7 - (cstr src).length - 1) + 1 := by omega
      rw [this, List.replicate_succ]
      simp
    have h6 : (UV5R.strncpy src 7 ++ 0 :: rest).getD 6 0 = 0 := by
      simp only [UV5R.strncpy, htake]
      rw [List.getD_eq_getElem?_getD, List.append_assoc,
        List.getElem?_append_right (by omega), List.getElem?_append_left (by simp; omega)]
      rw [List.getElem?_replicate, if_pos (by omega)]
      rfl
    rw [strip_ff_short _ h6, hbuf]
    exact cstr_append_zero _ _ (cstr_ne_zero src)
  · rw [if_neg h0]
    have hs : UV5R.strncpy src 7 = src := by
      simp [UV5R.strncpy, htake, cstr_eq_self src h0, hlen]
    rw [hs, ← hlen]
    exact strip_ff_full src rest (fun x hx hx0 => h0 (hx0 ▸ hx))

/-- The name field of an enabled channel, as `decode_channel` of `baoclone.c`
leaves it. -/
theorem uv5r_decode_channel_name (beyond : Nat → Int) (mem : Mem) (i : Nat) (o : UV5R.Channel)
    (h : ¬ (rd32 mem (16 * i) = 0 ∨ rd32 mem (16 * i) = 0xffffffff)) :
    cstr (UV5R.decode_channel beyond mem i o).name =
      if 0 ∈ bytes mem (0x1000 + i * 16) 7 then cstr (bytes mem (0x1000 + i * 16) 7)
      else (bytes mem (0x1000 + i * 16) 7).rdropWhile (fun c => c == 0xff) := by
  have key := uv5r_name_eq (bytes mem (0x1000 + i * 16) 7)
    ((0 :: o.name.drop 1).drop 8) (bytes_length _ _ _)
  simp only [UV5R.decode_channel, if_neg h]
  exact key

/-- C21: the name that UV-5R `decode_channel` extracts for an enabled slot `i`
from the 7 name bytes at `0x1000 + 16*i`. The name has at most 7 characters.
When none of the 7 bytes is NUL, the name is the 7 bytes without their
trailing `0xFF` padding and does not end with a `0xFF` byte. When the bytes
hold a NUL, the name is the bytes before the first NUL and the loop that strips
the padding does nothing: for the name bytes `41 FF 00 00 00 00 00` the
decoded name is `41 FF`, which ends with a `0xFF` byte. -/
theorem C21_uv5r_channel_name :
    (∀ (beyond : Nat → Int) (mem : Mem) (i : Nat) (o : UV5R.Channel),
      ¬ (rd32 mem (16 * i) = 0 ∨ rd32 mem (16 * i) = 0xffffffff) →
      (cstr (UV5R.decode_channel beyond mem i o).name).length ≤ 7 ∧
      (0 ∉ bytes mem (0x1000 + i * 16) 7 →
        cstr (UV5R.decode_channel beyond mem i o).name =
          (bytes mem (0x1000 + i * 16) 7).rdropWhile (fun c => c == 0xff) ∧
        (cstr (UV5R.decode_channel beyond mem i o).name).getLast? ≠ some 0xff) ∧
      (0 ∈ bytes mem (0x1000 + i * 16) 7 →
        cstr (UV5R.decode_channel beyond mem i o).name = cstr (bytes mem (0x1000 + i * 16) 7))) ∧
    cstr (UV5R.decode_channel (fun _ => 0)
      (store (store (fun _ => 0) 0 [0x00, 0x50, 0x62, 0x14]) 0x1000 [0x41, 0xff, 0, 0, 0, 0, 0]) 0
      ⟨List.replicate 17 0x55, 1, 2, 3, 4, 5, 6, 7, 8, 9, 10, 11, 12⟩).name = [0x41, 0xff] := by
  refine ⟨?_, by decide⟩
  intro beyond mem i o h
  have key := uv5r_decode_channel_name beyond mem i o h
  refine ⟨?_, ?_, ?_⟩
  · rw [key]
    split
    · exact (List.takeWhile_prefix _).length_le.trans (bytes_length _ _ _).le
    · exact (List.rdropWhile_prefix _ _).length_le.trans (bytes_length _ _ _).le
  · intro h0
    rw [key, if_neg h0]
    refine ⟨rfl, ?_⟩
    intro hl
    have ne : (bytes mem (0x1000 + i * 16) 7).rdropWhile (fun c => c == 0xff) ≠ [] := by
      intro e
      rw [e] at hl
      simp at hl
    have hnot := List.rdropWhile_last_not (fun c => c == 0xff) _ ne
    rw [List.getLast?_eq_getLast _ ne] at hl
    rw [Option.some.inj hl] at hnot
    exact hnot rfl
  · intro h0
    rw [key, if_pos h0]

/-- C21 at an enabled slot 0 whose name bytes are `41 42 43 FF FF FF FF`: the
decoded name is `41 42 43`. -/
theorem C21_uv5r_channel_name_witness :
    ¬ (rd32 (store (store (fun _ => 0) 0 [0x00, 0x50, 0x62, 0x14]) 0x1000
          [0x41, 0x42, 0x43, 0xff, 0xff, 0xff, 0xff]) (16 * 0) = 0 ∨
       rd32 (store (store (fun _ => 0) 0 [0x00, 0x50, 0x62, 0x14]) 0x1000
          [0x41, 0x42, 0x43, 0xff, 0xff, 0xff, 0xff]) (16 * 0) = 0xffffffff) ∧
    cstr (UV5R.decode_channel (fun _ => 0)
      (store (store (fun _ => 0) 0 [0x00, 0x50, 0x62, 0x14]) 0x1000
          [0x41, 0x42, 0x43, 0xff, 0xff, 0xff, 0xff]) 0
      ⟨List.replicate 17 0x55, 1, 2, 3, 4, 5, 6, 7, 8, 9, 10, 11, 12⟩).name =
      [0x41, 0x42, 0x43] :=
  ⟨by decide,
   ((C21_uv5r_channel_name.1 (fun _ => 0)
      (store (store (fun _ => 0) 0 [0x00, 0x50, 0x62, 0x14]) 0x1000
          [0x41, 0x42, 0x43, 0xff, 0xff, 0xff, 0xff]) 0
      ⟨List.replicate 17 0x55, 1, 2, 3, 4, 5, 6, 7, 8, 9, 10, 11, 12⟩ (by decide)).2.1
      (by decide)).1.trans (by decide)⟩

/-- Once the pointer of the UV-B5 name loop rests on a byte that is not below
42, every further position is NUL. -/
theorem name_loop_stuck (mem : Mem) (p : Nat) (hp : ¬ byte mem p < 42) :
    ∀ k : Nat, UVB5.name_loop mem k p = List.replicate k 0 := by
  intro k
  induction k with
  | zero => rfl
  | succ k ih =>
    simp only [UVB5.name_loop, if_neg hp, ih, List.replicate_succ]

/-- Position `n` of the UV-B5 name loop: the glyph of byte `n` when the bytes
`0 .. n` are all below 42, NUL otherwise. -/
theorem name_loop_getD (mem : Mem) :
    ∀ (k p n : Nat), n < k →
      (UVB5.name_loop mem k p).getD n 0 =
        if ∀ j, j ≤ n → byte mem (p + j) < 42 then UVB5.CHARSET.getD (byte mem (p + n)) 0
        else 0 := by
  intro k
  induction k with
  | zero => intro p n hn; omega
  | succ k ih =>
    intro p n hn
    by_cases hp : byte mem p < 42
    · simp only [UVB5.name_loop, if_pos hp]
      cases n with
      | zero =>
        have hall : ∀ j, j ≤ 0 → byte mem (p + j) < 42 := by
          intro j hj
          have : j = 0 := by omega
          subst this
          exact hp
        rw [if_pos hall]
        rfl
      | succ n =>
        have hrec := ih (p + 1) n (by omega)
        have hiff : (∀ j, j ≤ n + 1 → byte mem (p + j) < 42) ↔
            (∀ j, j ≤ n → byte mem (p + 1 + j) < 42) := by
          constructor
          · intro h j hj
            have := h (j + 1) (by omega)
            rwa [show p + (j + 1) = p + 1 + j by omega] at this
          · intro h j hj
            cases j with
            | zero => exact hp
            | succ j =>
              have := h j (by omega)
              rwa [show p + 1 + j = p + (j + 1) by omega] at this
        rw [show p + (n + 1) = p + 1 + n by omega]
        simp only [hiff]
        simpa [List.getD_cons_succ] using hrec
    · rw [name_loop_stuck mem p hp]
      have hnot : ¬ ∀ j, j ≤ n → byte mem (p + j) < 42 := fun h => hp (h 0 (Nat.zero_le _))
      rw [if_neg hnot, List.getD_eq_getElem?_getD, List.getElem?_replicate, if_pos hn]
      rfl

/-- The glyphs of `CHARSET` are not NUL. -/
theorem charset_ne_zero : ∀ b : Nat, b < 42 → UVB5.CHARSET.getD b 0 ≠ 0 := by
  decide

/-- The UV-B5 name loop followed by the terminator, read as a string: the
glyphs of the bytes before the first byte that is not below 42. -/
theorem name_loop_cstr (mem : Mem) :
    ∀ (k p : Nat) (rest : List Nat),
      cstr (UVB5.name_loop mem k p ++ 0 :: rest) =
        ((bytes mem p k).takeWhile (fun b => decide (b < 42))).map
          (fun b => UVB5.CHARSET.getD b 0) := by
  intro k
  induction k with
  | zero =>
    intro p rest
    simp [UVB5.name_loop, bytes, cstr]
  | succ k ih =>
    intro p rest
    have hb : bytes mem p (k + 1) = byte mem p :: bytes mem (p + 1) k := by
      simp only [bytes, List.range_succ_eq_map, List.map_cons, List.map_map, Nat.add_zero]
      refine congrArg _ (List.map_congr_left ?_)
      intro j _
      simp only [Function.comp]
      rw [show p + (j + 1) = p + 1 + j by omega]
    rw [hb]
    by_cases hp : byte mem p < 42
    · simp only [UVB5.name_loop, if_pos hp, List.cons_append]
      rw [List.takeWhile_cons_of_pos (by simpa using hp), List.map_cons, ← ih (p + 1) rest]
      have hne := charset_ne_zero _ hp
      unfold cstr
      rw [List.takeWhile_cons_of_pos (by simpa using hne)]
    · rw [name_loop_stuck mem p hp, List.takeWhile_cons_of_neg (by simpa using hp)]
      cases k with
      | zero => simp [cstr]
      | succ k => simp [cstr, List.replicate_succ]

/-- The UV-B5 name loop fills one position per round. -/
theorem name_loop_length (mem : Mem) : ∀ (k p : Nat), (UVB5.name_loop mem k p).length = k := by
  intro k
  induction k with
  | zero => intro p; rfl
  | succ k ih =>
    intro p
    by_cases hp : byte mem p < 42
    · simp only [UVB5.name_loop, if_pos hp, List.length_cons, ih]
    · simp only [UVB5.name_loop, if_neg hp, List.length_cons, ih]

/-- C22, as the code has it: for an enabled slot `i` in `1..99` of the UV-B5
with name bytes `b0..b4` at `0x0A00 + 5*(i-1)`, position `n` of the name is the
glyph `CHARSET[b_n]` when all of `b_0 .. b_n` are below 42 and NUL otherwise,
so every position from the first byte `>= 42` on is blank; position 5 is the
terminator. Read as a string, the name is the glyphs of the bytes before the
first byte that is not below 42. -/
theorem C22_uvb5_name_positions (bcd beyond : Nat → Int) (radio_mem : Mem) (i : Nat)
    (o : UVB5.Channel) (buf : List Nat) (hi1 : 1 ≤ i) (hi2 : i ≤ 99)
    (hen : ¬ (rd32 radio_mem (16 * i) = 0 ∨ rd32 radio_mem (16 * i) = 0xffffffff))
    (hname : o.name = some buf) :
    ∃ name : List Nat,
      (UVB5.decode_channel bcd beyond radio_mem i o).name = some name ∧
      (∀ n, n < 5 → name.getD n 0 =
        if ∀ j, j ≤ n → byte radio_mem (0x0A00 + (i - 1) * 5 + j) < 42 then
          UVB5.CHARSET.getD (byte radio_mem (0x0A00 + (i - 1) * 5 + n)) 0
        else 0) ∧
      name.getD 5 0 = 0 ∧
      cstr name =
        ((bytes radio_mem (0x0A00 + (i - 1) * 5) 5).takeWhile (fun b => decide (b < 42))).map
          (fun b => UVB5.CHARSET.getD b 0) := by
  refine ⟨UVB5.name_loop radio_mem 5 (0x0A00 + (i - 1) * 5) ++ 0 :: (0 :: buf.drop 1).drop 6,
    ?_, ?_, ?_, ?_⟩
  · have hi : 1 ≤ i ∧ i ≤ UVB5.NCHAN := ⟨hi1, hi2⟩
    simp only [UVB5.decode_channel, if_neg hen, hname, Option.map_some', if_pos hi]
  · intro n hn
    rw [← name_loop_getD radio_mem 5 _ n hn, List.getD_eq_getElem?_getD,
      List.getElem?_append_left (by rw [name_loop_length]; exact hn), ← List.getD_eq_getElem?_getD]
  · rw [List.getD_eq_getElem?_getD,
      List.getElem?_append_right (by rw [name_loop_length]), name_loop_length, Nat.sub_self,
      List.getElem?_cons_zero]
    rfl
  · exact name_loop_cstr radio_mem 5 _ _

/-- C22 at slot 1 with the name bytes `0C 19 0D 01 02`: the name is `A`, `N`,
`B`, `1`, `2`. -/
theorem C22_uvb5_name_positions_witness :
    ∃ name : List Nat,
      (UVB5.decode_channel bcd_to_int (fun _ => 0)
        (store (store (fun _ => 0) 16 [0x00, 0x50, 0x62, 0x14]) 0x0A00 [12, 25, 13, 1, 2]) 1
        ⟨some (List.replicate 17 0x55), 1, 2, 3, 4, 5, 6, 7, 8, 9, 10, 11, 12, 13, 14⟩).name =
          some name ∧
      cstr name = [0x41, 0x4E, 0x42, 0x31, 0x32] :=
  (C22_uvb5_name_positions bcd_to_int (fun _ => 0)
    (store (store (fun _ => 0) 16 [0x00, 0x50, 0x62, 0x14]) 0x0A00 [12, 25, 13, 1, 2]) 1
    ⟨some (List.replicate 17 0x55), 1, 2, 3, 4, 5, 6, 7, 8, 9, 10, 11, 12, 13, 14⟩
    (List.replicate 17 0x55) (by decide) (by decide) (by decide) rfl).imp
    (fun _ h => ⟨h.1, h.2.2.2.trans (by decide)⟩)

/-- C22 read position by position fails at slot 1 with the name bytes
`0C FF 0D 01 02`: byte 2 is `0D`, below 42, with the glyph `B`, but position 2
of the decoded name is NUL, as are the positions 3 and 4. -/
theorem C22_uvb5_name_positions_counterexample :
    ¬ (∀ n, n < 5 →
        ((UVB5.decode_channel bcd_to_int (fun _ => 0)
          (store (store (fun _ => 0) 16 [0x00, 0x50, 0x62, 0x14]) 0x0A00 [12, 255, 13, 1, 2]) 1
          ⟨some (List.replicate 17 0x55), 1, 2, 3, 4, 5, 6, 7, 8, 9, 10, 11, 12, 13, 14⟩).name.getD
            []).getD n 0 =
          if byte (store (store (fun _ => 0) 16 [0x00, 0x50, 0x62, 0x14]) 0x0A00
                [12, 255, 13, 1, 2]) (0x0A00 + 5 * (1 - 1) + n) < 42 then
            UVB5.CHARSET.getD (byte (store (store (fun _ => 0) 16 [0x00, 0x50, 0x62, 0x14]) 0x0A00
                [12, 255, 13, 1, 2]) (0x0A00 + 5 * (1 - 1) + n)) 0
          else 0) := by
  decide

/-! ### Settings of the BF-888S -/

/-- A common beginning of two equal strings can be dropped. -/
theorem string_append_cancel (p a b : String) (h : p ++ a = p ++ b) : a = b := by
  have h1 := congrArg String.data h
  simp only [String.data_append] at h1
  exact String.ext (List.append_cancel_left h1)

set_option maxRecDepth 1000000 in
/-- The decimal digits of a byte above 9 differ from those of every number up
to 9. -/
theorem repr_squelch :
    ∀ v : Nat, v < 256 → ∀ w : Nat, w < 10 → 9 < v → Nat.repr v ≠ Nat.repr w := by
  decide

set_option maxRecDepth 1000000 in
/-- The decimal digits of 30 times a byte above 10 differ from `Off` and from
those of 30 times every number from 1 to 10. -/
theorem repr_timer :
    ∀ v : Nat, v < 256 → ∀ w : Nat, w < 11 → 10 < v →
      Nat.repr (v * 30) ≠ "Off" ∧ (w ≠ 0 → Nat.repr (v * 30) ≠ Nat.repr (w * 30)) := by
  decide

/-- A byte is below 256. -/
theorem byte_lt (m : Mem) (a : Nat) : byte m a < 256 :=
  Nat.mod_lt _ (by decide)

/-- C23, as the code has it: in the BF-888S settings decode, the squelch level
is printed as the decimal number of its byte and the TX timer as `Off` for 0
and as the decimal number of 30 times its byte otherwise, so the rendering of
a squelch level above 9 or of a TX timer above 10 differs from the rendering
of every legal value, without being a marker; the side key is printed as the
name of the two low bits of its byte, so a side key outside `0..3` is rendered
as the legal value with the same two low bits. The table of the VOX
sensitivity names holds the markers `?6?`, `?7?`, `?8?` at the indices 5, 6, 7,
which differ from the five legal names. -/
theorem C23_bf888s_settings_out_of_range (m1 m2 : Mem) :
    (BF888S.bf888s_print_config m1).getD 1 "" =
      "Squelch Level: " ++ Nat.repr (byte m1 0x3c1) ∧
    (9 < byte m1 0x3c1 → byte m2 0x3c1 ≤ 9 →
      (BF888S.bf888s_print_config m1).getD 1 "" ≠ (BF888S.bf888s_print_config m2).getD 1 "") ∧
    (BF888S.bf888s_print_config m1).getD 3 "" =
      "TX Timer: " ++ (if byte m1 0x3c3 = 0 then "Off" else Nat.repr (byte m1 0x3c3 * 30)) ∧
    (10 < byte m1 0x3c3 → byte m2 0x3c3 ≤ 10 →
      (BF888S.bf888s_print_config m1).getD 3 "" ≠ (BF888S.bf888s_print_config m2).getD 3 "") ∧
    (BF888S.bf888s_print_config m1).getD 2 "" =
      "Side Key: " ++ BF888S.SIDEKEY_NAME.getD (byte m1 0x3c2 % 4) "" ∧
    (byte m2 0x3c2 = byte m1 0x3c2 % 4 →
      (BF888S.bf888s_print_config m1).getD 2 "" = (BF888S.bf888s_print_config m2).getD 2 "") ∧
    (∀ k, 5 ≤ k → k < 8 → ∀ j, j < 5 →
      BF888S.VOX_NAME.getD k "" ≠ BF888S.VOX_NAME.getD j "") := by
  have hmask : ∀ x : Nat, x &&& 3 = x % 4 := fun x => Nat.and_pow_two_sub_one_eq_mod x 2
  have l1 : ∀ m : Mem, (BF888S.bf888s_print_config m).getD 1 "" =
      "Squelch Level: " ++ Nat.repr (byte m 0x3c1) := fun _ => rfl
  have l2 : ∀ m : Mem, (BF888S.bf888s_print_config m).getD 2 "" =
      "Side Key: " ++ BF888S.SIDEKEY_NAME.getD (byte m 0x3c2 % 4) "" := by
    intro m
    rw [← hmask]
    rfl
  have l3 : ∀ m : Mem, (BF888S.bf888s_print_config m).getD 3 "" =
      "TX Timer: " ++ (if byte m 0x3c3 = 0 then "Off" else Nat.repr (byte m 0x3c3 * 30)) :=
    fun _ => rfl
  refine ⟨l1 m1, ?_, l3 m1, ?_, l2 m1, ?_, by decide⟩
  · intro h1 h2 he
    rw [l1, l1] at he
    exact repr_squelch _ (byte_lt m1 _) _ (by omega) h1 (string_append_cancel _ _ _ he)
  · intro h1 h2 he
    rw [l3, l3, if_neg (by omega : ¬ byte m1 0x3c3 = 0)] at he
    have hr := repr_timer _ (byte_lt m1 0x3c3) _ (by omega : byte m2 0x3c3 < 11) h1
    have he2 := string_append_cancel _ _ _ he
    by_cases h0 : byte m2 0x3c3 = 0
    · rw [if_pos h0] at he2
      exact hr.1 he2
    · rw [if_neg h0] at he2
      exact hr.2 h0 he2
  · intro h
    rw [l2, l2, h, Nat.mod_mod]

/-- C23 at a settings block with the squelch level 10, the side key 6 and the
TX timer 11, against one with the legal values 9, 2 and 10: the squelch and
the timer lines differ, the side key lines are the same. -/
theorem C23_bf888s_settings_out_of_range_witness :
    (BF888S.bf888s_print_config (store (fun _ => 0) 0x3c1 [10, 6, 11])).getD 1 "" ≠
      (BF888S.bf888s_print_config (store (fun _ => 0) 0x3c1 [9, 2, 10])).getD 1 "" ∧
    (BF888S.bf888s_print_config (store (fun _ => 0) 0x3c1 [10, 6, 11])).getD 3 "" ≠
      (BF888S.bf888s_print_config (store (fun _ => 0) 0x3c1 [9, 2, 10])).getD 3 "" ∧
    (BF888S.bf888s_print_config (store (fun _ => 0) 0x3c1 [10, 6, 11])).getD 2 "" =
      (BF888S.bf888s_print_config (store (fun _ => 0) 0x3c1 [9, 2, 10])).getD 2 "" :=
  have h := C23_bf888s_settings_out_of_range (store (fun _ => 0) 0x3c1 [10, 6, 11])
    (store (fun _ => 0) 0x3c1 [9, 2, 10])
  ⟨h.2.1 (by decide) (by decide), h.2.2.2.1 (by decide) (by decide),
   h.2.2.2.2.2.1 (by decide)⟩

/-- C23 fails at the side key 4, which is outside `0..3`: its line is
`Side Key: Off`, the line of the legal side key 0. -/
theorem C23_bf888s_settings_out_of_range_counterexample :
    ¬ (byte (store (fun _ => 0) 0x3c2 [4]) 0x3c2 ≤ 3) ∧
    byte (store (fun _ => 0) 0x3c2 [0]) 0x3c2 ≤ 3 ∧
    (BF888S.bf888s_print_config (store (fun _ => 0) 0x3c2 [4])).getD 2 "" = "Side Key: Off" ∧
    (BF888S.bf888s_print_config (store (fun _ => 0) 0x3c2 [0])).getD 2 "" = "Side Key: Off" := by
  decide

/-- C29: the line `VOX Sensitivity` of the BF-888S settings decode shows the
entry of `VOX_NAME` selected by the three low bits of the VOX on/off byte
(offset 3 of the settings block at `0x2b0`) and does not change with the
voxgain byte (offset 4). With voxgain 2 it shows `1` when VOX is off (byte 0)
and `2` when VOX is on (byte 1), where the mapping of voxgain gives `3`. -/
theorem C29_bf888s_vox_sensitivity :
    (∀ m : Mem, (BF888S.bf888s_print_config m).getD 10 "" =
      "VOX Sensitivity: " ++ BF888S.VOX_NAME.getD (byte m 0x2b3 &&& 7) "") ∧
    (∀ (m : Mem) (g : Nat),
      (BF888S.bf888s_print_config (store m 0x2b4 [g])).getD 10 "" =
        (BF888S.bf888s_print_config m).getD 10 "") ∧
    byte (store (fun _ => 0) 0x2b3 [0, 2]) 0x2b4 = 2 ∧
    BF888S.VOX_NAME.getD 2 "" = "3" ∧
    (BF888S.bf888s_print_config (store (fun _ => 0) 0x2b3 [0, 2])).getD 10 "" =
      "VOX Sensitivity: 1" ∧
    (BF888S.bf888s_print_config (store (fun _ => 0) 0x2b3 [1, 2])).getD 10 "" =
      "VOX Sensitivity: 2" := by
  refine ⟨fun _ => rfl, ?_, by decide, by decide, by decide, by decide⟩
  intro m g
  have hb : byte (store m 0x2b4 [g]) 0x2b3 = byte m 0x2b3 := by
    simp [byte, store]
  have l10 : ∀ m : Mem, (BF888S.bf888s_print_config m).getD 10 "" =
      "VOX Sensitivity: " ++ BF888S.VOX_NAME.getD (byte m 0x2b3 &&& 7) "" := fun _ => rfl
  rw [l10, l10, hb]

/-! ### Upload of the UV-5R -/

/-- C24, as the code has it: `write_device` of `baoclone.c`, whose upload is
not implemented, returns normally to its caller; it sends no byte to the
device and leaves the port and the memory as they are. The restore branch of
`main` sends only what `identify` sends, and when `identify` and `load_image`
return it ends the program with status 0. -/
theorem C24_write_device_returns (l : Link) (ident : Mem) (is_original : Int)
    (file : Option (List Nat)) (image_ident mem : Mem) :
    (UV5R.write_device l mem).status = none ∧
    (UV5R.write_device l mem).link = l ∧
    (UV5R.write_device l mem).mem = mem ∧
    (UV5R.main_restore l ident is_original file image_ident mem).2 =
      (UV5R.identify l ident is_original).link ∧
    ((UV5R.identify l ident is_original).status = none →
      (UV5R.load_image file image_ident mem).status = none →
      (UV5R.main_restore l ident is_original file image_ident mem).1 = 0) := by
  refine ⟨rfl, rfl, rfl, ?_, ?_⟩
  · simp only [UV5R.main_restore, UV5R.write_device]
    split_ifs <;> rfl
  · intro h1 h2
    simp only [UV5R.main_restore, UV5R.write_device, h1, h2, ne_eq, not_true_eq_false,
      if_false]

/-- C24 at a radio that completes the first handshake and an image file written
by `save_image`: the restore ends with status 0 and has sent the magic, `0x02`
and `0x06` of the handshake, nothing else. -/
theorem C24_write_device_returns_witness :
    (UV5R.main_restore ⟨true, [], [[0x06], [1, 2, 3, 4, 5, 6, 7, 8], [0x06]]⟩ (fun _ => 0) 0
      (some (UV5R.save_image true (fun _ => 0x50) (fun _ => 0xff)).2)
      (fun _ => 0) (fun _ => 0)).1 = 0 ∧
    (UV5R.main_restore ⟨true, [], [[0x06], [1, 2, 3, 4, 5, 6, 7, 8], [0x06]]⟩ (fun _ => 0) 0
      (some (UV5R.save_image true (fun _ => 0x50) (fun _ => 0xff)).2)
      (fun _ => 0) (fun _ => 0)).2.sent =
      [0x50, 0xBB, 0xFF, 0x20, 0x12, 0x07, 0x25, 0x02, 0x06] :=
  have h := C24_write_device_returns ⟨true, [], [[0x06], [1, 2, 3, 4, 5, 6, 7, 8], [0x06]]⟩
    (fun _ => 0) 0 (some (UV5R.save_image true (fun _ => 0x50) (fun _ => 0xff)).2)
    (fun _ => 0) (fun _ => 0)
  ⟨h.2.2.2.2 (by decide) (uv5r_load_saved _ _ _ _).1,
   (congrArg Link.sent h.2.2.2.1).trans (by decide)⟩

/-- C24 fails on a working port with no pending input: `write_device` does not
halt the program. -/
theorem C24_write_device_returns_counterexample :
    ¬ ∃ e : Fatal, (UV5R.write_device ⟨true, [], []⟩ (fun _ => 0)).status = some e := by
  rintro ⟨e, he⟩
  have hs : (UV5R.write_device ⟨true, [], []⟩ (fun _ => 0)).status = none := rfl
  rw [hs] at he
  exact Option.noConfusion he

/-! ### Short reads -/

/-- The loop of `read_with_timeout` returns 0 or the requested length. -/
theorem read_loop_ret (len0 : Nat) :
    ∀ (inp : List (List Nat)) (len : Nat) (got : List Nat),
      (read_loop len0 inp len got).1 = 0 ∨ (read_loop len0 inp len got).1 = len0 := by
  intro inp
  induction inp with
  | nil => intro len got; exact Or.inl rfl
  | cons c rest ih =>
    intro len got
    simp only [read_loop]
    split_ifs
    · exact Or.inl rfl
    · exact Or.inl rfl
    · exact Or.inr rfl
    · exact Or.inr rfl
    · exact ih _ _

/-- The function `read_with_timeout` of `baoclone.c` returns 0 or the requested
length, never a count in between. -/
theorem read_with_timeout_ret (l : Link) (n : Nat) :
    (read_with_timeout l n).1 = 0 ∨ (read_with_timeout l n).1 = n := by
  simp only [read_with_timeout]
  exact read_loop_ret n l.inp n []

/-- C26, as the code has it: the return value of `read_with_timeout` of
`baoclone.c`. When the link delivers `k` bytes, in one or several chunks, and
then stays silent past the timeout, a request for `len` bytes returns `len`
when `k >= len`, and 0 when `k < len`: a short read is reported as 0, whatever
the number of bytes read. -/
theorem C26_read_with_timeout_count (l : Link) (pre tail : List (List Nat)) (len : Nat)
    (hinp : l.inp = pre ++ tail) (hne : ∀ c ∈ pre, c ≠ [])
    (htail : tail = [] ∨ ∃ t, tail = [] :: t) :
    (len ≤ pre.flatten.length → (read_with_timeout l len).1 = len) ∧
    (pre.flatten.length < len → (read_with_timeout l len).1 = 0) := by
  constructor
  · intro hlen
    rcases Nat.eq_zero_or_pos len with h0 | hpos
    · subst h0
      rcases read_with_timeout_ret l 0 with h | h <;> exact h
    · obtain ⟨pre1, h1, _, _⟩ := read_with_timeout_deliver_tail l pre tail
        (pre.flatten.take len) (pre.flatten.drop len) hinp hne
        (List.take_append_drop _ _).symm (by rw [List.length_take]; omega)
      have hl : (pre.flatten.take len).length = len := by rw [List.length_take]; omega
      rw [hl] at h1
      rw [h1]
  · intro hlen
    exact read_with_timeout_short l pre tail len hinp hne htail hlen

/-- C26 at a link that delivers 5 bytes in two chunks and then stays silent: a
request for 4 bytes returns 4, a request for 6 bytes returns 0. -/
theorem C26_read_with_timeout_count_witness :
    (read_with_timeout ⟨true, [], [[1, 2], [3, 4, 5], []]⟩ 4).1 = 4 ∧
    (read_with_timeout ⟨true, [], [[1, 2], [3, 4, 5], []]⟩ 6).1 = 0 :=
  ⟨(C26_read_with_timeout_count ⟨true, [], [[1, 2], [3, 4, 5], []]⟩ [[1, 2], [3, 4, 5]] [[]] 4
      rfl (by decide) (Or.inr ⟨[], rfl⟩)).1 (by decide),
   (C26_read_with_timeout_count ⟨true, [], [[1, 2], [3, 4, 5], []]⟩ [[1, 2], [3, 4, 5]] [[]] 6
      rfl (by decide) (Or.inr ⟨[], rfl⟩)).2 (by decide)⟩

/-- C26 fails at a link that delivers 3 bytes in two chunks and then stays
silent: a request for 8 bytes stores the 3 bytes and returns 0, not 3. -/
theorem C26_read_with_timeout_count_counterexample :
    ¬ ((read_with_timeout ⟨true, [], [[1, 2], [3]]⟩ 8).1 =
        ([[1, 2], [3]] : List (List Nat)).flatten.length) ∧
    read_with_timeout ⟨true, [], [[1, 2], [3]]⟩ 8 = (0, [1, 2, 3], ⟨true, [], []⟩) := by
  decide

/-! ### Receive frequency of an enabled slot -/

/-- A 32-bit field read from memory is below `2^32`. -/
theorem rd32_lt (m : Mem) (a : Nat) : rd32 m a < 4294967296 := by
  have h0 := byte_lt m a
  have h1 := byte_lt m (a + 1)
  have h2 := byte_lt m (a + 2)
  have h3 := byte_lt m (a + 3)
  unfold rd32
  omega

/-- A 32-bit word whose eight nibbles are all zero is zero. -/
theorem nibbles_zero (w : Nat) (hw : w < 4294967296)
    (h7 : w / 268435456 % 16 = 0) (h6 : w / 16777216 % 16 = 0) (h5 : w / 1048576 % 16 = 0)
    (h4 : w / 65536 % 16 = 0) (h3 : w / 4096 % 16 = 0) (h2 : w / 256 % 16 = 0)
    (h1 : w / 16 % 16 = 0) (h0 : w % 16 = 0) : w = 0 := by
  have a7 : w < 268435456 := by omega
  have a6 : w < 16777216 := by omega
  have a5 : w < 1048576 := by omega
  have a4 : w < 65536 := by omega
  have a3 : w < 4096 := by omega
  have a2 : w < 256 := by omega
  have a1 : w < 16 := by omega
  omega

/-- The weighted sum of the nibbles of a non-zero 32-bit word is positive and
at most `15 * 11111111`. -/
theorem nibble_sum_bounds (w : Nat) (hw : w < 4294967296) (h : w ≠ 0) :
    0 < w / 268435456 % 16 * 10000000 + w / 16777216 % 16 * 1000000 +
        w / 1048576 % 16 * 100000 + w / 65536 % 16 * 10000 +
        w / 4096 % 16 * 1000 + w / 256 % 16 * 100 + w / 16 % 16 * 10 + w % 16 ∧
    w / 268435456 % 16 * 10000000 + w / 16777216 % 16 * 1000000 +
        w / 1048576 % 16 * 100000 + w / 65536 % 16 * 10000 +
        w / 4096 % 16 * 1000 + w / 256 % 16 * 100 + w / 16 % 16 * 10 + w % 16 ≤ 166666665 := by
  have key : ∀ n7 n6 n5 n4 n3 n2 n1 n0 : Nat,
      n7 < 16 → n6 < 16 → n5 < 16 → n4 < 16 → n3 < 16 → n2 < 16 → n1 < 16 → n0 < 16 →
      (n7 * 10000000 + n6 * 1000000 + n5 * 100000 + n4 * 10000 + n3 * 1000 + n2 * 100 +
          n1 * 10 + n0 = 0 →
        n7 = 0 ∧ n6 = 0 ∧ n5 = 0 ∧ n4 = 0 ∧ n3 = 0 ∧ n2 = 0 ∧ n1 = 0 ∧ n0 = 0) ∧
      n7 * 10000000 + n6 * 1000000 + n5 * 100000 + n4 * 10000 + n3 * 1000 + n2 * 100 +
          n1 * 10 + n0 ≤ 166666665 := by
    intro n7 n6 n5 n4 n3 n2 n1 n0 _ _ _ _ _ _ _ _
    constructor
    · intro hz
      refine ⟨?_, ?_, ?_, ?_, ?_, ?_, ?_, ?_⟩ <;> omega
    · omega
  obtain ⟨kz, kb⟩ := key (w / 268435456 % 16) (w / 16777216 % 16) (w / 1048576 % 16)
    (w / 65536 % 16) (w / 4096 % 16) (w / 256 % 16) (w / 16 % 16) (w % 16)
    (Nat.mod_lt _ (by decide)) (Nat.mod_lt _ (by decide)) (Nat.mod_lt _ (by decide))
    (Nat.mod_lt _ (by decide)) (Nat.mod_lt _ (by decide)) (Nat.mod_lt _ (by decide))
    (Nat.mod_lt _ (by decide)) (Nat.mod_lt _ (by decide))
  refine ⟨?_, kb⟩
  apply Nat.pos_of_ne_zero
  intro hz
  obtain ⟨z7, z6, z5, z4, z3, z2, z1, z0⟩ := kz hz
  exact h (nibbles_zero w hw z7 z6 z5 z4 z3 z2 z1 z0)

/-- A non-negative `int` below `2^31` is not changed by wrapping to 32 bits. -/
theorem wrapInt32_of_range (x : Int) (h0 : 0 ≤ x) (h1 : x < 2147483648) : wrapInt32 x = x := by
  unfold wrapInt32 toInt32
  have e1 : x % 2 ^ 32 = x := Int.emod_eq_of_lt h0 (by omega)
  rw [e1]
  have e2 : ((x.toNat : Nat) : Int) = x := Int.toNat_of_nonneg h0
  have e3 : x.toNat % 2 ^ 32 = x.toNat := Nat.mod_eq_of_lt (by omega)
  rw [e3, e2, if_pos (by omega)]

/-- C27: in the UV-5R and the BF-888S decoder the decoded receive frequency is
zero exactly when the slot is disabled. For every 32-bit receive-frequency
field other than 0 and `0xFFFFFFFF`, valid BCD or not, `rx_hz` is 10 times the
weighted sum of the eight nibbles, without wrapping, is strictly positive and
is below `2^31`; so `rx_hz = 0`, the test by which `print_config` skips a
channel, holds exactly for the two sentinel values. -/
theorem C27_rx_hz_zero_iff_disabled (beyond : Nat → Int) (m5 m8 : Mem) (i : Nat)
    (o5 : UV5R.Channel) (o8 : BF888S.Channel) :
    (rd32 m5 (16 * i) ≠ 0 → rd32 m5 (16 * i) ≠ 0xffffffff →
      (UV5R.decode_channel beyond m5 i o5).rx_hz =
        ((10 * (rd32 m5 (16 * i) / 268435456 % 16 * 10000000 +
          rd32 m5 (16 * i) / 16777216 % 16 * 1000000 +
          rd32 m5 (16 * i) / 1048576 % 16 * 100000 + rd32 m5 (16 * i) / 65536 % 16 * 10000 +
          rd32 m5 (16 * i) / 4096 % 16 * 1000 + rd32 m5 (16 * i) / 256 % 16 * 100 +
          rd32 m5 (16 * i) / 16 % 16 * 10 + rd32 m5 (16 * i) % 16) : Nat) : Int) ∧
      0 < (UV5R.decode_channel beyond m5 i o5).rx_hz ∧
      (UV5R.decode_channel beyond m5 i o5).rx_hz < 2 ^ 31) ∧
    ((UV5R.decode_channel beyond m5 i o5).rx_hz = 0 ↔
      (rd32 m5 (16 * i) = 0 ∨ rd32 m5 (16 * i) = 0xffffffff)) ∧
    (rd32 m8 (0x10 + 16 * i) ≠ 0 → rd32 m8 (0x10 + 16 * i) ≠ 0xffffffff →
      (BF888S.decode_channel m8 i o8).rx_hz =
        ((10 * (rd32 m8 (0x10 + 16 * i) / 268435456 % 16 * 10000000 +
          rd32 m8 (0x10 + 16 * i) / 16777216 % 16 * 1000000 +
          rd32 m8 (0x10 + 16 * i) / 1048576 % 16 * 100000 +
          rd32 m8 (0x10 + 16 * i) / 65536 % 16 * 10000 +
          rd32 m8 (0x10 + 16 * i) / 4096 % 16 * 1000 + rd32 m8 (0x10 + 16 * i) / 256 % 16 * 100 +
          rd32 m8 (0x10 + 16 * i) / 16 % 16 * 10 + rd32 m8 (0x10 + 16 * i) % 16) : Nat) : Int) ∧
      0 < (BF888S.decode_channel m8 i o8).rx_hz ∧
      (BF888S.decode_channel m8 i o8).rx_hz < 2 ^ 31) ∧
    ((BF888S.decode_channel m8 i o8).rx_hz = 0 ↔
      (rd32 m8 (0x10 + 16 * i) = 0 ∨ rd32 m8 (0x10 + 16 * i) = 0xffffffff)) := by
  have h5 : rd32 m5 (16 * i) ≠ 0 → rd32 m5 (16 * i) ≠ 0xffffffff →
      (UV5R.decode_channel beyond m5 i o5).rx_hz =
        ((10 * (rd32 m5 (16 * i) / 268435456 % 16 * 10000000 +
          rd32 m5 (16 * i) / 16777216 % 16 * 1000000 +
          rd32 m5 (16 * i) / 1048576 % 16 * 100000 + rd32 m5 (16 * i) / 65536 % 16 * 10000 +
          rd32 m5 (16 * i) / 4096 % 16 * 1000 + rd32 m5 (16 * i) / 256 % 16 * 100 +
          rd32 m5 (16 * i) / 16 % 16 * 10 + rd32 m5 (16 * i) % 16) : Nat) : Int) ∧
      0 < (UV5R.decode_channel beyond m5 i o5).rx_hz ∧
      (UV5R.decode_channel beyond m5 i o5).rx_hz < 2 ^ 31 := by
    intro hz hf
    obtain ⟨hpos, hle⟩ := nibble_sum_bounds _ (rd32_lt m5 (16 * i)) hz
    have hrx : (UV5R.decode_channel beyond m5 i o5).rx_hz = bcd_to_hz (rd32 m5 (16 * i)) := by
      simp only [UV5R.decode_channel]
      rw [if_neg (by rintro (h | h); exact hz h; exact hf h)]
    rw [hrx, bcd_to_hz_eq]
    refine ⟨?_, ?_, ?_⟩ <;> omega
  have h8 : rd32 m8 (0x10 + 16 * i) ≠ 0 → rd32 m8 (0x10 + 16 * i) ≠ 0xffffffff →
      (BF888S.decode_channel m8 i o8).rx_hz =
        ((10 * (rd32 m8 (0x10 + 16 * i) / 268435456 % 16 * 10000000 +
          rd32 m8 (0x10 + 16 * i) / 16777216 % 16 * 1000000 +
          rd32 m8 (0x10 + 16 * i) / 1048576 % 16 * 100000 +
          rd32 m8 (0x10 + 16 * i) / 65536 % 16 * 10000 +
          rd32 m8 (0x10 + 16 * i) / 4096 % 16 * 1000 + rd32 m8 (0x10 + 16 * i) / 256 % 16 * 100 +
          rd32 m8 (0x10 + 16 * i) / 16 % 16 * 10 + rd32 m8 (0x10 + 16 * i) % 16) : Nat) : Int) ∧
      0 < (BF888S.decode_channel m8 i o8).rx_hz ∧
      (BF888S.decode_channel m8 i o8).rx_hz < 2 ^ 31 := by
    intro hz hf
    obtain ⟨hpos, hle⟩ := nibble_sum_bounds _ (rd32_lt m8 (0x10 + 16 * i)) hz
    have hrx : (BF888S.decode_channel m8 i o8).rx_hz =
        wrapInt32 (bcd_to_int (rd32 m8 (0x10 + 16 * i)) * 10) := by
      simp only [BF888S.decode_channel]
      rw [if_neg (by rintro (h | h); exact hz h; exact hf h)]
    rw [hrx, bcd_to_int_eq, wrapInt32_of_range _ (by omega) (by omega)]
    refine ⟨?_, ?_, ?_⟩ <;> omega
  refine ⟨h5, ?_, h8, ?_⟩
  · constructor
    · intro h0
      by_contra hn
      have hz : rd32 m5 (16 * i) ≠ 0 := fun h => hn (Or.inl h)
      have hf : rd32 m5 (16 * i) ≠ 0xffffffff := fun h => hn (Or.inr h)
      have := (h5 hz hf).2.1
      omega
    · intro h
      simp only [UV5R.decode_channel, if_pos h]
  · constructor
    · intro h0
      by_contra hn
      have hz : rd32 m8 (0x10 + 16 * i) ≠ 0 := fun h => hn (Or.inl h)
      have hf : rd32 m8 (0x10 + 16 * i) ≠ 0xffffffff := fun h => hn (Or.inr h)
      have := (h8 hz hf).2.1
      omega
    · intro h
      simp only [BF888S.decode_channel, if_pos h]

/-- C27 at the receive-frequency field `0xFFFFFFFE`, which is not BCD: the
UV-5R decodes slot 0 to 1666666640 Hz and the BF-888S likewise, both positive
and below `2^31`. -/
theorem C27_rx_hz_zero_iff_disabled_witness :
    0 < (UV5R.decode_channel (fun _ => 0) (store (fun _ => 0) 0 [0xfe, 0xff, 0xff, 0xff]) 0
      ⟨[], 0, 0, 0, 0, 0, 0, 0, 0, 0, 0, 0, 0⟩).rx_hz ∧
    (UV5R.decode_channel (fun _ => 0) (store (fun _ => 0) 0 [0xfe, 0xff, 0xff, 0xff]) 0
      ⟨[], 0, 0, 0, 0, 0, 0, 0, 0, 0, 0, 0, 0⟩).rx_hz < 2 ^ 31 ∧
    0 < (BF888S.decode_channel (store (fun _ => 0) 0x10 [0xfe, 0xff, 0xff, 0xff]) 0
      ⟨0, 0, 0, 0, 0, 0, 0, 0, 0, 0, 0⟩).rx_hz ∧
    (BF888S.decode_channel (store (fun _ => 0) 0x10 [0xfe, 0xff, 0xff, 0xff]) 0
      ⟨0, 0, 0, 0, 0, 0, 0, 0, 0, 0, 0⟩).rx_hz < 2 ^ 31 :=
  have h := C27_rx_hz_zero_iff_disabled (fun _ => 0)
    (store (fun _ => 0) 0 [0xfe, 0xff, 0xff, 0xff])
    (store (fun _ => 0) 0x10 [0xfe, 0xff, 0xff, 0xff]) 0
    ⟨[], 0, 0, 0, 0, 0, 0, 0, 0, 0, 0, 0, 0⟩ ⟨0, 0, 0, 0, 0, 0, 0, 0, 0, 0, 0⟩
  ⟨(h.1 (by decide) (by decide)).2.1, (h.1 (by decide) (by decide)).2.2,
   (h.2.2.1 (by decide) (by decide)).2.1, (h.2.2.1 (by decide) (by decide)).2.2⟩

/-! ### Flags of a UV-5R channel -/

set_option maxRecDepth 100000 in
/-- The two PTT-ID bit-fields, combined as `pttidbot | (pttideot << 1)`, are the
two low bits of their byte. -/
theorem pttid_bits : ∀ b : Nat, b < 256 →
    (bits b 0 1 ||| (bits b 1 1 <<< 1)) = b &&& 3 ∧ b &&& 3 = b % 4 ∧
    b &&& 3 = b % 2 + 2 * (b / 2 % 2) := by
  decide

/-- The bit-fields of the flag bytes, as quotients and remainders. -/
theorem flag_bits (b : Nat) :
    bits b 0 1 = b % 2 ∧ bits b 2 1 = b / 4 % 2 ∧ bits b 3 1 = b / 8 % 2 ∧
    bits b 6 1 = b / 64 % 2 ∧ bits b 0 4 = b % 16 := by
  simp only [bits, Nat.shiftRight_eq_div_pow, Nat.reducePow, Nat.div_one, and_self]

/-- The flags of an enabled UV-5R slot, as `decode_channel` of `baoclone.c`
extracts them. -/
theorem uv5r_decode_channel_flags (beyond : Nat → Int) (mem : Mem) (i : Nat) (o : UV5R.Channel)
    (h : ¬ (rd32 mem (16 * i) = 0 ∨ rd32 mem (16 * i) = 0xffffffff)) :
    (UV5R.decode_channel beyond mem i o).pttid = ((byte mem (16 * i + 15) % 4 : Nat) : Int) ∧
    (UV5R.decode_channel beyond mem i o).scan = ((byte mem (16 * i + 15) / 4 % 2 : Nat) : Int) ∧
    (UV5R.decode_channel beyond mem i o).bcl = ((byte mem (16 * i + 15) / 8 % 2 : Nat) : Int) ∧
    (UV5R.decode_channel beyond mem i o).wide = ((byte mem (16 * i + 15) / 64 % 2 : Nat) : Int) ∧
    (UV5R.decode_channel beyond mem i o).lowpower = ((byte mem (16 * i + 14) % 2 : Nat) : Int) ∧
    (UV5R.decode_channel beyond mem i o).scode = ((byte mem (16 * i + 12) % 16 : Nat) : Int) := by
  obtain ⟨p1, p2, _⟩ := pttid_bits _ (byte_lt mem (16 * i + 15))
  have f15 := flag_bits (byte mem (16 * i + 15))
  have f14 := flag_bits (byte mem (16 * i + 14))
  have f12 := flag_bits (byte mem (16 * i + 12))
  simp only [UV5R.decode_channel, if_neg h, p1, p2, f15.2.1, f15.2.2.1, f15.2.2.2.1, f14.1,
    f12.2.2.2.2, and_self]

/-- C28: flag extraction of the UV-5R on the 16-byte record at `16*i` of an
enabled slot. PTT-ID is byte 15 AND 3, with bit 0 for begin and bit 1 for end,
so it lies in `0..3`, and `PTTID_NAME` maps 0, 1, 2, 3 to `-`, `Beg`, `End`,
`Both`; scan is bit 2, busy-channel lockout bit 3 and wide bit 6 of byte 15;
low power is bit 0 of byte 14; the side-tone group is the low nibble of byte
12. Each flag depends on no other bit: two memories that agree on the bits of
a flag decode to the same flag. -/
theorem C28_uv5r_flags (beyond : Nat → Int) (mem mem2 : Mem) (i : Nat) (o o2 : UV5R.Channel)
    (h : ¬ (rd32 mem (16 * i) = 0 ∨ rd32 mem (16 * i) = 0xffffffff))
    (h2 : ¬ (rd32 mem2 (16 * i) = 0 ∨ rd32 mem2 (16 * i) = 0xffffffff)) :
    ((UV5R.decode_channel beyond mem i o).pttid =
        ((byte mem (16 * i + 15) &&& 3 : Nat) : Int) ∧
      (UV5R.decode_channel beyond mem i o).pttid =
        ((byte mem (16 * i + 15) % 2 + 2 * (byte mem (16 * i + 15) / 2 % 2) : Nat) : Int) ∧
      0 ≤ (UV5R.decode_channel beyond mem i o).pttid ∧
      (UV5R.decode_channel beyond mem i o).pttid ≤ 3 ∧
      UV5R.PTTID_NAME.getD (UV5R.decode_channel beyond mem i o).pttid.toNat "" =
        (if byte mem (16 * i + 15) &&& 3 = 0 then "-"
         else if byte mem (16 * i + 15) &&& 3 = 1 then "Beg"
         else if byte mem (16 * i + 15) &&& 3 = 2 then "End" else "Both")) ∧
    ((UV5R.decode_channel beyond mem i o).scan = ((byte mem (16 * i + 15) / 4 % 2 : Nat) : Int) ∧
      (UV5R.decode_channel beyond mem i o).bcl = ((byte mem (16 * i + 15) / 8 % 2 : Nat) : Int) ∧
      (UV5R.decode_channel beyond mem i o).wide =
        ((byte mem (16 * i + 15) / 64 % 2 : Nat) : Int) ∧
      (UV5R.decode_channel beyond mem i o).lowpower =
        ((byte mem (16 * i + 14) % 2 : Nat) : Int) ∧
      (UV5R.decode_channel beyond mem i o).scode =
        ((byte mem (16 * i + 12) % 16 : Nat) : Int)) ∧
    ((byte mem (16 * i + 15) % 4 = byte mem2 (16 * i + 15) % 4 →
        (UV5R.decode_channel beyond mem i o).pttid =
          (UV5R.decode_channel beyond mem2 i o2).pttid) ∧
      (byte mem (16 * i + 15) / 4 % 2 = byte mem2 (16 * i + 15) / 4 % 2 →
        (UV5R.decode_channel beyond mem i o).scan =
          (UV5R.decode_channel beyond mem2 i o2).scan) ∧
      (byte mem (16 * i + 15) / 8 % 2 = byte mem2 (16 * i + 15) / 8 % 2 →
        (UV5R.decode_channel beyond mem i o).bcl =
          (UV5R.decode_channel beyond mem2 i o2).bcl) ∧
      (byte mem (16 * i + 15) / 64 % 2 = byte mem2 (16 * i + 15) / 64 % 2 →
        (UV5R.decode_channel beyond mem i o).wide =
          (UV5R.decode_channel beyond mem2 i o2).wide) ∧
      (byte mem (16 * i + 14) % 2 = byte mem2 (16 * i + 14) % 2 →
        (UV5R.decode_channel beyond mem i o).lowpower =
          (UV5R.decode_channel beyond mem2 i o2).lowpower) ∧
      (byte mem (16 * i + 12) % 16 = byte mem2 (16 * i + 12) % 16 →
        (UV5R.decode_channel beyond mem i o).scode =
          (UV5R.decode_channel beyond mem2 i o2).scode)) := by
  obtain ⟨a1, a2, a3, a4, a5, a6⟩ := uv5r_decode_channel_flags beyond mem i o h
  obtain ⟨b1, b2, b3, b4, b5, b6⟩ := uv5r_decode_channel_flags beyond mem2 i o2 h2
  obtain ⟨_, p2, p3⟩ := pttid_bits _ (byte_lt mem (16 * i + 15))
  have hlt : byte mem (16 * i + 15) % 4 < 4 := Nat.mod_lt _ (by decide)
  refine ⟨⟨?_, ?_, ?_, ?_, ?_⟩, ⟨a2, a3, a4, a5, a6⟩, ⟨?_, ?_, ?_, ?_, ?_, ?_⟩⟩
  · rw [a1, p2]
  · rw [a1, ← p2, p3]
  · rw [a1]; omega
  · rw [a1]; omega
  · rw [a1, p2, Int.toNat_ofNat]
    generalize byte mem (16 * i + 15) % 4 = v at hlt
    interval_cases v <;> rfl
  · intro e; rw [a1, b1, e]
  · intro e; rw [a2, b2, e]
  · intro e; rw [a3, b3, e]
  · intro e; rw [a4, b4, e]
  · intro e; rw [a5, b5, e]
  · intro e; rw [a6, b6, e]

/-- C28 at slot 2 with the bytes 12, 14 and 15 of the record `0x35`, `0x01`,
`0x4A` (PTT-ID end, scan off, lockout on, wide on), against a memory that
differs in all other bits of these bytes. -/
theorem C28_uv5r_flags_witness :
    (UV5R.decode_channel (fun _ => 0)
      (store (fun _ => 0) 32 [0, 0x50, 0x62, 0x14, 0, 0, 0, 0, 0, 0, 0, 0, 0x35, 0, 0x01, 0x4A]) 2
      ⟨[], 0, 0, 0, 0, 0, 0, 0, 0, 0, 0, 0, 0⟩).pttid = ((0x4A &&& 3 : Nat) : Int) ∧
    UV5R.PTTID_NAME.getD (UV5R.decode_channel (fun _ => 0)
      (store (fun _ => 0) 32 [0, 0x50, 0x62, 0x14, 0, 0, 0, 0, 0, 0, 0, 0, 0x35, 0, 0x01, 0x4A]) 2
      ⟨[], 0, 0, 0, 0, 0, 0, 0, 0, 0, 0, 0, 0⟩).pttid.toNat "" = "End" ∧
    (UV5R.decode_channel (fun _ => 0)
      (store (fun _ => 0) 32 [0, 0x50, 0x62, 0x14, 0, 0, 0, 0, 0, 0, 0, 0, 0x35, 0, 0x01, 0x4A]) 2
      ⟨[], 0, 0, 0, 0, 0, 0, 0, 0, 0, 0, 0, 0⟩).wide =
    (UV5R.decode_channel (fun _ => 0)
      (store (fun _ => 0xff) 32
        [1, 0x50, 0x62, 0x14, 9, 9, 9, 9, 9, 9, 9, 9, 0xC5, 9, 0xFF, 0xF5]) 2
      ⟨[7], 1, 2, 3, 4, 5, 6, 7, 8, 9, 10, 11, 12⟩).wide :=
  have h := C28_uv5r_flags (fun _ => 0)
    (store (fun _ => 0) 32 [0, 0x50, 0x62, 0x14, 0, 0, 0, 0, 0, 0, 0, 0, 0x35, 0, 0x01, 0x4A])
    (store (fun _ => 0xff) 32 [1, 0x50, 0x62, 0x14, 9, 9, 9, 9, 9, 9, 9, 9, 0xC5, 9, 0xFF, 0xF5])
    2 ⟨[], 0, 0, 0, 0, 0, 0, 0, 0, 0, 0, 0, 0⟩ ⟨[7], 1, 2, 3, 4, 5, 6, 7, 8, 9, 10, 11, 12⟩
    (by decide) (by decide)
  ⟨h.1.1, h.1.2.2.2.2.trans (by decide), h.2.2.2.2.2.1 (by decide)⟩

/-! ### Registers of the KGD controller -/

/-- The selector `PA & 026` of `kgd_rd` and `kgd_wr`, from the register offset
`PA & 036` by which `regname` tells the registers apart. -/
theorem kgd_select (PA r : Nat) (h : PA &&& 0o36 = r) : PA &&& 0o26 = r &&& 0o26 := by
  rw [← h, Nat.land_assoc]
  rfl

/-- The selector `PA & 026` never has bit 3, so it is none of 010, 012, 014 and
016. -/
theorem kgd_select_range (PA : Nat) :
    PA &&& 0o26 ≠ 0o10 ∧ PA &&& 0o26 ≠ 0o12 ∧ PA &&& 0o26 ≠ 0o14 ∧ PA &&& 0o26 ≠ 0o16 := by
  have h : (PA &&& 0o26) &&& 0o10 = 0 := by
    rw [Nat.land_assoc]
    exact Nat.and_zero PA
  refine ⟨?_, ?_, ?_, ?_⟩ <;> intro e <;> rw [e] at h <;> exact absurd h (by decide)

/-- The value that `kgd_rd` stores in `*data`, by selector. -/
theorem kgd_rd_value (x : KGD.Regs) (data0 PA : Nat) :
    (PA &&& 0o26 = 0o06 → (KGD.kgd_rd x data0 PA).1 = x.kgd_sector) ∧
    (PA &&& 0o26 = 0o02 → (KGD.kgd_rd x data0 PA).1 = data0) ∧
    (PA &&& 0o26 = 0o04 → (KGD.kgd_rd x data0 PA).1 = x.kgd_err) := by
  refine ⟨?_, ?_, ?_⟩ <;> intro hsel <;> simp only [KGD.kgd_rd, hsel, if_true]
  · rw [if_neg (by decide), if_neg (by decide)]
  · rw [if_neg (by decide), if_neg (by decide), if_neg (by decide), if_neg (by decide),
      if_neg (by decide), if_neg (by decide), if_neg (by decide), if_neg (by decide)]
  · rw [if_neg (by decide)]

/-- The interrupt update at the end of `kgd_wr` changes no register. -/
theorem kgd_wr_fields (s : KGD.Regs) (d PA : Nat) :
    (KGD.kgd_wr s d PA).kgd_sector = (KGD.kgd_wr_switch s d PA).kgd_sector ∧
    (KGD.kgd_wr s d PA).kgd_cyl = (KGD.kgd_wr_switch s d PA).kgd_cyl ∧
    (KGD.kgd_wr s d PA).kgd_head = (KGD.kgd_wr_switch s d PA).kgd_head ∧
    (KGD.kgd_wr s d PA).kgd_err = (KGD.kgd_wr_switch s d PA).kgd_err := by
  simp only [KGD.kgd_wr]
  split_ifs <;> exact ⟨rfl, rfl, rfl, rfl⟩

/-- The registers SECTOR, CYL and HEAD after `kgd_wr`, by selector. -/
theorem kgd_wr_value (s : KGD.Regs) (d PA : Nat) :
    (PA &&& 0o26 = 0o06 →
      (KGD.kgd_wr s d PA).kgd_sector = d &&& 31 ∧
      (KGD.kgd_wr s d PA).kgd_cyl = s.kgd_cyl ∧
      (KGD.kgd_wr s d PA).kgd_head = s.kgd_head ∧
      (KGD.kgd_wr s d PA).kgd_err = s.kgd_err) ∧
    (PA &&& 0o26 = 0o02 ∨ PA &&& 0o26 = 0o04 →
      (KGD.kgd_wr s d PA).kgd_sector = s.kgd_sector ∧
      (KGD.kgd_wr s d PA).kgd_cyl = s.kgd_cyl ∧
      (KGD.kgd_wr s d PA).kgd_head = s.kgd_head ∧
      (KGD.kgd_wr s d PA).kgd_err = s.kgd_err) := by
  obtain ⟨f1, f2, f3, f4⟩ := kgd_wr_fields s d PA
  rw [f1, f2, f3, f4]
  constructor
  · intro hsel
    simp only [KGD.kgd_wr_switch, hsel, if_true]
    rw [if_neg (by decide), if_neg (by decide)]
    exact ⟨rfl, rfl, rfl, rfl⟩
  · rintro (hsel | hsel)
    · simp only [KGD.kgd_wr_switch, hsel]
      rw [if_neg (by decide), if_neg (by decide), if_neg (by decide), if_neg (by decide),
        if_neg (by decide), if_neg (by decide), if_neg (by decide), if_neg (by decide)]
      exact ⟨rfl, rfl, rfl, rfl⟩
    · simp only [KGD.kgd_wr_switch, hsel, if_true]
      rw [if_neg (by decide)]
      exact ⟨rfl, rfl, rfl, rfl⟩

/-- A register access at the offset of SECTOR. -/
theorem kgd_sector_access (s : KGD.Regs) (d PA data0 : Nat) (h : PA &&& 0o36 = 0o06) :
    (KGD.kgd_rd (KGD.kgd_wr s d PA) data0 PA).1 = d &&& 31 ∧
    (KGD.kgd_wr s d PA).kgd_cyl = s.kgd_cyl ∧
    (KGD.kgd_wr s d PA).kgd_head = s.kgd_head := by
  have hsel : PA &&& 0o26 = 0o06 := kgd_select PA _ h
  obtain ⟨w1, w2, w3, _⟩ := (kgd_wr_value s d PA).1 hsel
  exact ⟨((kgd_rd_value _ data0 PA).1 hsel).trans w1, w2, w3⟩

/-- A register access at the offset of CYL. -/
theorem kgd_cyl_access (s : KGD.Regs) (d PA data0 : Nat) (h : PA &&& 0o36 = 0o12) :
    (KGD.kgd_rd (KGD.kgd_wr s d PA) data0 PA).1 = data0 ∧
    (KGD.kgd_wr s d PA).kgd_sector = s.kgd_sector ∧
    (KGD.kgd_wr s d PA).kgd_cyl = s.kgd_cyl ∧
    (KGD.kgd_wr s d PA).kgd_head = s.kgd_head := by
  have hsel : PA &&& 0o26 = 0o02 := kgd_select PA _ h
  obtain ⟨w1, w2, w3, _⟩ := (kgd_wr_value s d PA).2 (Or.inl hsel)
  exact ⟨(kgd_rd_value _ data0 PA).2.1 hsel, w1, w2, w3⟩

/-- A register access at the offset of HEAD. -/
theorem kgd_head_access (s : KGD.Regs) (d PA data0 : Nat) (h : PA &&& 0o36 = 0o14) :
    (KGD.kgd_rd (KGD.kgd_wr s d PA) data0 PA).1 = s.kgd_err ∧
    (KGD.kgd_wr s d PA).kgd_sector = s.kgd_sector ∧
    (KGD.kgd_wr s d PA).kgd_cyl = s.kgd_cyl ∧
    (KGD.kgd_wr s d PA).kgd_head = s.kgd_head := by
  have hsel : PA &&& 0o26 = 0o04 := kgd_select PA _ h
  obtain ⟨w1, w2, w3, w4⟩ := (kgd_wr_value s d PA).2 (Or.inr hsel)
  exact ⟨((kgd_rd_value _ data0 PA).2.2 hsel).trans w4, w1, w2, w3⟩

/-- C30: a write to a register of the KGD followed by a read of the same
address. The functions select the register by `PA & 026`, where `regname`
uses `PA & 036`. At the offset 006 (SECTOR) the read returns `d AND 31`, and
CYL and HEAD keep their values. At the offset 012 (CYL) the selector is 002,
which is no case of the switch: the write changes none of the three registers
and the read leaves `*data` as it was. At the offset 014 (HEAD) the selector is
004, the case of ERR: the write is ignored and the read returns the error
register. After a reset, writing 5 to CYL or to HEAD and reading back gives 0,
not 5. -/
theorem C30_kgd_register_round_trip :
    (∀ (s : KGD.Regs) (d PA data0 : Nat), PA &&& 0o36 = 0o06 →
      (KGD.kgd_rd (KGD.kgd_wr s d PA) data0 PA).1 = d &&& 31 ∧
      (KGD.kgd_wr s d PA).kgd_cyl = s.kgd_cyl ∧
      (KGD.kgd_wr s d PA).kgd_head = s.kgd_head) ∧
    (∀ (s : KGD.Regs) (d PA data0 : Nat), PA &&& 0o36 = 0o12 →
      (KGD.kgd_rd (KGD.kgd_wr s d PA) data0 PA).1 = data0 ∧
      (KGD.kgd_wr s d PA).kgd_sector = s.kgd_sector ∧
      (KGD.kgd_wr s d PA).kgd_cyl = s.kgd_cyl ∧
      (KGD.kgd_wr s d PA).kgd_head = s.kgd_head) ∧
    (∀ (s : KGD.Regs) (d PA data0 : Nat), PA &&& 0o36 = 0o14 →
      (KGD.kgd_rd (KGD.kgd_wr s d PA) data0 PA).1 = s.kgd_err ∧
      (KGD.kgd_wr s d PA).kgd_sector = s.kgd_sector ∧
      (KGD.kgd_wr s d PA).kgd_cyl = s.kgd_cyl ∧
      (KGD.kgd_wr s d PA).kgd_head = s.kgd_head) ∧
    (∀ PA : Nat, PA &&& 0o26 ≠ 0o12 ∧ PA &&& 0o26 ≠ 0o14) ∧
    (KGD.kgd_rd (KGD.kgd_wr (KGD.kgd_reset ⟨0, 0, 0, 0, 0, 0, 0, false⟩) 5 (0o172140 + 0o12))
      0 (0o172140 + 0o12)).1 = 0 ∧
    (KGD.kgd_rd (KGD.kgd_wr (KGD.kgd_reset ⟨0, 0, 0, 0, 0, 0, 0, false⟩) 5 (0o172140 + 0o14))
      0 (0o172140 + 0o14)).1 = 0 ∧
    5 &&& 1023 = 5 ∧ 5 &&& 7 = 5 :=
  ⟨kgd_sector_access, kgd_cyl_access, kgd_head_access,
   fun PA => ⟨(kgd_select_range PA).2.1, (kgd_select_range PA).2.2.1⟩,
   by decide, by decide, by decide, by decide⟩

/-- C30 at the register SECTOR after a reset: writing `0o177777` and reading
back gives 31. -/
theorem C30_kgd_register_round_trip_witness :
    (KGD.kgd_rd (KGD.kgd_wr (KGD.kgd_reset ⟨0, 0, 0, 0, 0, 0, 0, false⟩) 0o177777
      (0o172140 + 0o06)) 0 (0o172140 + 0o06)).1 = 31 :=
  (C30_kgd_register_round_trip.1 (KGD.kgd_reset ⟨0, 0, 0, 0, 0, 0, 0, false⟩) 0o177777
    (0o172140 + 0o06) 0 (by decide)).1.trans (by decide)
